import Mathlib

/-!
Agro_Trust: the off-chain batch lifecycle.

A shallow embedding of the Express handlers of `backend/routes/batchRoutes.js`
over the Mongoose models `backend/models/Batch.js` and `backend/models/User.js`.

Modelling conventions.

* A collection is the list of its documents in insertion order; `findOne` returns
  the first document matching the filter, `save` of a new document appends it,
  `save` of a loaded document and `findOneAndUpdate` rewrite the first match.
* A handler is a function from the request (authenticated role, URL parameter,
  body), the values read from the clock and the store to the response and the
  store afterwards.  `req.user.role` is set by `middleware/auth` from the signed
  token, which the login routes fill from the user document; the role is an
  argument here and ranges over the `enum` of `role` in `models/User.js`.
* `_id` and `__v` are not modelled: a document is identified by its position in
  the collection, and the document a handler saves or deletes is the one its
  `findOne` returned.
* Request bodies are taken at the types of the schema paths they are written
  to: strings, instants, a boolean, a number.  A `Date` is an instant in
  milliseconds since the epoch.  `price` is only stored, never computed with,
  and is an integer here.
* The database itself does not fail.  The only way `save` rejects is schema
  validation: Mongoose validates a document before writing it, a new one and a
  loaded one alike, and its `required` validator refuses `null` and the empty
  string.  A rejected `save` throws into the handler's `catch`, which answers
  500 and has written nothing.  `updateMany` and `findOneAndUpdate` run no
  validator.
-/

namespace AgroTrust

/-- The `enum` of `status` (and of a history entry's `action`) in `models/Batch.js`. -/
inductive Status where
  | CREATED
  | CERTIFIED
  | REJECTED
  | PURCHASED
  deriving DecidableEq, Repr

/-- The `enum` of `role` in `models/User.js`. -/
inductive Role where
  | farmer
  | certifier
  | retailer
  deriving DecidableEq, Repr

/-- An instant, in milliseconds since the epoch. -/
abbrev Date := Int

/-- One entry of `batchHistorySchema`.  `from_` is the path `from`; it is `none`
when the handler copied a `farmer` that had been set to `null`. -/
structure HistoryEntry where
  from_ : Option String
  to_ : String
  timestamp : Date
  action : Status
  deriving DecidableEq, Repr

/-- A document of `batchSchema`.  A path that is absent or `null` is `none`. -/
structure Batch where
  batchId : String
  cropName : String
  cropVariety : String
  location : String
  harvestDate : Date
  farmer : Option String
  certifier : Option String
  retailer : Option String
  status : Status
  cropHealth : Option String
  expiry : Option Date
  labResults : Option Bool
  createdAt : Date
  certifiedAt : Option Date
  purchasedAt : Option Date
  price : Int
  history : List HistoryEntry
  deriving DecidableEq, Repr

/-- A document of `userSchema`, restricted to the paths the batch routes read or
write (the wallet address and the four role-scoped lists) and the role. -/
structure User where
  walletAddress : String
  role : Role
  registeredCrops : List String
  certifiedCrops : List String
  rejectedCrops : List String
  purchasedCrops : List String
  deriving DecidableEq, Repr

/-- The off-chain store: the `Batch` and the `User` collection. -/
structure Store where
  batches : List Batch
  users : List User
  deriving DecidableEq, Repr

/-- What a handler sends: the status code, and the `message` and `batch` of the JSON body. -/
structure Response where
  status : Nat
  message : String
  batch : Option Batch
  deriving DecidableEq, Repr

/-- The body of `POST /` (`transactionHash` is destructured but never used). -/
structure CreateBody where
  batchId : String
  cropName : String
  cropVariety : String
  location : String
  harvestDate : Date
  farmer : String
  price : Int
  deriving DecidableEq, Repr

/-- The body of `PUT /:batchId/certify`. -/
structure CertifyBody where
  certifier : String
  cropHealth : String
  expiry : Date
  labResults : Bool
  deriving DecidableEq, Repr

/-- The body of `PUT /:batchId/purchase`. -/
structure PurchaseBody where
  retailer : String
  deriving DecidableEq, Repr

/-- The `from` of the history entry written by `POST /`. -/
def NULL_ADDRESS : String := "0x0000000000000000000000000000000000000000"

/-- Rewrite the first element satisfying `p` with `f`; the rest is untouched.
This is `findOneAndUpdate`, and `save` of a document loaded by `findOne`. -/
def updateFirst {α : Type} (p : α → Bool) (f : α → α) : List α → List α
  | [] => []
  | x :: xs => if p x then f x :: xs else x :: updateFirst p f xs

/-- The result of `Batch.findOne` filtered on `batchId`: exact string equality. -/
def findBatch (id : String) (bs : List Batch) : Option Batch :=
  bs.find? (fun b => decide (b.batchId = id))

/-- The result of `User.findOne` filtered on `walletAddress`. -/
def findUser (w : String) (us : List User) : Option User :=
  us.find? (fun u => decide (u.walletAddress = w))

/-- Mongo's `$addToSet` on an array path. -/
def addToSet (xs : List String) (x : String) : List String :=
  if x ∈ xs then xs else xs ++ [x]

/-- Mongoose's `required` validator on a `String` path: the empty string fails. -/
def checkRequired (s : String) : Bool := decide (s ≠ "")

/-- Validation of a `Batch` document on `save`: the `required: true` paths of
`batchSchema`.  `harvestDate` and `price` are present by their types; the `enum`
paths hold by construction. -/
def validate (b : Batch) : Bool :=
  checkRequired b.batchId && checkRequired b.cropName && checkRequired b.cropVariety &&
    checkRequired b.location &&
    (match b.farmer with
      | some f => checkRequired f
      | none => false)

/-- The handler `router.post('/', auth, ...)`.  `t₁` is the `new Date()` of the history
entry, `t₂` the `Date.now` default of `createdAt`. -/
def create (role : Role) (body : CreateBody) (t₁ t₂ : Date) (st : Store) : Response × Store :=
  if role ≠ Role.farmer then
    (⟨403, "Not authorized", none⟩, st)
  else
    match findBatch body.batchId st.batches with
    | some _ => (⟨400, "Batch already exists", none⟩, st)
    | none =>
      let history : List HistoryEntry :=
        [{ from_ := some NULL_ADDRESS, to_ := body.farmer, timestamp := t₁,
           action := Status.CREATED }]
      let newBatch : Batch :=
        { batchId := body.batchId
          cropName := body.cropName
          cropVariety := body.cropVariety
          location := body.location
          harvestDate := body.harvestDate
          farmer := some body.farmer
          certifier := none
          retailer := none
          status := Status.CREATED
          cropHealth := none
          expiry := none
          labResults := none
          createdAt := t₂
          certifiedAt := none
          purchasedAt := none
          price := body.price
          history := history }
      if validate newBatch then
        (⟨201, "Batch created successfully", some newBatch⟩,
          { batches := st.batches ++ [newBatch]
            users := updateFirst (fun u => decide (u.walletAddress = body.farmer))
              (fun u => { u with registeredCrops := addToSet u.registeredCrops body.batchId })
              st.users })
      else
        (⟨500, "Server error", none⟩, st)

/-- The handler `router.put('/:batchId/certify', auth, ...)`.  `t₁` is the `new Date()` of
`certifiedAt`, `t₂` that of the history entry. -/
def certify (role : Role) (batchId : String) (body : CertifyBody) (t₁ t₂ : Date)
    (st : Store) : Response × Store :=
  if role ≠ Role.certifier then
    (⟨403, "Not authorized", none⟩, st)
  else
    match findBatch batchId st.batches with
    | none => (⟨404, "Batch not found", none⟩, st)
    | some batch =>
      if batch.status ≠ Status.CREATED then
        (⟨400, "Batch cannot be certified", none⟩, st)
      else
        let batch' : Batch :=
          { batch with
            certifier := some body.certifier
            cropHealth := some body.cropHealth
            expiry := some body.expiry
            labResults := some body.labResults
            certifiedAt := some t₁
            status := if body.labResults then Status.CERTIFIED else Status.REJECTED
            history := batch.history ++
              [{ from_ := batch.farmer, to_ := body.certifier, timestamp := t₂,
                 action := if body.labResults then Status.CERTIFIED else Status.REJECTED }] }
        if validate batch' then
          (⟨200, if body.labResults then "Batch certified successfully" else "Batch rejected",
              some batch'⟩,
            { batches := updateFirst (fun b => decide (b.batchId = batchId)) (fun _ => batch')
                st.batches
              users :=
                if body.labResults then
                  updateFirst (fun u => decide (u.walletAddress = body.certifier))
                    (fun u =>
                      { u with certifiedCrops := addToSet u.certifiedCrops batch'.batchId })
                    st.users
                else
                  updateFirst (fun u => decide (u.walletAddress = body.certifier))
                    (fun u =>
                      { u with rejectedCrops := addToSet u.rejectedCrops batch'.batchId })
                    st.users })
        else
          (⟨500, "Server error", none⟩, st)

/-- The handler `router.put('/:batchId/purchase', auth, ...)`.  `t₁` is the `new Date()` of
`purchasedAt`, `t₂` that of the history entry. -/
def purchase (role : Role) (batchId : String) (body : PurchaseBody) (t₁ t₂ : Date)
    (st : Store) : Response × Store :=
  if role ≠ Role.retailer then
    (⟨403, "Not authorized", none⟩, st)
  else
    match findBatch batchId st.batches with
    | none => (⟨404, "Batch not found", none⟩, st)
    | some batch =>
      if batch.status ≠ Status.CERTIFIED then
        (⟨400, "Batch cannot be purchased", none⟩, st)
      else
        let batch' : Batch :=
          { batch with
            retailer := some body.retailer
            status := Status.PURCHASED
            purchasedAt := some t₁
            history := batch.history ++
              [{ from_ := batch.farmer, to_ := body.retailer, timestamp := t₂,
                 action := Status.PURCHASED }] }
        if validate batch' then
          (⟨200, "Batch purchased successfully", some batch'⟩,
            { batches := updateFirst (fun b => decide (b.batchId = batchId)) (fun _ => batch')
                st.batches
              users := updateFirst (fun u => decide (u.walletAddress = body.retailer))
                (fun u => { u with purchasedCrops := addToSet u.purchasedCrops batch'.batchId })
                st.users })
        else
          (⟨500, "Server error", none⟩, st)

/-- The handler `router.delete('/delete', ...)` of `routes/authRoutes.js` (it is not behind
`auth`).  `findByIdAndDelete` removes the document `findOne` returned; the `updateMany` that
follows is chosen by the deleted user's role. -/
def deleteAccount (walletAddress : String) (st : Store) : Response × Store :=
  if walletAddress = "" then
    (⟨400, "Wallet address is required", none⟩, st)
  else
    match findUser walletAddress st.users with
    | none => (⟨404, "User not found", none⟩, st)
    | some user =>
      (⟨200, "Account deleted successfully", none⟩,
        { users := st.users.eraseP (fun u => decide (u.walletAddress = walletAddress))
          batches :=
            match user.role with
            | Role.farmer =>
              st.batches.map (fun b =>
                if b.farmer = some walletAddress then { b with farmer := none } else b)
            | Role.certifier =>
              st.batches.map (fun b =>
                if b.certifier = some walletAddress then
                  { b with
                    certifier := none
                    status := Status.CREATED
                    certifiedAt := none
                    cropHealth := none
                    labResults := none
                    expiry := none }
                else b)
            | Role.retailer =>
              st.batches.map (fun b =>
                if b.retailer = some walletAddress then
                  { b with
                    retailer := none
                    status := Status.CERTIFIED
                    purchasedAt := none }
                else b) })

/-! ## The error taxonomy of the specification, as the responses the handlers send -/

/-- `Unauthorized`: the 403 of the role check. -/
def Unauthorized : Response := ⟨403, "Not authorized", none⟩

/-- `DuplicateBatch`: the 400 of the existence check of `POST /`. -/
def DuplicateBatch : Response := ⟨400, "Batch already exists", none⟩

/-- `NotFound`: the 404 of the lookup of the two `PUT` handlers. -/
def NotFound : Response := ⟨404, "Batch not found", none⟩

/-- `IllegalTransition`: the 400 of the state check of either `PUT` handler. -/
def IllegalTransition (r : Response) : Prop :=
  r = ⟨400, "Batch cannot be certified", none⟩ ∨ r = ⟨400, "Batch cannot be purchased", none⟩

instance (r : Response) : Decidable (IllegalTransition r) := by
  unfold IllegalTransition; infer_instance

/-! ## The documents a successful handler writes, named for the statements below -/

/-- The document `POST /` saves. -/
def createdDoc (body : CreateBody) (t₁ t₂ : Date) : Batch :=
  { batchId := body.batchId
    cropName := body.cropName
    cropVariety := body.cropVariety
    location := body.location
    harvestDate := body.harvestDate
    farmer := some body.farmer
    certifier := none
    retailer := none
    status := Status.CREATED
    cropHealth := none
    expiry := none
    labResults := none
    createdAt := t₂
    certifiedAt := none
    purchasedAt := none
    price := body.price
    history := [⟨some NULL_ADDRESS, body.farmer, t₁, Status.CREATED⟩] }

/-- The document `PUT /:batchId/certify` saves over `batch`. -/
def certifiedDoc (batch : Batch) (body : CertifyBody) (t₁ t₂ : Date) : Batch :=
  { batch with
    certifier := some body.certifier
    cropHealth := some body.cropHealth
    expiry := some body.expiry
    labResults := some body.labResults
    certifiedAt := some t₁
    status := if body.labResults then Status.CERTIFIED else Status.REJECTED
    history := batch.history ++
      [⟨batch.farmer, body.certifier, t₂,
        if body.labResults then Status.CERTIFIED else Status.REJECTED⟩] }

/-- The document `PUT /:batchId/purchase` saves over `batch`. -/
def purchasedDoc (batch : Batch) (body : PurchaseBody) (t₁ t₂ : Date) : Batch :=
  { batch with
    retailer := some body.retailer
    status := Status.PURCHASED
    purchasedAt := some t₁
    history := batch.history ++ [⟨batch.farmer, body.retailer, t₂, Status.PURCHASED⟩] }

/-! ## Sample data -/

/-- Three registered participants and no batch. -/
def store0 : Store :=
  ⟨[], [⟨"0xF", Role.farmer, [], [], [], []⟩, ⟨"0xC", Role.certifier, [], [], [], []⟩,
        ⟨"0xR", Role.retailer, [], [], [], []⟩]⟩

/-- A well-formed creation request for batch `B1`, price 10. -/
def body0 : CreateBody := ⟨"B1", "Wheat", "Durum", "Pune", 1000, "0xF", 10⟩

/-- The same request with an empty batch identifier. -/
def bodyEmptyId : CreateBody := ⟨"", "Wheat", "Durum", "Pune", 1000, "0xF", 10⟩

/-- The store after `B1` has been created. -/
def store1 : Store := (create Role.farmer body0 5 6 store0).2

/-- The store after `B1` has been certified (passed). -/
def store2 : Store := (certify Role.certifier "B1" ⟨"0xC", "good", 9000, true⟩ 7 8 store1).2

/-- The store after the certified `B1` has been purchased. -/
def store3 : Store := (purchase Role.retailer "B1" ⟨"0xR"⟩ 9 10 store2).2

/-- The store after `B1` has been created and its farmer `0xF` has deleted the account. -/
def storeNoFarmer : Store := (deleteAccount "0xF" store1).2

/-! ## Further handlers of the backend -/

/-- The string a role is stored and compared as. -/
def Role.name : Role → String
  | Role.farmer => "farmer"
  | Role.certifier => "certifier"
  | Role.retailer => "retailer"

/-- The handler `router.post('/register', ...)` of `routes/authRoutes.js`, on the paths of
`User` modelled here: it refuses a wallet address that is taken, and saves a user whose
four lists are empty.  The handler also refuses a request whose email, username or user
id is taken; those paths are not modelled, so `register` admits every request the handler
admits.  `walletAddress` is `required`. -/
def register (walletAddress : String) (role : Role) (st : Store) : Response × Store :=
  match findUser walletAddress st.users with
  | some _ =>
    (⟨400, "User already exists with that email, username, wallet address, or user ID", none⟩,
      st)
  | none =>
    if checkRequired walletAddress then
      (⟨201, "User registered successfully", none⟩,
        { st with users := st.users ++ [⟨walletAddress, role, [], [], [], []⟩] })
    else
      (⟨500, "Server error during registration", none⟩, st)

/-- The handler `router.put('/add-crop', auth, ...)` of `routes/userRoutes.js`.  The caller's
document (`req.user.id`) is the one with the caller's wallet address; `role` is the body's
`role`, `certified` the body's `certified` when it is a boolean. -/
def addCrop (callerWallet : String) (callerRole : Role) (cropId : String)
    (role : Option String) (certified : Option Bool) (st : Store) : Response × Store :=
  if cropId = "" then
    (⟨400, "Crop ID is required", none⟩, st)
  else
    let chosen : String :=
      match role with
      | some r => if r = "" then callerRole.name else r
      | none => callerRole.name
    if chosen = "farmer" then
      (⟨200, "Crop added to user profile", none⟩,
        { st with
          users := updateFirst (fun u => decide (u.walletAddress = callerWallet))
            (fun u => { u with registeredCrops := addToSet u.registeredCrops cropId })
            st.users })
    else if chosen = "certifier" then
      match certified with
      | some true =>
        (⟨200, "Crop added to user profile", none⟩,
          { st with
            users := updateFirst (fun u => decide (u.walletAddress = callerWallet))
              (fun u => { u with certifiedCrops := addToSet u.certifiedCrops cropId })
              st.users })
      | some false =>
        (⟨200, "Crop added to user profile", none⟩,
          { st with
            users := updateFirst (fun u => decide (u.walletAddress = callerWallet))
              (fun u => { u with rejectedCrops := addToSet u.rejectedCrops cropId })
              st.users })
      | none => (⟨400, "Certification status is required", none⟩, st)
    else if chosen = "retailer" then
      (⟨200, "Crop added to user profile", none⟩,
        { st with
          users := updateFirst (fun u => decide (u.walletAddress = callerWallet))
            (fun u => { u with purchasedCrops := addToSet u.purchasedCrops cropId })
            st.users })
    else
      (⟨400, "Invalid role", none⟩, st)

/-! ## Sequences of requests -/

/-- A request to the backend. -/
inductive Op where
  | register (walletAddress : String) (role : Role)
  | create (role : Role) (body : CreateBody) (t₁ t₂ : Date)
  | certify (role : Role) (batchId : String) (body : CertifyBody) (t₁ t₂ : Date)
  | purchase (role : Role) (batchId : String) (body : PurchaseBody) (t₁ t₂ : Date)
  | deleteAccount (walletAddress : String)
  | addCrop (callerWallet : String) (callerRole : Role) (cropId : String)
      (role : Option String) (certified : Option Bool)
  deriving DecidableEq, Repr

/-- The handler a request is routed to. -/
def handle : Op → Store → Response × Store
  | Op.register w r, st => register w r st
  | Op.create role body t₁ t₂, st => create role body t₁ t₂ st
  | Op.certify role id body t₁ t₂, st => certify role id body t₁ t₂ st
  | Op.purchase role id body t₁ t₂, st => purchase role id body t₁ t₂ st
  | Op.deleteAccount w, st => deleteAccount w st
  | Op.addCrop w r c role certified, st => addCrop w r c role certified st

/-- The store after a request. -/
def step (op : Op) (st : Store) : Store := (handle op st).2

/-- The store after a sequence of requests, served one after the other. -/
def run : List Op → Store → Store
  | [], st => st
  | op :: ops, st => run ops (step op st)

/-- The store with no user and no batch. -/
def emptyStore : Store := ⟨[], []⟩

/-- The request is an account deletion. -/
def Op.isDelete : Op → Bool
  | Op.deleteAccount _ => true
  | _ => false

/-- The request is a `PUT /add-crop`. -/
def Op.isAddCrop : Op → Bool
  | Op.addCrop _ _ _ _ _ => true
  | _ => false

/-- The request is a create, certify or purchase on batch `id` that the handler answers
with success (201 for create, 200 for the other two) in store `st`: a completed transition
of that batch. -/
def completes (id : String) (st : Store) : Op → Bool
  | Op.create role body t₁ t₂ =>
    decide (body.batchId = id) && decide ((create role body t₁ t₂ st).1.status = 201)
  | Op.certify role bid body t₁ t₂ =>
    decide (bid = id) && decide ((certify role bid body t₁ t₂ st).1.status = 200)
  | Op.purchase role bid body t₁ t₂ =>
    decide (bid = id) && decide ((purchase role bid body t₁ t₂ st).1.status = 200)
  | _ => false

/-- The number of completed transitions of batch `id` in a sequence of requests served from
store `st`. -/
def completed (id : String) : List Op → Store → Nat
  | [], _ => 0
  | op :: ops, st => (if completes id st op then 1 else 0) + completed id ops (step op st)

/-! ## The batch handlers when the participant-list update fails -/

/-- `POST /` when the `User.findOneAndUpdate` after `newBatch.save()` may throw
(`listUpdateThrows`).  The call stands in the handler's single `try`: a throw lands in the
`catch`, which answers 500; the batch saved before it stays saved. -/
def createWith (listUpdateThrows : Bool) (role : Role) (body : CreateBody) (t₁ t₂ : Date)
    (st : Store) : Response × Store :=
  if role ≠ Role.farmer then
    (⟨403, "Not authorized", none⟩, st)
  else
    match findBatch body.batchId st.batches with
    | some _ => (⟨400, "Batch already exists", none⟩, st)
    | none =>
      if validate (createdDoc body t₁ t₂) then
        if listUpdateThrows then
          (⟨500, "Server error", none⟩,
            { batches := st.batches ++ [createdDoc body t₁ t₂]
              users := st.users })
        else
          (⟨201, "Batch created successfully", some (createdDoc body t₁ t₂)⟩,
            { batches := st.batches ++ [createdDoc body t₁ t₂]
              users := updateFirst (fun u => decide (u.walletAddress = body.farmer))
                (fun u => { u with registeredCrops := addToSet u.registeredCrops body.batchId })
                st.users })
      else
        (⟨500, "Server error", none⟩, st)

/-- `PUT /:batchId/certify` when the `User.findOneAndUpdate` after `batch.save()` may
throw. -/
def certifyWith (listUpdateThrows : Bool) (role : Role) (batchId : String)
    (body : CertifyBody) (t₁ t₂ : Date) (st : Store) : Response × Store :=
  if role ≠ Role.certifier then
    (⟨403, "Not authorized", none⟩, st)
  else
    match findBatch batchId st.batches with
    | none => (⟨404, "Batch not found", none⟩, st)
    | some batch =>
      if batch.status ≠ Status.CREATED then
        (⟨400, "Batch cannot be certified", none⟩, st)
      else if validate (certifiedDoc batch body t₁ t₂) then
        if listUpdateThrows then
          (⟨500, "Server error", none⟩,
            { batches := updateFirst (fun b => decide (b.batchId = batchId))
                (fun _ => certifiedDoc batch body t₁ t₂) st.batches
              users := st.users })
        else
          (⟨200, if body.labResults then "Batch certified successfully" else "Batch rejected",
              some (certifiedDoc batch body t₁ t₂)⟩,
            { batches := updateFirst (fun b => decide (b.batchId = batchId))
                (fun _ => certifiedDoc batch body t₁ t₂) st.batches
              users :=
                if body.labResults then
                  updateFirst (fun u => decide (u.walletAddress = body.certifier))
                    (fun u =>
                      { u with certifiedCrops := addToSet u.certifiedCrops batch.batchId })
                    st.users
                else
                  updateFirst (fun u => decide (u.walletAddress = body.certifier))
                    (fun u =>
                      { u with rejectedCrops := addToSet u.rejectedCrops batch.batchId })
                    st.users })
      else
        (⟨500, "Server error", none⟩, st)

/-- `PUT /:batchId/purchase` when the `User.findOneAndUpdate` after `batch.save()` may
throw. -/
def purchaseWith (listUpdateThrows : Bool) (role : Role) (batchId : String)
    (body : PurchaseBody) (t₁ t₂ : Date) (st : Store) : Response × Store :=
  if role ≠ Role.retailer then
    (⟨403, "Not authorized", none⟩, st)
  else
    match findBatch batchId st.batches with
    | none => (⟨404, "Batch not found", none⟩, st)
    | some batch =>
      if batch.status ≠ Status.CERTIFIED then
        (⟨400, "Batch cannot be purchased", none⟩, st)
      else if validate (purchasedDoc batch body t₁ t₂) then
        if listUpdateThrows then
          (⟨500, "Server error", none⟩,
            { batches := updateFirst (fun b => decide (b.batchId = batchId))
                (fun _ => purchasedDoc batch body t₁ t₂) st.batches
              users := st.users })
        else
          (⟨200, "Batch purchased successfully", some (purchasedDoc batch body t₁ t₂)⟩,
            { batches := updateFirst (fun b => decide (b.batchId = batchId))
                (fun _ => purchasedDoc batch body t₁ t₂) st.batches
              users := updateFirst (fun u => decide (u.walletAddress = body.retailer))
                (fun u => { u with purchasedCrops := addToSet u.purchasedCrops batch.batchId })
                st.users })
      else
        (⟨500, "Server error", none⟩, st)

/-! ## The pages that drive the ledger and the backend

The handlers of `frontend/src/pages`.  A handler is a function from the page's state, the
answers the ledger collaborator gives to the calls made, and the store of the backend, to
what the page shows afterwards, the transactions and backend requests it issued, in order,
and the store afterwards.  React setters, timers and navigation are not modelled.  The gas
limit of a transaction and the `estimateGas` call that only feeds it are left out; `notes`
and `transactionHash` are sent to the backend and ignored by it. -/

/-- How a call to the ledger collaborator ends: with a value, with a revert of the
contract, or with a failure of the transport.  Either failure reaches the page as a thrown
error carrying a message. -/
inductive CallResult (α : Type) where
  | ok (value : α)
  | reverted (message : String)
  | transport (message : String)
  deriving DecidableEq, Repr

/-- The library functions the pages call: `web3.utils.keccak256`, `web3.utils.toWei` to
ether (on the form's string and on the stored number; either may throw) and `Number`. -/
structure Lib where
  keccak256 : String → Nat
  toWei : String → Except String Nat
  toWeiOfNumber : Int → Except String Nat
  toNumber : String → Int

/-- The ledger collaborator during one run of a handler: the end of each call the handler
may make.  `users` answers `isRegistered` and `role`; `getBatchDetails` answers the status
value; the three transactions answer a transaction hash. -/
structure Ledger where
  users : String → CallResult (Bool × Nat)
  ownerOf : Nat → CallResult String
  getBatchDetails : Nat → CallResult Nat
  createBatch : String → String → String → String → Int → Nat → CallResult String
  certifyBatch : Nat → Bool → String → Int → CallResult String
  purchaseBatch : Nat → Nat → CallResult String

/-- A transaction sent to the ledger or a request sent to the backend. -/
inductive Effect where
  | sendCreateBatch (batchId cropName cropVariety location : String) (harvestTimestamp : Int)
      (priceInWei : Nat)
  | sendCertifyBatch (tokenId : Nat) (passed : Bool) (cropHealth : String)
      (expiryTimestamp : Int)
  | sendPurchaseBatch (tokenId : Nat) (value : Nat)
  | postBatches (body : CreateBody)
  | putCertify (batchId : String) (body : CertifyBody)
  | putPurchase (batchId : String) (body : PurchaseBody)
  deriving DecidableEq, Repr

/-- The effect is a transaction submitted to the ledger. -/
def Effect.isLedgerSubmission : Effect → Bool
  | Effect.sendCreateBatch _ _ _ _ _ _ => true
  | Effect.sendCertifyBatch _ _ _ _ => true
  | Effect.sendPurchaseBatch _ _ => true
  | _ => false

/-- What a handler leaves behind: the error it shows, whether it shows success, what it
issued, and the store of the backend. -/
structure PageResult where
  error : Option String
  success : Bool
  effects : List Effect
  store : Store
  deriving DecidableEq, Repr

/-- ECMAScript `WhiteSpace` and `LineTerminator` code points, the ones `trim` removes. -/
def isJsWhiteSpace (c : Char) : Bool :=
  c.toNat = 0x09 || c.toNat = 0x0A || c.toNat = 0x0B || c.toNat = 0x0C || c.toNat = 0x0D ||
    c.toNat = 0x20 || c.toNat = 0xA0 || c.toNat = 0x1680 ||
    (0x2000 ≤ c.toNat && c.toNat ≤ 0x200A) || c.toNat = 0x2028 || c.toNat = 0x2029 ||
    c.toNat = 0x202F || c.toNat = 0x205F || c.toNat = 0x3000 || c.toNat = 0xFEFF

/-- `String.prototype.trim`. -/
def jsTrim (s : String) : String :=
  ⟨(s.data.dropWhile isJsWhiteSpace).rdropWhile isJsWhiteSpace⟩

/-- `String.prototype.includes`. -/
def includes (s sub : String) : Bool := decide (sub.data <:+: s.data)

/-- `dateToTimestamp` of `utils/web3Utils.js`: 0 for a missing date, else the whole seconds
of the instant. -/
def dateToTimestamp (date : Option Date) : Int :=
  match date with
  | none => 0
  | some d => Int.fdiv d 1000

/-- `detailed || fallback`, the message a `catch` shows. -/
def orDefault (detailed fallback : String) : String :=
  if detailed = "" then fallback else detailed

/-- The message of the error axios throws for a response outside 2xx. -/
def axiosMessage (status : Nat) : String :=
  "Request failed with status code " ++ toString status

/-- The token id `checkOnchainBatch` probes (`CertifyBatch.js`, `cleanId` and `tokenId`). -/
def probeTokenId (lib : Lib) (batchId : String) : Nat :=
  lib.keccak256 (jsTrim batchId)

/-- The token id `handleSubmitCertification` certifies (`CertifyBatch.js`, `cleanId` and
`onchainBatchId`). -/
def certifyTokenId (lib : Lib) (batchId : String) : Nat :=
  lib.keccak256 (jsTrim batchId)

/-- The token id `fetchBatchData` reads the history of (`BatchDetail.js`, `cleanId` and
`batchIdUint`; `batchIdHash` is computed and never used). -/
def historyTokenId (lib : Lib) (batchId : String) : Nat :=
  lib.keccak256 (jsTrim batchId)

/-- The token id `handlePurchaseBatch` purchases (`BatchDetail.js`, `cleanId` and
`batchIdUint`; `batchIdHash` is computed and never used). -/
def purchaseTokenId (lib : Lib) (batchId : String) : Nat :=
  lib.keccak256 (jsTrim batchId)

/-- The effect `checkOnchainBatch` of `CertifyBatch.js`: the value it sets `onchainExists`
to (`none` is `null`, unknown). -/
def checkOnchainBatch (lib : Lib) (ledger : Ledger) (web3Ready hasBatchToken : Bool)
    (batchId : String) : Option Bool :=
  if !web3Ready || !hasBatchToken || batchId = "" then
    none
  else
    match ledger.ownerOf (probeTokenId lib batchId) with
    | CallResult.ok _ => some true
    | CallResult.reverted _ => some false
    | CallResult.transport _ => some false

/-- The state of the `CertifyBatch` page when `handleSubmitCertification` runs.
`web3Ready` says that `web3` and `contracts.agriChain` are set, `hasBatchToken` that
`contracts.batchToken` is; `account` is empty when no wallet is connected; `batch` is the
batch the page has loaded; `tokenRole` is the role in the session's token. -/
structure CertifyPage where
  batchId : String
  web3Ready : Bool
  hasBatchToken : Bool
  account : String
  batch : Option Batch
  isCertifierRegistered : Bool
  passed : Bool
  cropHealth : String
  expiry : Option Date
  tokenRole : Role

/-- The inner `try` of `handleSubmitCertification`: the status check through
`getBatchDetails`.  It throws when the status value is not 0, and when the call fails. -/
def onchainStatusCheck (ledger : Ledger) (tokenId : Nat) : Except String Unit :=
  match ledger.getBatchDetails tokenId with
  | CallResult.ok statusVal =>
    if statusVal ≠ 0 then
      Except.error "Batch is not in CREATED state on-chain and cannot be certified."
    else
      Except.ok ()
  | CallResult.reverted m => Except.error m
  | CallResult.transport m => Except.error m

/-- The rest of `handleSubmitCertification` from the `certifyBatch` transaction on: send
it, and when it is mined send the certification to the backend. -/
def submitCertification (lib : Lib) (ledger : Ledger) (page : CertifyPage) (t₁ t₂ : Date)
    (st : Store) : PageResult :=
  match ledger.certifyBatch (certifyTokenId lib page.batchId) page.passed page.cropHealth
      (dateToTimestamp page.expiry) with
  | CallResult.reverted m =>
    ⟨some (orDefault m "Failed to certify batch. Please try again."), false,
      [Effect.sendCertifyBatch (certifyTokenId lib page.batchId) page.passed page.cropHealth
        (dateToTimestamp page.expiry)], st⟩
  | CallResult.transport m =>
    ⟨some (orDefault m "Failed to certify batch. Please try again."), false,
      [Effect.sendCertifyBatch (certifyTokenId lib page.batchId) page.passed page.cropHealth
        (dateToTimestamp page.expiry)], st⟩
  | CallResult.ok _ =>
    if (certify page.tokenRole page.batchId
        ⟨page.account, page.cropHealth, page.expiry.getD 0, page.passed⟩ t₁ t₂ st).1.status
        = 200 then
      ⟨none, true,
        [Effect.sendCertifyBatch (certifyTokenId lib page.batchId) page.passed page.cropHealth
          (dateToTimestamp page.expiry),
         Effect.putCertify page.batchId
          ⟨page.account, page.cropHealth, page.expiry.getD 0, page.passed⟩],
        (certify page.tokenRole page.batchId
          ⟨page.account, page.cropHealth, page.expiry.getD 0, page.passed⟩ t₁ t₂ st).2⟩
    else
      ⟨some (axiosMessage (certify page.tokenRole page.batchId
          ⟨page.account, page.cropHealth, page.expiry.getD 0, page.passed⟩ t₁ t₂ st).1.status),
        false,
        [Effect.sendCertifyBatch (certifyTokenId lib page.batchId) page.passed page.cropHealth
          (dateToTimestamp page.expiry),
         Effect.putCertify page.batchId
          ⟨page.account, page.cropHealth, page.expiry.getD 0, page.passed⟩],
        (certify page.tokenRole page.batchId
          ⟨page.account, page.cropHealth, page.expiry.getD 0, page.passed⟩ t₁ t₂ st).2⟩

/-- The handler `handleSubmitCertification` of `CertifyBatch.js`.  `ownerOf` is the
existence probe: when it throws, the error is rethrown to the outer `catch`.  What the
inner status check throws is caught and ignored, so both of its ends go on. -/
def handleSubmitCertification (lib : Lib) (ledger : Ledger) (page : CertifyPage)
    (t₁ t₂ : Date) (st : Store) : PageResult :=
  if !page.web3Ready || page.account = "" || page.batch.isNone then
    ⟨some "Blockchain connection not available", false, [], st⟩
  else if !page.isCertifierRegistered then
    ⟨some "You are not registered on-chain as a Certifier. Please register first.", false,
      [], st⟩
  else if !page.hasBatchToken then
    ⟨some "Cannot read properties of undefined (reading 'methods')", false, [], st⟩
  else
    match ledger.ownerOf (certifyTokenId lib page.batchId) with
    | CallResult.reverted m =>
      ⟨some (orDefault m "Failed to certify batch. Please try again."), false, [], st⟩
    | CallResult.transport m =>
      ⟨some (orDefault m "Failed to certify batch. Please try again."), false, [], st⟩
    | CallResult.ok _ =>
      match onchainStatusCheck ledger (certifyTokenId lib page.batchId) with
      | Except.error _ => submitCertification lib ledger page t₁ t₂ st
      | Except.ok _ => submitCertification lib ledger page t₁ t₂ st

/-- The state of the `CreateBatch` page when `handleSubmit` runs: the wallet, the form
(`formData`; the date picker may hold no date) and the role in the session's token. -/
structure CreatePage where
  web3Ready : Bool
  account : String
  batchId : String
  cropName : String
  cropVariety : String
  location : String
  harvestDate : Option Date
  price : String
  tokenRole : Role

/-- The on-chain role pre-check of `handleSubmit`.  The error thrown for a wallet that is
not a registered farmer is caught by the same `catch`, which rethrows it as it is (its
message holds neither marker). -/
def farmerRoleCheck (ledger : Ledger) (account : String) : Except String Unit :=
  match ledger.users account with
  | CallResult.ok (isRegistered, role) =>
    if !isRegistered || role ≠ 0 then
      Except.error
        "Your wallet is not registered as Farmer on-chain. Register first via /debug page."
    else
      Except.ok ()
  | CallResult.reverted m =>
    if includes m "execution reverted" || includes m "User not registered" then
      Except.error
        "Your wallet is not registered as Farmer on-chain. Register first via /debug page."
    else
      Except.error m
  | CallResult.transport m =>
    if includes m "execution reverted" || includes m "User not registered" then
      Except.error
        "Your wallet is not registered as Farmer on-chain. Register first via /debug page."
    else
      Except.error m

/-- The part shared by `handleSubmit` and `createSingleBatch`: send the `createBatch`
transaction and, when it is mined, post the batch to the backend.  `fallback` is the
message the caller's `catch` shows for an error without one. -/
def submitCreation (lib : Lib) (ledger : Ledger) (tokenRole : Role) (account : String)
    (batchId cropName cropVariety location : String) (harvestDate : Date) (price : String)
    (priceInWei : Nat) (fallback : String) (t₁ t₂ : Date) (st : Store) : PageResult :=
  match ledger.createBatch batchId cropName cropVariety location (Int.fdiv harvestDate 1000)
      priceInWei with
  | CallResult.reverted m =>
    ⟨some (orDefault m fallback), false,
      [Effect.sendCreateBatch batchId cropName cropVariety location
        (Int.fdiv harvestDate 1000) priceInWei], st⟩
  | CallResult.transport m =>
    ⟨some (orDefault m fallback), false,
      [Effect.sendCreateBatch batchId cropName cropVariety location
        (Int.fdiv harvestDate 1000) priceInWei], st⟩
  | CallResult.ok _ =>
    if (create tokenRole
        ⟨batchId, cropName, cropVariety, location, harvestDate, account, lib.toNumber price⟩
        t₁ t₂ st).1.status = 201 then
      ⟨none, true,
        [Effect.sendCreateBatch batchId cropName cropVariety location
          (Int.fdiv harvestDate 1000) priceInWei,
         Effect.postBatches
          ⟨batchId, cropName, cropVariety, location, harvestDate, account,
            lib.toNumber price⟩],
        (create tokenRole
          ⟨batchId, cropName, cropVariety, location, harvestDate, account,
            lib.toNumber price⟩ t₁ t₂ st).2⟩
    else
      ⟨some (axiosMessage (create tokenRole
          ⟨batchId, cropName, cropVariety, location, harvestDate, account,
            lib.toNumber price⟩ t₁ t₂ st).1.status),
        false,
        [Effect.sendCreateBatch batchId cropName cropVariety location
          (Int.fdiv harvestDate 1000) priceInWei,
         Effect.postBatches
          ⟨batchId, cropName, cropVariety, location, harvestDate, account,
            lib.toNumber price⟩],
        (create tokenRole
          ⟨batchId, cropName, cropVariety, location, harvestDate, account,
            lib.toNumber price⟩ t₁ t₂ st).2⟩

/-- The handler `handleSubmit` of `CreateBatch.js`.  The form is validated as it stands;
the batch identifier is trimmed afterwards.  Past the validation `harvestDate` is set. -/
def handleSubmit (lib : Lib) (ledger : Ledger) (page : CreatePage) (t₁ t₂ : Date)
    (st : Store) : PageResult :=
  if !page.web3Ready || page.account = "" then
    ⟨some "Wallet not connected or contract not initialized", false, [], st⟩
  else if page.batchId = "" || page.cropName = "" || page.cropVariety = "" ||
      page.location = "" || page.harvestDate.isNone || page.price = "" then
    ⟨some "Please fill in all fields", false, [], st⟩
  else
    match lib.toWei page.price with
    | Except.error m =>
      ⟨some (orDefault m "Failed to create batch. Please try again."), false, [], st⟩
    | Except.ok priceInWei =>
      match farmerRoleCheck ledger page.account with
      | Except.error m =>
        ⟨some (orDefault m "Failed to create batch. Please try again."), false, [], st⟩
      | Except.ok _ =>
        submitCreation lib ledger page.tokenRole page.account (jsTrim page.batchId)
          page.cropName page.cropVariety page.location (page.harvestDate.getD 0) page.price
          priceInWei "Failed to create batch. Please try again." t₁ t₂ st

/-- A row of the uploaded CSV file; a column that is missing or empty is the empty string,
`harvestDate` is the instant the column parses to, if the column is filled in. -/
structure CsvRow where
  batchId : String
  cropName : String
  cropVariety : String
  location : String
  harvestDate : Option Date
  price : String

/-- The function `createSingleBatch` of `CreateBatch.js`, run on one row.  The fields are
trimmed first and validated afterwards; a missing harvest date is replaced by the current
time `now`, a missing price by `'0'`. -/
def createSingleBatch (lib : Lib) (ledger : Ledger) (tokenRole : Role) (account : String)
    (now : Date) (row : CsvRow) (t₁ t₂ : Date) (st : Store) : PageResult :=
  if jsTrim row.batchId = "" || jsTrim row.cropName = "" || jsTrim row.cropVariety = "" ||
      jsTrim row.location = "" ||
      jsTrim (if row.price = "" then "0" else row.price) = "" then
    ⟨some "CSV row missing required fields", false, [], st⟩
  else
    match lib.toWei (jsTrim (if row.price = "" then "0" else row.price)) with
    | Except.error m => ⟨some (orDefault m "Failed to process CSV"), false, [], st⟩
    | Except.ok priceInWei =>
      submitCreation lib ledger tokenRole account (jsTrim row.batchId) (jsTrim row.cropName)
        (jsTrim row.cropVariety) (jsTrim row.location) (row.harvestDate.getD now)
        (jsTrim (if row.price = "" then "0" else row.price)) priceInWei
        "Failed to process CSV" t₁ t₂ st

/-! ## More sample data -/

/-- The store after `B1` has been certified by a request whose body names the farmer's
wallet `0xF` as certifier. -/
def storeCrossRole : Store :=
  (certify Role.certifier "B1" ⟨"0xF", "good", 9000, true⟩ 7 8 store1).2

/-- A creation request for `B1` with price 0. -/
def bodyPriceZero : CreateBody := ⟨"B1", "Wheat", "Durum", "Pune", 1000, "0xF", 0⟩

/-- A creation request for `B1` with a negative price. -/
def bodyPriceNegative : CreateBody := ⟨"B1", "Wheat", "Durum", "Pune", 1000, "0xF", -5⟩

/-- Stand-ins for the library functions, to instantiate statements: the length of the
string for the hash and for the conversions. -/
def lib0 : Lib :=
  ⟨fun s => s.length, fun s => Except.ok s.length, fun n => Except.ok n.toNat,
    fun s => s.length⟩

/-- A ledger on which every token is absent and every transaction is mined. -/
def ledgerAbsent : Ledger :=
  ⟨fun _ => CallResult.ok (true, 0), fun _ => CallResult.reverted "ERC721: invalid token ID",
    fun _ => CallResult.reverted "Batch does not exist",
    fun _ _ _ _ _ _ => CallResult.ok "0xtx", fun _ _ _ _ => CallResult.ok "0xtx",
    fun _ _ => CallResult.ok "0xtx"⟩

/-- A ledger on which every token exists with status value 0, the caller is a registered
farmer and every transaction is mined. -/
def ledgerPresent : Ledger :=
  ⟨fun _ => CallResult.ok (true, 0), fun _ => CallResult.ok "0xF",
    fun _ => CallResult.ok 0,
    fun _ _ _ _ _ _ => CallResult.ok "0xtx", fun _ _ _ _ => CallResult.ok "0xtx",
    fun _ _ => CallResult.ok "0xtx"⟩

/-- The certify page of certifier `0xC`, open on batch `B1` of `store1`. -/
def certifyPage0 : CertifyPage :=
  ⟨"B1", true, true, "0xC", findBatch "B1" store1.batches, true, true, "good", some 9000,
    Role.certifier⟩

/-- The create page of farmer `0xF` with the form filled in for `B1`, price `"0"`. -/
def createPagePriceZero : CreatePage :=
  ⟨true, "0xF", "B1", "Wheat", "Durum", "Pune", some 1000, "0", Role.farmer⟩

/-- The same page with an empty crop name. -/
def createPageNoName : CreatePage :=
  ⟨true, "0xF", "B1", "", "Durum", "Pune", some 1000, "0.5", Role.farmer⟩

/-! ## What one request does to one stored batch -/

/-- The effect of a request other than an account deletion on a stored batch: it is left
as it is, or it is the batch a successful certify or purchase found and saved. -/
inductive Advance : Batch → Batch → Prop where
  | same (b : Batch) : Advance b b
  | certified (b : Batch) (body : CertifyBody) (t₁ t₂ : Date) :
      b.status = Status.CREATED → validate b = true → Advance b (certifiedDoc b body t₁ t₂)
  | purchased (b : Batch) (body : PurchaseBody) (t₁ t₂ : Date) :
      b.status = Status.CERTIFIED → validate b = true → Advance b (purchasedDoc b body t₁ t₂)

/-- The effect of an account deletion on a stored batch: it is left as it is, or it is
rewritten by the `updateMany` of the deleted user's role. -/
inductive Scrub : Batch → Batch → Prop where
  | same (b : Batch) : Scrub b b
  | farmer (b : Batch) : Scrub b { b with farmer := none }
  | certifier (b : Batch) :
      Scrub b
        { b with
          certifier := none
          status := Status.CREATED
          certifiedAt := none
          cropHealth := none
          labResults := none
          expiry := none }
  | retailer (b : Batch) :
      Scrub b
        { b with
          retailer := none
          status := Status.CERTIFIED
          purchasedAt := none }

/-- The action of the first history entry. -/
def firstAction (b : Batch) : Option Status := b.history.head?.map HistoryEntry.action

/-- The action of the last history entry. -/
def lastAction (b : Batch) : Option Status := b.history.getLast?.map HistoryEntry.action

/-- The number of history entries whose action is CERTIFIED or REJECTED. -/
def certifications (b : Batch) : Nat :=
  b.history.countP
    (fun e => decide (e.action = Status.CERTIFIED) || decide (e.action = Status.REJECTED))

/-- The length of the history stored under a batch identifier, 0 when none is. -/
def historyLength (id : String) (st : Store) : Nat :=
  ((findBatch id st.batches).map (fun b => b.history.length)).getD 0

/-! ## Sample sequences of requests -/

/-- Farmer `0xF`, certifier `0xC` and retailer `0xR` register; `B1` is created and
certified. -/
def opsCertified : List Op :=
  [Op.register "0xF" Role.farmer, Op.register "0xC" Role.certifier,
    Op.register "0xR" Role.retailer, Op.create Role.farmer body0 5 6,
    Op.certify Role.certifier "B1" ⟨"0xC", "good", 9000, true⟩ 7 8]

/-- As `opsCertified`, and then the certifier `0xC` deletes the account. -/
def opsCertifierDeleted : List Op := opsCertified ++ [Op.deleteAccount "0xC"]

/-- As `opsCertified`, and then `B1` is purchased by `0xR`. -/
def opsPurchased : List Op := opsCertified ++ [Op.purchase Role.retailer "B1" ⟨"0xR"⟩ 9 10]

/-- As `opsPurchased`, and then the certifier `0xC` deletes the account. -/
def opsPurchasedCertifierDeleted : List Op := opsPurchased ++ [Op.deleteAccount "0xC"]

/-- As `opsCertifierDeleted`, and then `B1` is certified again, naming `0xC2`. -/
def opsCertifiedTwice : List Op :=
  opsCertifierDeleted ++ [Op.certify Role.certifier "B1" ⟨"0xC2", "fair", 9500, true⟩ 11 12]

/-! ## The certified and rejected lists against the batches -/

/-- Every identifier on a user's certified list is that of a stored batch whose certifier
is the user and whose lab results passed, and every identifier on the rejected list is
that of a stored batch whose certifier is the user and whose lab results failed. -/
def Listed (bs : List Batch) (u : User) : Prop :=
  (∀ id ∈ u.certifiedCrops, ∃ b, findBatch id bs = some b ∧
    b.certifier = some u.walletAddress ∧ b.labResults = some true) ∧
  (∀ id ∈ u.rejectedCrops, ∃ b, findBatch id bs = some b ∧
    b.certifier = some u.walletAddress ∧ b.labResults = some false)

/-- The store's users have distinct wallet addresses, a CREATED batch has no certifier,
and every user's two lists agree with the batches. -/
def ListsSound (st : Store) : Prop :=
  (st.users.map User.walletAddress).Nodup ∧
  (∀ b ∈ st.batches, b.status = Status.CREATED → b.certifier = none) ∧
  ∀ u ∈ st.users, Listed st.batches u

/-- Certifier `0xC` registers and adds `B1` to the profile twice through `PUT /add-crop`,
once as certified and once as rejected. -/
def opsAddCropBoth : List Op :=
  [Op.register "0xC" Role.certifier, Op.addCrop "0xC" Role.certifier "B1" none (some true),
    Op.addCrop "0xC" Role.certifier "B1" none (some false)]

/-! ## The purchase flow of the batch page -/

/-- The effect is a request sent to the backend. -/
def Effect.isBackendRequest : Effect → Bool
  | Effect.postBatches _ => true
  | Effect.putCertify _ _ => true
  | Effect.putPurchase _ _ => true
  | _ => false

/-- The state of the `BatchDetail` page when `handlePurchaseBatch` runs.  `web3Ready` says
that `web3` and `contracts.agriChain` are set; `account` is empty when no wallet is
connected; `batch` is the batch the page has loaded (`null` before it has); `tokenRole` is
the role in the session's token. -/
structure PurchasePage where
  batchId : String
  web3Ready : Bool
  account : String
  batch : Option Batch
  tokenRole : Role

/-- The handler `handlePurchaseBatch` of `BatchDetail.js`: convert the stored price to wei,
send the `purchaseBatch` transaction with that value, and when it is mined send the
purchase to the backend.  There is no existence probe in this handler. -/
def handlePurchaseBatch (lib : Lib) (ledger : Ledger) (page : PurchasePage) (t₁ t₂ : Date)
    (st : Store) : PageResult :=
  if !page.web3Ready || page.account = "" then
    ⟨some "Wallet not connected or contract not initialized", false, [], st⟩
  else
    match page.batch with
    | none => ⟨some "Cannot read properties of null (reading 'price')", false, [], st⟩
    | some batch =>
      match lib.toWeiOfNumber batch.price with
      | Except.error m =>
        ⟨some (orDefault m "Failed to purchase batch. Please try again."), false, [], st⟩
      | Except.ok batchPrice =>
        match ledger.purchaseBatch (purchaseTokenId lib page.batchId) batchPrice with
        | CallResult.reverted m =>
          ⟨some (orDefault m "Failed to purchase batch. Please try again."), false,
            [Effect.sendPurchaseBatch (purchaseTokenId lib page.batchId) batchPrice], st⟩
        | CallResult.transport m =>
          ⟨some (orDefault m "Failed to purchase batch. Please try again."), false,
            [Effect.sendPurchaseBatch (purchaseTokenId lib page.batchId) batchPrice], st⟩
        | CallResult.ok _ =>
          if (purchase page.tokenRole page.batchId ⟨page.account⟩ t₁ t₂ st).1.status = 200 then
            ⟨none, true,
              [Effect.sendPurchaseBatch (purchaseTokenId lib page.batchId) batchPrice,
               Effect.putPurchase page.batchId ⟨page.account⟩],
              (purchase page.tokenRole page.batchId ⟨page.account⟩ t₁ t₂ st).2⟩
          else
            ⟨some (axiosMessage
                (purchase page.tokenRole page.batchId ⟨page.account⟩ t₁ t₂ st).1.status),
              false,
              [Effect.sendPurchaseBatch (purchaseTokenId lib page.batchId) batchPrice,
               Effect.putPurchase page.batchId ⟨page.account⟩],
              (purchase page.tokenRole page.batchId ⟨page.account⟩ t₁ t₂ st).2⟩

/-- A ledger that cannot be reached: every call fails in the transport. -/
def ledgerUnreachable : Ledger :=
  ⟨fun _ => CallResult.transport "Failed to fetch",
    fun _ => CallResult.transport "Failed to fetch",
    fun _ => CallResult.transport "Failed to fetch",
    fun _ _ _ _ _ _ => CallResult.transport "Failed to fetch",
    fun _ _ _ _ => CallResult.transport "Failed to fetch",
    fun _ _ => CallResult.transport "Failed to fetch"⟩

/-- A ledger on which every token exists with status value 1 (already certified on-chain)
and every transaction is mined. -/
def ledgerAlreadyCertified : Ledger :=
  ⟨fun _ => CallResult.ok (true, 1), fun _ => CallResult.ok "0xF",
    fun _ => CallResult.ok 1,
    fun _ _ _ _ _ _ => CallResult.ok "0xtx", fun _ _ _ _ => CallResult.ok "0xtx",
    fun _ _ => CallResult.ok "0xtx"⟩

/-- The batch page of retailer `0xR`, open on the certified `B1` of `store2`. -/
def purchasePage0 : PurchasePage :=
  ⟨"B1", true, "0xR", findBatch "B1" store2.batches, Role.retailer⟩

/-- A ledger on which no batch token exists: the queries on a token revert and so do the
transactions on one; a creation is mined. -/
def ledgerNoToken : Ledger :=
  ⟨fun _ => CallResult.ok (true, 1), fun _ => CallResult.reverted "ERC721: invalid token ID",
    fun _ => CallResult.reverted "Batch does not exist",
    fun _ _ _ _ _ _ => CallResult.ok "0xtx",
    fun _ _ _ _ => CallResult.reverted "Batch does not exist",
    fun _ _ => CallResult.reverted "Batch does not exist"⟩

/-! ## The fields set at creation, the shape of a history, the authenticated caller -/

/-- Batch `b'` has the identifier, crop name, crop variety, location, harvest date and
price of batch `b`. -/
def SameDescription (b b' : Batch) : Prop :=
  b'.batchId = b.batchId ∧ b'.cropName = b.cropName ∧ b'.cropVariety = b.cropVariety ∧
    b'.location = b.location ∧ b'.harvestDate = b.harvestDate ∧ b'.price = b.price

/-- The actions of the history entries, in order. -/
def actions (b : Batch) : List Status := b.history.map HistoryEntry.action

/-- The request is one of the three calls of the batch lifecycle. -/
def Op.isLifecycle : Op → Bool
  | Op.create _ _ _ _ => true
  | Op.certify _ _ _ _ _ => true
  | Op.purchase _ _ _ _ _ => true
  | _ => false

/-- What `middleware/auth` leaves in `req.user`: the payload the login routes sign into the
token, `{ id, role, walletAddress }`. -/
structure TokenUser where
  id : String
  role : Role
  walletAddress : String
  deriving DecidableEq, Repr

/-- `POST /` as it is routed: of `req.user` the handler reads `role` and nothing else. -/
def createRequest (user : TokenUser) (body : CreateBody) (t₁ t₂ : Date) (st : Store) :
    Response × Store :=
  create user.role body t₁ t₂ st

/-- `PUT /:batchId/certify` as it is routed: of `req.user` the handler reads `role` and
nothing else. -/
def certifyRequest (user : TokenUser) (batchId : String) (body : CertifyBody) (t₁ t₂ : Date)
    (st : Store) : Response × Store :=
  certify user.role batchId body t₁ t₂ st

/-- `PUT /:batchId/purchase` as it is routed: of `req.user` the handler reads `role` and
nothing else. -/
def purchaseRequest (user : TokenUser) (batchId : String) (body : PurchaseBody)
    (t₁ t₂ : Date) (st : Store) : Response × Store :=
  purchase user.role batchId body t₁ t₂ st

/-- The requests that certify and purchase the `B1` of `store1` and then delete the
certifier's, the retailer's and the farmer's account. -/
def opsAfterCreation : List Op :=
  [Op.certify Role.certifier "B1" ⟨"0xC", "good", 9000, true⟩ 7 8,
    Op.purchase Role.retailer "B1" ⟨"0xR"⟩ 9 10, Op.deleteAccount "0xC",
    Op.deleteAccount "0xR", Op.deleteAccount "0xF"]

/-- The three calls of the lifecycle of `B1`, with a repeated create and a repeated
certify that are rejected. -/
def opsLifecycle : List Op :=
  [Op.create Role.farmer body0 5 6, Op.create Role.farmer body0 5 6,
    Op.certify Role.certifier "B1" ⟨"0xC", "good", 9000, true⟩ 7 8,
    Op.certify Role.certifier "B1" ⟨"0xC", "good", 9000, true⟩ 7 8,
    Op.purchase Role.retailer "B1" ⟨"0xR"⟩ 9 10]

/-! ## Timestamps -/

/-- What `timestampToDate` returns: `null`, or the `Date` made from a time value, which is
an Invalid Date when the value lies outside the range of `Date`. -/
inductive DateValue where
  | null
  | invalid
  | date (ms : Date)
  deriving DecidableEq, Repr

/-- `new Date(value)` on an integer time value: a `Date` reaches 8.64e15 milliseconds to
either side of the epoch. -/
def newDate (value : Int) : DateValue :=
  if value.natAbs ≤ 8640000000000000 then DateValue.date value else DateValue.invalid

/-- `timestampToDate` of `utils/web3Utils.js` on a Number that holds an integer.
`timestamp.toString()` is the decimal numeral, with its sign; the product by 1000 is exact
where it is taken.  (From 1e21 on `toString` is in exponent form and shorter than 13
characters; the product then lies outside the range of `Date` as the value itself does,
and the result is the Invalid Date either way.) -/
def timestampToDate (timestamp : Int) : DateValue :=
  if timestamp = 0 then
    DateValue.null
  else
    newDate (if (toString timestamp).length < 13 then timestamp * 1000 else timestamp)

/-! ## Searching the batches -/

/-- What `GET /search/:query` calls outside the repository: JavaScript's `isNaN` on the
query string, and the regular-expression engine of the database.  `regex pattern` is
`none` when the pattern does not compile; otherwise it says of a subject whether the
pattern, with option `i`, matches somewhere in it. -/
structure SearchEngine where
  isNaN : String → Bool
  regex : String → Option (String → Bool)

/-- What a route that lists batches sends: the status code, the JSON array, and the
`message` of the error body. -/
structure ListResponse where
  status : Nat
  batches : List Batch
  message : Option String
  deriving DecidableEq, Repr

/-- The order of the `.sort` on `createdAt` descending: `a` may stand before `b`. -/
def NewerFirst (a b : Batch) : Prop := b.createdAt ≤ a.createdAt

instance : DecidableRel NewerFirst :=
  fun a b => inferInstanceAs (Decidable (b.createdAt ≤ a.createdAt))

instance : IsTotal Batch NewerFirst := ⟨fun a b => le_total b.createdAt a.createdAt⟩

instance : IsTrans Batch NewerFirst := ⟨fun _ _ _ hab hbc => le_trans hbc hab⟩

/-- The handler `router.get('/search/:query', ...)`.  A query that is a number is looked up
as a batch identifier first, and a hit is the whole answer.  Otherwise, and on a miss, the
query is the `$regex` of a scan of `cropName`, `cropVariety` and `location`, sorted by
`createdAt` descending; a pattern that does not compile makes `find` throw.  Among batches
of equal `createdAt` the database promises no order; here they keep the order of the
collection. -/
def search (engine : SearchEngine) (query : String) (st : Store) : ListResponse :=
  match (if engine.isNaN query then none else findBatch query st.batches) with
  | some batch => ⟨200, [batch], none⟩
  | none =>
    match engine.regex query with
    | none => ⟨500, [], some "Server error"⟩
    | some test =>
      ⟨200,
        (st.batches.filter
          (fun b => test b.cropName || test b.cropVariety || test b.location)).insertionSort
          NewerFirst,
        none⟩

/-- The subject contains the text, letter case aside. -/
def includesIgnoreCase (s text : String) : Bool :=
  (s.data.map Char.toLower).tails.any
    (fun rest => (text.data.map Char.toLower).isPrefixOf rest)

/-- Stand-ins for the two engines, to instantiate statements: `isNaN` is false exactly on
the strings of decimal digits, and every pattern is read as literal text. -/
def engineLiteral : SearchEngine :=
  ⟨fun q => !q.data.all Char.isDigit, fun p => some (fun s => includesIgnoreCase s p)⟩

/-- A batch whose identifier is the number 123, stored at instant 6. -/
def batch123 : Batch := createdDoc ⟨"123", "Wheat", "Durum", "Pune", 1000, "0xF", 10⟩ 5 6

/-- A batch whose location holds the text 123, stored at instant 8. -/
def batchPlot : Batch := createdDoc ⟨"B2", "Rice", "Basmati", "Plot 123", 1000, "0xF", 10⟩ 7 8

/-- A batch of rice stored at instant 9. -/
def batchRice : Batch := createdDoc ⟨"B3", "Brown rice", "Sona", "Goa", 1000, "0xF", 10⟩ 8 9

/-- A store that holds the three of them, in the order they were stored. -/
def storeSearch : Store := ⟨[batch123, batchPlot, batchRice], []⟩

/-! ## Creations that overlap in time

The handler of `POST /` awaits three database operations in turn: the `findOne` of the
existence check, the `save` of the new batch, and the `findOneAndUpdate` of the farmer's
list.  Each is atomic in the database, and the handlers of several requests may be
interleaved between them.  `batchId` is declared `unique` in `batchSchema`, so the
collection has a unique index on it and an insert with a stored identifier is refused with
a duplicate-key error.  A request in flight is modelled by the step it has reached. -/

/-- A `POST /` request: the caller's role, the body, and the two values it reads from the
clock. -/
structure CreateCall where
  role : Role
  body : CreateBody
  t₁ : Date
  t₂ : Date
  deriving DecidableEq, Repr

/-- Where a `POST /` request stands: not begun, past an existence check that found nothing,
past the `save`, or answered. -/
inductive CreatePhase where
  | start
  | checked
  | saved
  | answered (r : Response)
  deriving DecidableEq, Repr

/-- One step of the handler of `POST /`, up to its next `await` or to its answer: the role
check and the `findOne`; the `save`, which validation refuses, and which the unique index
refuses when the identifier is stored, either way throwing into the `catch`; the update of
the farmer's list and the answer. -/
def createStep (c : CreateCall) : CreatePhase → Store → CreatePhase × Store
  | CreatePhase.start, st =>
    if c.role ≠ Role.farmer then
      (CreatePhase.answered ⟨403, "Not authorized", none⟩, st)
    else
      match findBatch c.body.batchId st.batches with
      | some _ => (CreatePhase.answered ⟨400, "Batch already exists", none⟩, st)
      | none => (CreatePhase.checked, st)
  | CreatePhase.checked, st =>
    if validate (createdDoc c.body c.t₁ c.t₂) then
      match findBatch c.body.batchId st.batches with
      | some _ => (CreatePhase.answered ⟨500, "Server error", none⟩, st)
      | none =>
        (CreatePhase.saved,
          { batches := st.batches ++ [createdDoc c.body c.t₁ c.t₂], users := st.users })
    else
      (CreatePhase.answered ⟨500, "Server error", none⟩, st)
  | CreatePhase.saved, st =>
    (CreatePhase.answered
        ⟨201, "Batch created successfully", some (createdDoc c.body c.t₁ c.t₂)⟩,
      { batches := st.batches
        users := updateFirst (fun u => decide (u.walletAddress = c.body.farmer))
          (fun u => { u with registeredCrops := addToSet u.registeredCrops c.body.batchId })
          st.users })
  | CreatePhase.answered r, st => (CreatePhase.answered r, st)

/-- A request served with no other in between: its three steps in a row. -/
def createAlone (c : CreateCall) (st : Store) : CreatePhase × Store :=
  createStep c (createStep c (createStep c CreatePhase.start st).1
      (createStep c CreatePhase.start st).2).1
    (createStep c (createStep c CreatePhase.start st).1 (createStep c CreatePhase.start st).2).2

/-- The request at position `i` takes its next step; a position past the end is no
request. -/
def stepAt : Nat → List (CreateCall × CreatePhase) → Store →
    List (CreateCall × CreatePhase) × Store
  | _, [], st => ([], st)
  | 0, (c, ph) :: rest, st => ((c, (createStep c ph st).1) :: rest, (createStep c ph st).2)
  | i + 1, x :: rest, st => (x :: (stepAt i rest st).1, (stepAt i rest st).2)

/-- The requests in flight are served in the order of the schedule, one step at a time:
each entry names the request that takes its next step. -/
def interleave : List Nat → List (CreateCall × CreatePhase) → Store →
    List (CreateCall × CreatePhase) × Store
  | [], flights, st => (flights, st)
  | i :: schedule, flights, st =>
    interleave schedule (stepAt i flights st).1 (stepAt i flights st).2

/-- The requests as they arrive, none begun. -/
def launch (calls : List CreateCall) : List (CreateCall × CreatePhase) :=
  calls.map (fun c => (c, CreatePhase.start))

/-- The request was answered 201. -/
def CreatePhase.succeeded : CreatePhase → Bool
  | CreatePhase.answered r => decide (r.status = 201)
  | _ => false

/-- The request has saved its batch: it is past the `save`, or answered 201. -/
def CreatePhase.won : CreatePhase → Bool
  | CreatePhase.saved => true
  | CreatePhase.answered r => decide (r.status = 201)
  | _ => false

/-- The number of stored batches with the identifier. -/
def stored (id : String) (st : Store) : Nat :=
  st.batches.countP (fun b => decide (b.batchId = id))

/-- Two requests by farmers to create `B1`. -/
def callsB1 : List CreateCall := [⟨Role.farmer, body0, 5, 6⟩, ⟨Role.farmer, body0, 7, 8⟩]

/-- How far a request has come: the number of steps behind it, 3 once it is answered. -/
def CreatePhase.rank : CreatePhase → Nat
  | CreatePhase.start => 0
  | CreatePhase.checked => 1
  | CreatePhase.saved => 2
  | CreatePhase.answered _ => 3

/-! ## Lemmas on the collection primitives -/

theorem updateFirst_of_find?_none {α : Type} (p : α → Bool) (f : α → α) (l : List α)
    (h : l.find? p = none) : updateFirst p f l = l := by
  induction l with
  | nil => rfl
  | cons x xs ih =>
    by_cases hx : p x = true
    · simp [List.find?, hx] at h
    · simp [List.find?, hx] at h
      simp [updateFirst, hx]
      exact ih (by simpa using h)

theorem find?_updateFirst_hit {α : Type} (p : α → Bool) (f : α → α) (l : List α) (a : α)
    (h : l.find? p = some a) (hp : p (f a) = true) :
    (updateFirst p f l).find? p = some (f a) := by
  induction l with
  | nil => simp at h
  | cons x xs ih =>
    by_cases hx : p x = true
    · simp [List.find?, hx] at h
      subst h
      simp [updateFirst, hx, List.find?, hp]
    · simp [List.find?, hx] at h
      simp [updateFirst, hx, List.find?, ih h]

theorem find?_updateFirst_other {α : Type} (p q : α → Bool) (f : α → α) (l : List α)
    (hq : ∀ a, p a = true → q a = false) (hf : ∀ a, p a = true → q (f a) = false) :
    (updateFirst p f l).find? q = l.find? q := by
  induction l with
  | nil => rfl
  | cons x xs ih =>
    by_cases hx : p x = true
    · simp [updateFirst, hx, List.find?, hq x hx, hf x hx]
    · simp [updateFirst, hx, List.find?, ih]

theorem findBatch_some_id {id : String} {bs : List Batch} {b : Batch}
    (h : findBatch id bs = some b) : b.batchId = id := by
  have := List.find?_some h
  simpa using this

theorem findBatch_some_mem {id : String} {bs : List Batch} {b : Batch}
    (h : findBatch id bs = some b) : b ∈ bs :=
  List.mem_of_find?_eq_some h

theorem findBatch_isSome_of_mem {id : String} {bs : List Batch} {b : Batch}
    (hb : b ∈ bs) (hid : b.batchId = id) : ∃ b₀, findBatch id bs = some b₀ := by
  cases h : findBatch id bs with
  | some b₀ => exact ⟨b₀, rfl⟩
  | none =>
    have := (List.find?_eq_none.mp h) b hb
    simp [hid] at this

theorem findBatch_append_new {id : String} {bs : List Batch} {nb : Batch}
    (h : findBatch id bs = none) (hid : nb.batchId = id) :
    findBatch id (bs ++ [nb]) = some nb := by
  unfold findBatch at *
  simp [List.find?_append, h, List.find?, hid]

theorem findBatch_save {id : String} {bs : List Batch} {b nb : Batch}
    (h : findBatch id bs = some b) (hid : nb.batchId = id) :
    findBatch id (updateFirst (fun x => decide (x.batchId = id)) (fun _ => nb) bs) = some nb :=
  find?_updateFirst_hit _ (fun _ => nb) bs b h (by simp [hid])

/-! ## The handlers, case by case -/

theorem create_not_farmer {role : Role} (h : role ≠ Role.farmer) (body : CreateBody)
    (t₁ t₂ : Date) (st : Store) : create role body t₁ t₂ st = (Unauthorized, st) := by
  simp [create, h, Unauthorized]

theorem create_existing {body : CreateBody} {st : Store} {b : Batch}
    (h : findBatch body.batchId st.batches = some b) (t₁ t₂ : Date) :
    create Role.farmer body t₁ t₂ st = (DuplicateBatch, st) := by
  simp [create, h, DuplicateBatch]

theorem certify_not_certifier {role : Role} (h : role ≠ Role.certifier) (id : String)
    (body : CertifyBody) (t₁ t₂ : Date) (st : Store) :
    certify role id body t₁ t₂ st = (Unauthorized, st) := by
  simp [certify, h, Unauthorized]

theorem certify_missing {id : String} {st : Store} (h : findBatch id st.batches = none)
    (body : CertifyBody) (t₁ t₂ : Date) :
    certify Role.certifier id body t₁ t₂ st = (NotFound, st) := by
  simp [certify, h, NotFound]

theorem certify_wrong_state {id : String} {st : Store} {b : Batch}
    (h : findBatch id st.batches = some b) (hs : b.status ≠ Status.CREATED)
    (body : CertifyBody) (t₁ t₂ : Date) :
    certify Role.certifier id body t₁ t₂ st = (⟨400, "Batch cannot be certified", none⟩, st) := by
  simp [certify, h, hs]

theorem purchase_not_retailer {role : Role} (h : role ≠ Role.retailer) (id : String)
    (body : PurchaseBody) (t₁ t₂ : Date) (st : Store) :
    purchase role id body t₁ t₂ st = (Unauthorized, st) := by
  simp [purchase, h, Unauthorized]

theorem purchase_missing {id : String} {st : Store} (h : findBatch id st.batches = none)
    (body : PurchaseBody) (t₁ t₂ : Date) :
    purchase Role.retailer id body t₁ t₂ st = (NotFound, st) := by
  simp [purchase, h, NotFound]

theorem purchase_wrong_state {id : String} {st : Store} {b : Batch}
    (h : findBatch id st.batches = some b) (hs : b.status ≠ Status.CERTIFIED)
    (body : PurchaseBody) (t₁ t₂ : Date) :
    purchase Role.retailer id body t₁ t₂ st = (⟨400, "Batch cannot be purchased", none⟩, st) := by
  simp [purchase, h, hs]

theorem validate_createdDoc {body : CreateBody}
    (hid : body.batchId ≠ "") (hname : body.cropName ≠ "") (hvar : body.cropVariety ≠ "")
    (hloc : body.location ≠ "") (hF : body.farmer ≠ "") (t₁ t₂ : Date) :
    validate (createdDoc body t₁ t₂) = true := by
  simp [validate, checkRequired, createdDoc, hid, hname, hvar, hloc, hF]

theorem validate_certifiedDoc (b : Batch) (body : CertifyBody) (t₁ t₂ : Date) :
    validate (certifiedDoc b body t₁ t₂) = validate b := rfl

theorem validate_purchasedDoc (b : Batch) (body : PurchaseBody) (t₁ t₂ : Date) :
    validate (purchasedDoc b body t₁ t₂) = validate b := rfl

theorem create_ok {body : CreateBody} {st : Store}
    (hnew : findBatch body.batchId st.batches = none)
    (hid : body.batchId ≠ "") (hname : body.cropName ≠ "") (hvar : body.cropVariety ≠ "")
    (hloc : body.location ≠ "") (hF : body.farmer ≠ "") (t₁ t₂ : Date) :
    create Role.farmer body t₁ t₂ st =
      (⟨201, "Batch created successfully", some (createdDoc body t₁ t₂)⟩,
        { batches := st.batches ++ [createdDoc body t₁ t₂]
          users := updateFirst (fun u => decide (u.walletAddress = body.farmer))
            (fun u => { u with registeredCrops := addToSet u.registeredCrops body.batchId })
            st.users }) := by
  simp [create, hnew, validate, checkRequired, hid, hname, hvar, hloc, hF, createdDoc]

theorem create_invalid {body : CreateBody} {st : Store}
    (hnew : findBatch body.batchId st.batches = none)
    (hbad : ¬ (body.batchId ≠ "" ∧ body.cropName ≠ "" ∧ body.cropVariety ≠ "" ∧
      body.location ≠ "" ∧ body.farmer ≠ "")) (t₁ t₂ : Date) :
    create Role.farmer body t₁ t₂ st = (⟨500, "Server error", none⟩, st) := by
  have hv : validate (createdDoc body t₁ t₂) = false := by
    simp only [validate, checkRequired, createdDoc]
    by_contra hne
    apply hbad
    simp only [Bool.not_eq_false, Bool.and_eq_true, decide_eq_true_eq] at hne
    exact ⟨hne.1.1.1.1, hne.1.1.1.2, hne.1.1.2, hne.1.2, hne.2⟩
  simp only [createdDoc] at hv
  simp [create, hnew, hv]

theorem certify_ok {id : String} {st : Store} {b : Batch}
    (h : findBatch id st.batches = some b) (hs : b.status = Status.CREATED)
    (hv : validate b = true) (body : CertifyBody) (t₁ t₂ : Date) :
    certify Role.certifier id body t₁ t₂ st =
      (⟨200, if body.labResults then "Batch certified successfully" else "Batch rejected",
          some (certifiedDoc b body t₁ t₂)⟩,
        { batches := updateFirst (fun x => decide (x.batchId = id))
            (fun _ => certifiedDoc b body t₁ t₂) st.batches
          users :=
            if body.labResults then
              updateFirst (fun u => decide (u.walletAddress = body.certifier))
                (fun u => { u with certifiedCrops := addToSet u.certifiedCrops b.batchId })
                st.users
            else
              updateFirst (fun u => decide (u.walletAddress = body.certifier))
                (fun u => { u with rejectedCrops := addToSet u.rejectedCrops b.batchId })
                st.users }) := by
  have hv' := (validate_certifiedDoc b body t₁ t₂).trans hv
  simp only [certifiedDoc] at hv'
  simp [certify, h, hs, certifiedDoc, hv']

theorem certify_invalid {id : String} {st : Store} {b : Batch}
    (h : findBatch id st.batches = some b) (hs : b.status = Status.CREATED)
    (hv : validate b = false) (body : CertifyBody) (t₁ t₂ : Date) :
    certify Role.certifier id body t₁ t₂ st = (⟨500, "Server error", none⟩, st) := by
  have hv' := (validate_certifiedDoc b body t₁ t₂).trans hv
  simp only [certifiedDoc] at hv'
  simp [certify, h, hs, hv']

theorem purchase_ok {id : String} {st : Store} {b : Batch}
    (h : findBatch id st.batches = some b) (hs : b.status = Status.CERTIFIED)
    (hv : validate b = true) (body : PurchaseBody) (t₁ t₂ : Date) :
    purchase Role.retailer id body t₁ t₂ st =
      (⟨200, "Batch purchased successfully", some (purchasedDoc b body t₁ t₂)⟩,
        { batches := updateFirst (fun x => decide (x.batchId = id))
            (fun _ => purchasedDoc b body t₁ t₂) st.batches
          users := updateFirst (fun u => decide (u.walletAddress = body.retailer))
            (fun u => { u with purchasedCrops := addToSet u.purchasedCrops b.batchId })
            st.users }) := by
  have hv' := (validate_purchasedDoc b body t₁ t₂).trans hv
  simp only [purchasedDoc] at hv'
  simp [purchase, h, hs, purchasedDoc, hv']

theorem purchase_invalid {id : String} {st : Store} {b : Batch}
    (h : findBatch id st.batches = some b) (hs : b.status = Status.CERTIFIED)
    (hv : validate b = false) (body : PurchaseBody) (t₁ t₂ : Date) :
    purchase Role.retailer id body t₁ t₂ st = (⟨500, "Server error", none⟩, st) := by
  have hv' := (validate_purchasedDoc b body t₁ t₂).trans hv
  simp only [purchasedDoc] at hv'
  simp [purchase, h, hs, hv']

theorem findBatch_after_create {body : CreateBody} {st : Store}
    (hnew : findBatch body.batchId st.batches = none)
    (hid : body.batchId ≠ "") (hname : body.cropName ≠ "") (hvar : body.cropVariety ≠ "")
    (hloc : body.location ≠ "") (hF : body.farmer ≠ "") (t₁ t₂ : Date) :
    findBatch body.batchId (create Role.farmer body t₁ t₂ st).2.batches =
      some (createdDoc body t₁ t₂) := by
  rw [create_ok hnew hid hname hvar hloc hF]
  exact findBatch_append_new hnew rfl

theorem findBatch_after_certify {id : String} {st : Store} {b : Batch}
    (h : findBatch id st.batches = some b) (hs : b.status = Status.CREATED)
    (hv : validate b = true) (body : CertifyBody) (t₁ t₂ : Date) :
    findBatch id (certify Role.certifier id body t₁ t₂ st).2.batches =
      some (certifiedDoc b body t₁ t₂) := by
  rw [certify_ok h hs hv]
  have hb : b.batchId = id := findBatch_some_id h
  exact findBatch_save h hb

theorem findBatch_after_purchase {id : String} {st : Store} {b : Batch}
    (h : findBatch id st.batches = some b) (hs : b.status = Status.CERTIFIED)
    (hv : validate b = true) (body : PurchaseBody) (t₁ t₂ : Date) :
    findBatch id (purchase Role.retailer id body t₁ t₂ st).2.batches =
      some (purchasedDoc b body t₁ t₂) := by
  rw [purchase_ok h hs hv]
  have hb : b.batchId = id := findBatch_some_id h
  exact findBatch_save h hb

/-- What a 200 of certify tells about the request and the store it was run on. -/
theorem certify_success_inv {role : Role} {id : String} {body : CertifyBody} {t₁ t₂ : Date}
    {st : Store} (hok : (certify role id body t₁ t₂ st).1.status = 200) :
    role = Role.certifier ∧
      ∃ b, findBatch id st.batches = some b ∧ b.status = Status.CREATED ∧ validate b = true := by
  by_cases hr : role = Role.certifier
  · subst hr
    cases hfind : findBatch id st.batches with
    | none =>
      rw [certify_missing hfind] at hok
      simp [NotFound] at hok
    | some b =>
      by_cases hs : b.status = Status.CREATED
      · cases hv : validate b with
        | true => exact ⟨rfl, b, rfl, hs, hv⟩
        | false =>
          rw [certify_invalid hfind hs hv] at hok
          simp at hok
      · rw [certify_wrong_state hfind hs] at hok
        simp at hok
  · rw [certify_not_certifier hr] at hok
    simp [Unauthorized] at hok

/-- What a 200 of purchase tells about the request and the store it was run on. -/
theorem purchase_success_inv {role : Role} {id : String} {body : PurchaseBody} {t₁ t₂ : Date}
    {st : Store} (hok : (purchase role id body t₁ t₂ st).1.status = 200) :
    role = Role.retailer ∧
      ∃ b, findBatch id st.batches = some b ∧ b.status = Status.CERTIFIED ∧
        validate b = true := by
  by_cases hr : role = Role.retailer
  · subst hr
    cases hfind : findBatch id st.batches with
    | none =>
      rw [purchase_missing hfind] at hok
      simp [NotFound] at hok
    | some b =>
      by_cases hs : b.status = Status.CERTIFIED
      · cases hv : validate b with
        | true => exact ⟨rfl, b, rfl, hs, hv⟩
        | false =>
          rw [purchase_invalid hfind hs hv] at hok
          simp at hok
      · rw [purchase_wrong_state hfind hs] at hok
        simp at hok
  · rw [purchase_not_retailer hr] at hok
    simp [Unauthorized] at hok

theorem findUser_after_update {w : String} {us : List User} {u : User} (f : User → User)
    (hw : ∀ x, (f x).walletAddress = x.walletAddress) (h : findUser w us = some u) :
    findUser w (updateFirst (fun x => decide (x.walletAddress = w)) f us) = some (f u) := by
  have hu : u.walletAddress = w := by simpa using List.find?_some h
  exact find?_updateFirst_hit _ f us u h (by simp [hw, hu])

theorem mem_addToSet (xs : List String) (x : String) : x ∈ addToSet xs x := by
  unfold addToSet
  split <;> simp_all

/-! ## The lifecycle scenario -/

/-- C1, as stated for every batch identifier, fails at the empty one: a farmer's creation
request with `batchId = ""` (absent from the store, price 10, every other field filled in)
is refused by the `required` validator of `save`, the handler answers 500 and no batch
with that identifier is stored. -/
theorem create_empty_id_not_stored :
    findBatch bodyEmptyId.batchId store0.batches = none ∧
    bodyEmptyId.price = 10 ∧
    (create Role.farmer bodyEmptyId 5 6 store0).1 = ⟨500, "Server error", none⟩ ∧
    findBatch bodyEmptyId.batchId (create Role.farmer bodyEmptyId 5 6 store0).2.batches = none := by
  decide

/-- C1 (amended): for every creation request by a farmer whose batch identifier is not yet
stored, whose price is 10 and whose required strings (batch identifier, crop name, crop
variety, location, farmer address `F`) are non-empty, and for all addresses `C`, `R`:
create answers 201 and leaves the batch stored with status CREATED and a history of
length 1; the following certify (passed) by a certifier answers 200 and leaves status
CERTIFIED, history length 2 and `history[1]` from `F` to `C` with action CERTIFIED; the
following purchase by a retailer answers 200 and leaves status PURCHASED, history length 3
and `history[2]` from `F` to `R` with action PURCHASED. -/
theorem lifecycle_scenario (st : Store) (body : CreateBody) (C R health : String)
    (expiry t₁ t₂ t₃ t₄ t₅ t₆ : Date)
    (hnew : findBatch body.batchId st.batches = none) (hprice : body.price = 10)
    (hid : body.batchId ≠ "") (hname : body.cropName ≠ "") (hvar : body.cropVariety ≠ "")
    (hloc : body.location ≠ "") (hF : body.farmer ≠ "") :
    (∃ b, (create Role.farmer body t₁ t₂ st).1.status = 201 ∧
      findBatch body.batchId (create Role.farmer body t₁ t₂ st).2.batches = some b ∧
      b.price = 10 ∧ b.status = Status.CREATED ∧ b.history.length = 1) ∧
    (∃ b e, (certify Role.certifier body.batchId ⟨C, health, expiry, true⟩ t₃ t₄
          (create Role.farmer body t₁ t₂ st).2).1.status = 200 ∧
      findBatch body.batchId
        (certify Role.certifier body.batchId ⟨C, health, expiry, true⟩ t₃ t₄
          (create Role.farmer body t₁ t₂ st).2).2.batches = some b ∧
      b.status = Status.CERTIFIED ∧ b.history.length = 2 ∧ b.history[1]? = some e ∧
      e.from_ = some body.farmer ∧ e.to_ = C ∧ e.action = Status.CERTIFIED) ∧
    (∃ b e, (purchase Role.retailer body.batchId ⟨R⟩ t₅ t₆
          (certify Role.certifier body.batchId ⟨C, health, expiry, true⟩ t₃ t₄
            (create Role.farmer body t₁ t₂ st).2).2).1.status = 200 ∧
      findBatch body.batchId
        (purchase Role.retailer body.batchId ⟨R⟩ t₅ t₆
          (certify Role.certifier body.batchId ⟨C, health, expiry, true⟩ t₃ t₄
            (create Role.farmer body t₁ t₂ st).2).2).2.batches = some b ∧
      b.status = Status.PURCHASED ∧ b.history.length = 3 ∧ b.history[2]? = some e ∧
      e.from_ = some body.farmer ∧ e.to_ = R ∧ e.action = Status.PURCHASED) := by
  have hv₁ := validate_createdDoc hid hname hvar hloc hF t₁ t₂
  have h₁ := findBatch_after_create hnew hid hname hvar hloc hF t₁ t₂
  have h₂ := findBatch_after_certify h₁ rfl hv₁ ⟨C, health, expiry, true⟩ t₃ t₄
  have h₃ := findBatch_after_purchase h₂ rfl hv₁ ⟨R⟩ t₅ t₆
  refine ⟨⟨_, ?_, h₁, ?_, rfl, rfl⟩, ⟨_, _, ?_, h₂, rfl, rfl, rfl, rfl, rfl, rfl⟩,
    ⟨_, _, ?_, h₃, rfl, rfl, rfl, rfl, rfl, rfl⟩⟩
  · rw [create_ok hnew hid hname hvar hloc hF]
  · exact hprice
  · rw [certify_ok h₁ rfl hv₁]
  · rw [purchase_ok h₂ rfl hv₁]

/-- C1 (amended), instantiated: batch `B1` created in `store0`, certified by `0xC` and
purchased by `0xR` ends with status PURCHASED. -/
theorem lifecycle_scenario_witness :
    findBatch body0.batchId store0.batches = none ∧ body0.price = 10 ∧
    ∃ b e, (purchase Role.retailer body0.batchId ⟨"0xR"⟩ 9 10
          (certify Role.certifier body0.batchId ⟨"0xC", "good", 9000, true⟩ 7 8
            (create Role.farmer body0 5 6 store0).2).2).1.status = 200 ∧
      findBatch body0.batchId
        (purchase Role.retailer body0.batchId ⟨"0xR"⟩ 9 10
          (certify Role.certifier body0.batchId ⟨"0xC", "good", 9000, true⟩ 7 8
            (create Role.farmer body0 5 6 store0).2).2).2.batches = some b ∧
      b.status = Status.PURCHASED ∧ b.history.length = 3 ∧ b.history[2]? = some e ∧
      e.from_ = some body0.farmer ∧ e.to_ = "0xR" ∧ e.action = Status.PURCHASED :=
  ⟨by decide, by decide,
    (lifecycle_scenario store0 body0 "0xC" "0xR" "good" 9000 5 6 7 8 9 10 (by decide) (by decide)
      (by decide) (by decide) (by decide) (by decide) (by decide)).2.2⟩

/-! ## Rejected calls -/

/-- C2: a create call by a farmer whose batch identifier equals, as a string, that of a
stored batch answers DuplicateBatch (400, "Batch already exists") and returns the store
as it was: every batch and every participant list is unchanged. -/
theorem create_duplicate (st : Store) (body : CreateBody) (t₁ t₂ : Date) (b : Batch)
    (hb : b ∈ st.batches) (hid : b.batchId = body.batchId) :
    create Role.farmer body t₁ t₂ st = (DuplicateBatch, st) ∧
    DuplicateBatch = ⟨400, "Batch already exists", none⟩ := by
  obtain ⟨b₀, h₀⟩ := findBatch_isSome_of_mem hb hid
  exact ⟨create_existing h₀ t₁ t₂, rfl⟩

/-- C2, instantiated: creating `B1` again in the store that holds `B1`. -/
theorem create_duplicate_witness :
    createdDoc body0 5 6 ∈ store1.batches ∧ (createdDoc body0 5 6).batchId = body0.batchId ∧
    create Role.farmer body0 11 12 store1 = (DuplicateBatch, store1) :=
  ⟨by decide, by decide,
    (create_duplicate store1 body0 11 12 (createdDoc body0 5 6) (by decide) (by decide)).1⟩

/-- C3: after a successful certify of a batch, a second certify of the same batch by a
certifier, whatever its arguments, answers IllegalTransition (400, "Batch cannot be
certified") and returns the store as it was. -/
theorem certify_twice (st : Store) (id : String) (role : Role) (first second : CertifyBody)
    (t₁ t₂ t₃ t₄ : Date) (hok : (certify role id first t₁ t₂ st).1.status = 200) :
    IllegalTransition (certify Role.certifier id second t₃ t₄ (certify role id first t₁ t₂ st).2).1 ∧
    (certify Role.certifier id second t₃ t₄ (certify role id first t₁ t₂ st).2).1 =
      ⟨400, "Batch cannot be certified", none⟩ ∧
    (certify Role.certifier id second t₃ t₄ (certify role id first t₁ t₂ st).2).2 =
      (certify role id first t₁ t₂ st).2 := by
  obtain ⟨hr, b, hfind, hs, hv⟩ := certify_success_inv hok
  subst hr
  have h₂ := findBatch_after_certify hfind hs hv first t₁ t₂
  have hne : (certifiedDoc b first t₁ t₂).status ≠ Status.CREATED := by
    cases hl : first.labResults <;> simp [certifiedDoc, hl]
  rw [certify_wrong_state h₂ hne second t₃ t₄]
  exact ⟨Or.inl rfl, rfl, rfl⟩

/-- C3, instantiated: certifying `B1` a second time, now as failed. -/
theorem certify_twice_witness :
    (certify Role.certifier "B1" ⟨"0xC", "good", 9000, true⟩ 7 8 store1).1.status = 200 ∧
    (certify Role.certifier "B1" ⟨"0xC2", "poor", 1, false⟩ 11 12
      (certify Role.certifier "B1" ⟨"0xC", "good", 9000, true⟩ 7 8 store1).2).2 =
      (certify Role.certifier "B1" ⟨"0xC", "good", 9000, true⟩ 7 8 store1).2 :=
  ⟨by decide,
    (certify_twice store1 "B1" Role.certifier ⟨"0xC", "good", 9000, true⟩
      ⟨"0xC2", "poor", 1, false⟩ 7 8 11 12 (by decide)).2.2⟩

/-- C4, as stated for every caller role, fails for a farmer: on the stored batch `B1`
with status CREATED a purchase by a farmer is answered Unauthorized (403), which is not
IllegalTransition. -/
theorem purchase_by_farmer_unauthorized :
    Option.map Batch.status (findBatch "B1" store1.batches) = some Status.CREATED ∧
    (purchase Role.farmer "B1" ⟨"0xR"⟩ 9 10 store1).1 = Unauthorized ∧
    ¬ IllegalTransition (purchase Role.farmer "B1" ⟨"0xR"⟩ 9 10 store1).1 := by
  decide

/-- C4 (amended): for every stored batch whose status is not CERTIFIED, purchase fails for
every caller role and leaves the store as it was: with IllegalTransition (400, "Batch
cannot be purchased") when the caller is a retailer, with Unauthorized (403) when the
caller is a farmer or a certifier. -/
theorem purchase_not_certified (st : Store) (id : String) (b : Batch) (role : Role)
    (body : PurchaseBody) (t₁ t₂ : Date)
    (hfind : findBatch id st.batches = some b) (hs : b.status ≠ Status.CERTIFIED) :
    (role = Role.retailer →
      IllegalTransition (purchase role id body t₁ t₂ st).1 ∧
      (purchase role id body t₁ t₂ st).1 = ⟨400, "Batch cannot be purchased", none⟩) ∧
    (role ≠ Role.retailer → (purchase role id body t₁ t₂ st).1 = Unauthorized) ∧
    (purchase role id body t₁ t₂ st).1.status ≠ 200 ∧
    (purchase role id body t₁ t₂ st).2 = st := by
  by_cases hr : role = Role.retailer
  · subst hr
    rw [purchase_wrong_state hfind hs]
    exact ⟨fun _ => ⟨Or.inr rfl, rfl⟩, fun h => absurd rfl h, by simp, rfl⟩
  · rw [purchase_not_retailer hr]
    exact ⟨fun h => absurd h hr, fun _ => rfl, by simp [Unauthorized], rfl⟩

/-- C4 (amended), instantiated: a retailer purchasing the uncertified `B1`. -/
theorem purchase_not_certified_witness :
    findBatch "B1" store1.batches = some (createdDoc body0 5 6) ∧
    (createdDoc body0 5 6).status ≠ Status.CERTIFIED ∧
    IllegalTransition (purchase Role.retailer "B1" ⟨"0xR"⟩ 9 10 store1).1 ∧
    (purchase Role.retailer "B1" ⟨"0xR"⟩ 9 10 store1).2 = store1 :=
  ⟨by decide, by decide,
    ((purchase_not_certified store1 "B1" (createdDoc body0 5 6) Role.retailer ⟨"0xR"⟩ 9 10
      (by decide) (by decide)).1 rfl).1,
    (purchase_not_certified store1 "B1" (createdDoc body0 5 6) Role.retailer ⟨"0xR"⟩ 9 10
      (by decide) (by decide)).2.2.2⟩

/-- C5: REJECTED and PURCHASED are terminal.  When the stored batch with the given
identifier has status REJECTED or PURCHASED, every certify call and every purchase call,
whatever the caller's role and the arguments, fails (Unauthorized or IllegalTransition) and
returns the store as it was.  In particular, after a certifier has rejected a batch (a
certify with `labResults = false` answered 200) the stored batch has status REJECTED, and
a following purchase by a retailer answers IllegalTransition and changes nothing. -/
theorem terminal_states (st : Store) (id : String) :
    (∀ b, findBatch id st.batches = some b →
      (b.status = Status.REJECTED ∨ b.status = Status.PURCHASED) →
      ∀ (role : Role) (cb : CertifyBody) (pb : PurchaseBody) (t₁ t₂ : Date),
        ((certify role id cb t₁ t₂ st).1 = Unauthorized ∨
            IllegalTransition (certify role id cb t₁ t₂ st).1) ∧
          (certify role id cb t₁ t₂ st).2 = st ∧
        ((purchase role id pb t₁ t₂ st).1 = Unauthorized ∨
            IllegalTransition (purchase role id pb t₁ t₂ st).1) ∧
          (purchase role id pb t₁ t₂ st).2 = st) ∧
    (∀ (cb : CertifyBody) (pb : PurchaseBody) (t₁ t₂ t₃ t₄ : Date), cb.labResults = false →
      (certify Role.certifier id cb t₁ t₂ st).1.status = 200 →
        (∃ b', findBatch id (certify Role.certifier id cb t₁ t₂ st).2.batches = some b' ∧
          b'.status = Status.REJECTED) ∧
        IllegalTransition
          (purchase Role.retailer id pb t₃ t₄ (certify Role.certifier id cb t₁ t₂ st).2).1 ∧
        (purchase Role.retailer id pb t₃ t₄ (certify Role.certifier id cb t₁ t₂ st).2).2 =
          (certify Role.certifier id cb t₁ t₂ st).2) := by
  constructor
  · intro b hfind hterm role cb pb t₁ t₂
    have hc : b.status ≠ Status.CREATED := by rcases hterm with h | h <;> simp [h]
    have hp : b.status ≠ Status.CERTIFIED := by rcases hterm with h | h <;> simp [h]
    refine ⟨?_, ?_, ?_, ?_⟩
    · by_cases hr : role = Role.certifier
      · subst hr
        rw [certify_wrong_state hfind hc]
        exact Or.inr (Or.inl rfl)
      · rw [certify_not_certifier hr]
        exact Or.inl rfl
    · by_cases hr : role = Role.certifier
      · subst hr
        rw [certify_wrong_state hfind hc]
      · rw [certify_not_certifier hr]
    · by_cases hr : role = Role.retailer
      · subst hr
        rw [purchase_wrong_state hfind hp]
        exact Or.inr (Or.inr rfl)
      · rw [purchase_not_retailer hr]
        exact Or.inl rfl
    · by_cases hr : role = Role.retailer
      · subst hr
        rw [purchase_wrong_state hfind hp]
      · rw [purchase_not_retailer hr]
  · intro cb pb t₁ t₂ t₃ t₄ hl hok
    obtain ⟨_, b, hfind, hs, hv⟩ := certify_success_inv hok
    have h₂ := findBatch_after_certify hfind hs hv cb t₁ t₂
    have hst : (certifiedDoc b cb t₁ t₂).status = Status.REJECTED := by
      simp [certifiedDoc, hl]
    have hne : (certifiedDoc b cb t₁ t₂).status ≠ Status.CERTIFIED := by
      rw [hst]; decide
    refine ⟨⟨_, h₂, hst⟩, ?_, ?_⟩
    · rw [purchase_wrong_state h₂ hne]
      exact Or.inr rfl
    · rw [purchase_wrong_state h₂ hne]

/-- C5, instantiated: `B1` is rejected in `store1`; the retailer's purchase is then an
IllegalTransition and changes nothing; and on the purchased `B1` of `store3` a further
certify by a certifier is an IllegalTransition. -/
theorem terminal_states_witness :
    (certify Role.certifier "B1" ⟨"0xC", "poor", 9000, false⟩ 7 8 store1).1.status = 200 ∧
    (IllegalTransition (purchase Role.retailer "B1" ⟨"0xR"⟩ 9 10
        (certify Role.certifier "B1" ⟨"0xC", "poor", 9000, false⟩ 7 8 store1).2).1 ∧
      (purchase Role.retailer "B1" ⟨"0xR"⟩ 9 10
        (certify Role.certifier "B1" ⟨"0xC", "poor", 9000, false⟩ 7 8 store1).2).2 =
        (certify Role.certifier "B1" ⟨"0xC", "poor", 9000, false⟩ 7 8 store1).2) ∧
    Option.map Batch.status (findBatch "B1" store3.batches) = some Status.PURCHASED ∧
    (certify Role.certifier "B1" ⟨"0xC", "good", 9000, true⟩ 11 12 store3).2 = store3 :=
  ⟨by decide,
    ((terminal_states store1 "B1").2 ⟨"0xC", "poor", 9000, false⟩ ⟨"0xR"⟩ 7 8 9 10 rfl
      (by decide)).2,
    by decide,
    ((terminal_states store3 "B1").1
      (purchasedDoc (certifiedDoc (createdDoc body0 5 6) ⟨"0xC", "good", 9000, true⟩ 7 8)
        ⟨"0xR"⟩ 9 10)
      (by decide) (Or.inr (by decide)) Role.certifier ⟨"0xC", "good", 9000, true⟩ ⟨"0xR"⟩
      11 12).2.1⟩

/-! ## Successful transitions -/

/-- C6: when the stored batch with the given identifier has status CREATED, a certify by
a certifier succeeds (200) exactly when the document passes the schema validation of
`save`, and on success the stored batch afterwards has `certifier` the address of the
body, `cropHealth` and `expiry` as given, `labResults` the boolean of the body,
`certifiedAt` set to the clock value, status CERTIFIED if the boolean is true and REJECTED
if it is false, and the old history followed by exactly one entry from the batch's farmer to
the certifier whose action is the new status. -/
theorem certify_effect (st : Store) (id : String) (b : Batch) (body : CertifyBody)
    (t₁ t₂ : Date) (hfind : findBatch id st.batches = some b)
    (hs : b.status = Status.CREATED) :
    ((certify Role.certifier id body t₁ t₂ st).1.status = 200 ↔ validate b = true) ∧
    ((certify Role.certifier id body t₁ t₂ st).1.status = 200 →
      ∃ b', findBatch id (certify Role.certifier id body t₁ t₂ st).2.batches = some b' ∧
        (certify Role.certifier id body t₁ t₂ st).1.batch = some b' ∧
        b'.certifier = some body.certifier ∧
        b'.cropHealth = some body.cropHealth ∧
        b'.expiry = some body.expiry ∧
        b'.labResults = some body.labResults ∧
        b'.certifiedAt = some t₁ ∧
        b'.status = (if body.labResults then Status.CERTIFIED else Status.REJECTED) ∧
        b'.history = b.history ++ [⟨b.farmer, body.certifier, t₂, b'.status⟩] ∧
        b'.history.length = b.history.length + 1) := by
  have hiff : (certify Role.certifier id body t₁ t₂ st).1.status = 200 ↔ validate b = true := by
    constructor
    · intro hok
      obtain ⟨_, b₀, hfind₀, _, hv⟩ := certify_success_inv hok
      rw [hfind] at hfind₀
      cases hfind₀
      exact hv
    · intro hv
      rw [certify_ok hfind hs hv]
  refine ⟨hiff, fun hok => ?_⟩
  have hv := hiff.mp hok
  refine ⟨certifiedDoc b body t₁ t₂, findBatch_after_certify hfind hs hv body t₁ t₂,
    by rw [certify_ok hfind hs hv], rfl, rfl, rfl, rfl, rfl, rfl, rfl, ?_⟩
  simp [certifiedDoc]

/-- C6, instantiated: certifying `B1` in `store1` as passed succeeds and stores status
CERTIFIED with a second history entry from `0xF` to `0xC`. -/
theorem certify_effect_witness :
    findBatch "B1" store1.batches = some (createdDoc body0 5 6) ∧
    (createdDoc body0 5 6).status = Status.CREATED ∧
    (certify Role.certifier "B1" ⟨"0xC", "good", 9000, true⟩ 7 8 store1).1.status = 200 ∧
    ∃ b', findBatch "B1"
        (certify Role.certifier "B1" ⟨"0xC", "good", 9000, true⟩ 7 8 store1).2.batches =
          some b' ∧
      b'.status = Status.CERTIFIED ∧
      b'.history = (createdDoc body0 5 6).history ++ [⟨some "0xF", "0xC", 8, b'.status⟩] :=
  ⟨by decide, by decide, by decide,
    match (certify_effect store1 "B1" (createdDoc body0 5 6) ⟨"0xC", "good", 9000, true⟩ 7 8
      (by decide) (by decide)).2 (by decide) with
    | ⟨b', h₁, _, _, _, _, _, _, h₂, h₃, _⟩ => ⟨b', h₁, h₂, h₃⟩⟩

/-- C7: when the stored batch with the given identifier has status CERTIFIED, a purchase
by a retailer succeeds (200) exactly when the document passes the schema validation of
`save`, and on success the stored batch afterwards has `retailer` the address of the
body, `purchasedAt` set to the clock value, status PURCHASED, and the old history
followed by exactly one entry from the batch's farmer to the retailer with action
PURCHASED. -/
theorem purchase_effect (st : Store) (id : String) (b : Batch) (body : PurchaseBody)
    (t₁ t₂ : Date) (hfind : findBatch id st.batches = some b)
    (hs : b.status = Status.CERTIFIED) :
    ((purchase Role.retailer id body t₁ t₂ st).1.status = 200 ↔ validate b = true) ∧
    ((purchase Role.retailer id body t₁ t₂ st).1.status = 200 →
      ∃ b', findBatch id (purchase Role.retailer id body t₁ t₂ st).2.batches = some b' ∧
        (purchase Role.retailer id body t₁ t₂ st).1.batch = some b' ∧
        b'.retailer = some body.retailer ∧
        b'.purchasedAt = some t₁ ∧
        b'.status = Status.PURCHASED ∧
        b'.history = b.history ++ [⟨b.farmer, body.retailer, t₂, Status.PURCHASED⟩] ∧
        b'.history.length = b.history.length + 1) := by
  have hiff : (purchase Role.retailer id body t₁ t₂ st).1.status = 200 ↔ validate b = true := by
    constructor
    · intro hok
      obtain ⟨_, b₀, hfind₀, _, hv⟩ := purchase_success_inv hok
      rw [hfind] at hfind₀
      cases hfind₀
      exact hv
    · intro hv
      rw [purchase_ok hfind hs hv]
  refine ⟨hiff, fun hok => ?_⟩
  have hv := hiff.mp hok
  refine ⟨purchasedDoc b body t₁ t₂, findBatch_after_purchase hfind hs hv body t₁ t₂,
    by rw [purchase_ok hfind hs hv], rfl, rfl, rfl, rfl, ?_⟩
  simp [purchasedDoc]

/-- C7, instantiated: purchasing the certified `B1` of `store2` succeeds and stores status
PURCHASED with retailer `0xR`. -/
theorem purchase_effect_witness :
    findBatch "B1" store2.batches =
      some (certifiedDoc (createdDoc body0 5 6) ⟨"0xC", "good", 9000, true⟩ 7 8) ∧
    (certifiedDoc (createdDoc body0 5 6) ⟨"0xC", "good", 9000, true⟩ 7 8).status =
      Status.CERTIFIED ∧
    (purchase Role.retailer "B1" ⟨"0xR"⟩ 9 10 store2).1.status = 200 ∧
    ∃ b', findBatch "B1" (purchase Role.retailer "B1" ⟨"0xR"⟩ 9 10 store2).2.batches =
          some b' ∧
      b'.retailer = some "0xR" ∧ b'.status = Status.PURCHASED :=
  ⟨by decide, by decide, by decide,
    match (purchase_effect store2 "B1"
      (certifiedDoc (createdDoc body0 5 6) ⟨"0xC", "good", 9000, true⟩ 7 8) ⟨"0xR"⟩ 9 10
      (by decide) (by decide)).2 (by decide) with
    | ⟨b', h₁, _, h₂, _, h₃, _⟩ => ⟨b', h₁, h₂, h₃⟩⟩

/-- C8: for a create call by a farmer with a batch identifier not in the store, the call
succeeds (201) exactly when the required strings of the body are non-empty, and on success
the store holds, appended to the batch collection and found under that identifier, a batch
with the body's identifier, crop name, crop variety, location, harvest date, farmer and
price, status CREATED and a history of exactly one entry from the zero address (`0x`
followed by forty zeros) to the farmer with action CREATED; and the user found by the
farmer's wallet address, if any, has the identifier in `registeredCrops` afterwards. -/
theorem create_effect (st : Store) (body : CreateBody) (t₁ t₂ : Date)
    (hnew : findBatch body.batchId st.batches = none) :
    ((create Role.farmer body t₁ t₂ st).1.status = 201 ↔
      (body.batchId ≠ "" ∧ body.cropName ≠ "" ∧ body.cropVariety ≠ "" ∧
        body.location ≠ "" ∧ body.farmer ≠ "")) ∧
    ((create Role.farmer body t₁ t₂ st).1.status = 201 →
      (∃ b, findBatch body.batchId (create Role.farmer body t₁ t₂ st).2.batches = some b ∧
        (create Role.farmer body t₁ t₂ st).2.batches = st.batches ++ [b] ∧
        b.batchId = body.batchId ∧ b.cropName = body.cropName ∧
        b.cropVariety = body.cropVariety ∧ b.location = body.location ∧
        b.harvestDate = body.harvestDate ∧ b.farmer = some body.farmer ∧
        b.price = body.price ∧ b.status = Status.CREATED ∧
        b.history = [⟨some NULL_ADDRESS, body.farmer, t₁, Status.CREATED⟩]) ∧
      (∀ u, findUser body.farmer st.users = some u →
        ∃ u', findUser body.farmer (create Role.farmer body t₁ t₂ st).2.users = some u' ∧
          u'.registeredCrops = addToSet u.registeredCrops body.batchId ∧
          body.batchId ∈ u'.registeredCrops)) ∧
    NULL_ADDRESS = "0x" ++ String.mk (List.replicate 40 '0') := by
  have hiff : (create Role.farmer body t₁ t₂ st).1.status = 201 ↔
      (body.batchId ≠ "" ∧ body.cropName ≠ "" ∧ body.cropVariety ≠ "" ∧
        body.location ≠ "" ∧ body.farmer ≠ "") := by
    constructor
    · intro hok
      by_contra hbad
      rw [create_invalid hnew hbad] at hok
      simp at hok
    · rintro ⟨hid, hname, hvar, hloc, hF⟩
      rw [create_ok hnew hid hname hvar hloc hF]
  refine ⟨hiff, ?_, by decide⟩
  intro hok
  obtain ⟨hid, hname, hvar, hloc, hF⟩ := hiff.mp hok
  refine ⟨⟨createdDoc body t₁ t₂, findBatch_after_create hnew hid hname hvar hloc hF t₁ t₂,
    by rw [create_ok hnew hid hname hvar hloc hF],
    rfl, rfl, rfl, rfl, rfl, rfl, rfl, rfl, rfl⟩, ?_⟩
  intro u hu
  rw [create_ok hnew hid hname hvar hloc hF]
  exact ⟨_, findUser_after_update _ (fun _ => rfl) hu, rfl, mem_addToSet _ _⟩

/-- C8, instantiated: creating `B1` in `store0` succeeds and registers `B1` with the
farmer `0xF`. -/
theorem create_effect_witness :
    findBatch body0.batchId store0.batches = none ∧
    (create Role.farmer body0 5 6 store0).1.status = 201 ∧
    ∃ u', findUser body0.farmer (create Role.farmer body0 5 6 store0).2.users = some u' ∧
      u'.registeredCrops = addToSet [] body0.batchId ∧ body0.batchId ∈ u'.registeredCrops :=
  ⟨by decide, by decide,
    ((create_effect store0 body0 5 6 (by decide)).2.1 (by decide)).2
      ⟨"0xF", Role.farmer, [], [], [], []⟩ (by decide)⟩

/-! ## The outcome of certify -/

/-- The outcome of certify, case by case, in the order of the handler's checks: 403 for a
caller who is not a certifier; else 404 when no stored batch has the identifier; else 400
when the found batch is not CREATED; else 500 when `save` refuses the document; else 200. -/
theorem certify_outcome (st : Store) (role : Role) (id : String) (body : CertifyBody)
    (t₁ t₂ : Date) :
    ((certify role id body t₁ t₂ st).1.status = 200 ↔
      (role = Role.certifier ∧ ∃ b, findBatch id st.batches = some b ∧
        b.status = Status.CREATED ∧ validate b = true)) ∧
    (role ≠ Role.certifier → (certify role id body t₁ t₂ st).1 = Unauthorized) ∧
    (role = Role.certifier → (∀ b ∈ st.batches, b.batchId ≠ id) →
      (certify role id body t₁ t₂ st).1 = NotFound) ∧
    (role = Role.certifier → ∀ b, findBatch id st.batches = some b →
      b.status ≠ Status.CREATED →
      IllegalTransition (certify role id body t₁ t₂ st).1 ∧
      (certify role id body t₁ t₂ st).1 = ⟨400, "Batch cannot be certified", none⟩) ∧
    (role = Role.certifier → ∀ b, findBatch id st.batches = some b →
      b.status = Status.CREATED → validate b = false →
      (certify role id body t₁ t₂ st).1 = ⟨500, "Server error", none⟩) := by
  refine ⟨⟨certify_success_inv, ?_⟩, ?_, ?_, ?_, ?_⟩
  · rintro ⟨hr, b, hfind, hs, hv⟩
    subst hr
    rw [certify_ok hfind hs hv]
  · intro hr
    rw [certify_not_certifier hr]
  · intro hr hnone
    subst hr
    have hfind : findBatch id st.batches = none := by
      unfold findBatch
      rw [List.find?_eq_none]
      intro x hx
      simpa using hnone x hx
    rw [certify_missing hfind]
  · intro hr b hfind hs
    subst hr
    rw [certify_wrong_state hfind hs]
    exact ⟨Or.inl rfl, rfl⟩
  · intro hr b hfind hs hv
    subst hr
    rw [certify_invalid hfind hs hv]

/-- C9, evaluated where the code departs from it.  `storeNoFarmer` is reached by creating
`B1` for farmer `0xF` and then deleting the account `0xF`, which sets the batch's `farmer`
to `null`.  The caller is a certifier, the batch `B1` exists and its status is CREATED, yet
certify does not succeed: `save` refuses the document whose required `farmer` is `null`,
and the handler answers 500 "Server error" (none of Unauthorized, NotFound,
IllegalTransition) and writes nothing. -/
theorem certify_after_farmer_deleted :
    storeNoFarmer = (deleteAccount "0xF" (create Role.farmer body0 5 6 store0).2).2 ∧
    (create Role.farmer body0 5 6 store0).1.status = 201 ∧
    (deleteAccount "0xF" (create Role.farmer body0 5 6 store0).2).1.status = 200 ∧
    Option.map Batch.status (findBatch "B1" storeNoFarmer.batches) = some Status.CREATED ∧
    Option.map Batch.farmer (findBatch "B1" storeNoFarmer.batches) = some none ∧
    certify Role.certifier "B1" ⟨"0xC", "good", 9000, true⟩ 7 8 storeNoFarmer =
      (⟨500, "Server error", none⟩, storeNoFarmer) ∧
    (certify Role.certifier "B1" ⟨"0xC", "good", 9000, true⟩ 7 8 storeNoFarmer).1.status ≠ 200 := by
  decide

/-! ## Rejections write nothing -/

theorem findBatch_none_of_forall {id : String} {bs : List Batch}
    (h : ∀ b ∈ bs, b.batchId ≠ id) : findBatch id bs = none := by
  unfold findBatch
  rw [List.find?_eq_none]
  intro x hx
  simpa using h x hx

/-- C10: a create, certify or purchase call that is rejected for a validation or
authorization reason returns the store as it was, so no batch field, no history and no
participant list is modified.  For each handler: each reason (wrong caller role, duplicate
identifier, unknown identifier, illegal current status) yields one of the rejections
Unauthorized, DuplicateBatch, NotFound, IllegalTransition; and whenever the answer is one
of these rejections the store returned is the store given. -/
theorem rejected_call_no_write (st : Store) (role : Role) (id : String) (t₁ t₂ : Date) :
    (∀ body : CreateBody,
      ((role ≠ Role.farmer ∨ ∃ b ∈ st.batches, b.batchId = body.batchId) →
        ((create role body t₁ t₂ st).1 = Unauthorized ∨
          (create role body t₁ t₂ st).1 = DuplicateBatch)) ∧
      (((create role body t₁ t₂ st).1 = Unauthorized ∨
          (create role body t₁ t₂ st).1 = DuplicateBatch) →
        (create role body t₁ t₂ st).2 = st)) ∧
    (∀ body : CertifyBody,
      ((role ≠ Role.certifier ∨ (∀ b ∈ st.batches, b.batchId ≠ id) ∨
          ∃ b, findBatch id st.batches = some b ∧ b.status ≠ Status.CREATED) →
        ((certify role id body t₁ t₂ st).1 = Unauthorized ∨
          (certify role id body t₁ t₂ st).1 = NotFound ∨
          IllegalTransition (certify role id body t₁ t₂ st).1)) ∧
      (((certify role id body t₁ t₂ st).1 = Unauthorized ∨
          (certify role id body t₁ t₂ st).1 = NotFound ∨
          IllegalTransition (certify role id body t₁ t₂ st).1) →
        (certify role id body t₁ t₂ st).2 = st)) ∧
    (∀ body : PurchaseBody,
      ((role ≠ Role.retailer ∨ (∀ b ∈ st.batches, b.batchId ≠ id) ∨
          ∃ b, findBatch id st.batches = some b ∧ b.status ≠ Status.CERTIFIED) →
        ((purchase role id body t₁ t₂ st).1 = Unauthorized ∨
          (purchase role id body t₁ t₂ st).1 = NotFound ∨
          IllegalTransition (purchase role id body t₁ t₂ st).1)) ∧
      (((purchase role id body t₁ t₂ st).1 = Unauthorized ∨
          (purchase role id body t₁ t₂ st).1 = NotFound ∨
          IllegalTransition (purchase role id body t₁ t₂ st).1) →
        (purchase role id body t₁ t₂ st).2 = st)) := by
  refine ⟨fun body => ⟨?_, ?_⟩, fun body => ⟨?_, ?_⟩, fun body => ⟨?_, ?_⟩⟩
  · intro hwhy
    by_cases hr : role = Role.farmer
    · subst hr
      rcases hwhy with h | ⟨b, hb, hid⟩
      · exact absurd rfl h
      · obtain ⟨b₀, h₀⟩ := findBatch_isSome_of_mem hb hid
        rw [create_existing h₀]
        exact Or.inr rfl
    · rw [create_not_farmer hr]
      exact Or.inl rfl
  · intro hrej
    by_cases hr : role = Role.farmer
    · subst hr
      cases hfind : findBatch body.batchId st.batches with
      | some b => rw [create_existing hfind]
      | none =>
        by_cases hv : body.batchId ≠ "" ∧ body.cropName ≠ "" ∧ body.cropVariety ≠ "" ∧
            body.location ≠ "" ∧ body.farmer ≠ ""
        · obtain ⟨hid, hname, hvar, hloc, hF⟩ := hv
          rw [create_ok hfind hid hname hvar hloc hF] at hrej
          simp [Unauthorized, DuplicateBatch] at hrej
        · rw [create_invalid hfind hv]
    · rw [create_not_farmer hr]
  · intro hwhy
    by_cases hr : role = Role.certifier
    · subst hr
      rcases hwhy with h | h | ⟨b, hfind, hs⟩
      · exact absurd rfl h
      · rw [certify_missing (findBatch_none_of_forall h)]
        exact Or.inr (Or.inl rfl)
      · rw [certify_wrong_state hfind hs]
        exact Or.inr (Or.inr (Or.inl rfl))
    · rw [certify_not_certifier hr]
      exact Or.inl rfl
  · intro hrej
    by_cases hr : role = Role.certifier
    · subst hr
      cases hfind : findBatch id st.batches with
      | none => rw [certify_missing hfind]
      | some b =>
        by_cases hs : b.status = Status.CREATED
        · cases hv : validate b with
          | true =>
            rw [certify_ok hfind hs hv] at hrej
            simp [Unauthorized, NotFound, IllegalTransition] at hrej
          | false => rw [certify_invalid hfind hs hv]
        · rw [certify_wrong_state hfind hs]
    · rw [certify_not_certifier hr]
  · intro hwhy
    by_cases hr : role = Role.retailer
    · subst hr
      rcases hwhy with h | h | ⟨b, hfind, hs⟩
      · exact absurd rfl h
      · rw [purchase_missing (findBatch_none_of_forall h)]
        exact Or.inr (Or.inl rfl)
      · rw [purchase_wrong_state hfind hs]
        exact Or.inr (Or.inr (Or.inr rfl))
    · rw [purchase_not_retailer hr]
      exact Or.inl rfl
  · intro hrej
    by_cases hr : role = Role.retailer
    · subst hr
      cases hfind : findBatch id st.batches with
      | none => rw [purchase_missing hfind]
      | some b =>
        by_cases hs : b.status = Status.CERTIFIED
        · cases hv : validate b with
          | true =>
            rw [purchase_ok hfind hs hv] at hrej
            simp [Unauthorized, NotFound, IllegalTransition] at hrej
          | false => rw [purchase_invalid hfind hs hv]
        · rw [purchase_wrong_state hfind hs]
    · rw [purchase_not_retailer hr]

/-- C10, instantiated: a retailer's create, a certify of the already certified `B1` and a
purchase of the unknown `B9` are rejected and all return `store2` untouched. -/
theorem rejected_call_no_write_witness :
    (create Role.retailer body0 11 12 store2).1 = Unauthorized ∧
    (create Role.retailer body0 11 12 store2).2 = store2 ∧
    IllegalTransition (certify Role.certifier "B1" ⟨"0xC", "good", 9000, true⟩ 11 12 store2).1 ∧
    (certify Role.certifier "B1" ⟨"0xC", "good", 9000, true⟩ 11 12 store2).2 = store2 ∧
    (purchase Role.retailer "B9" ⟨"0xR"⟩ 11 12 store2).1 = NotFound ∧
    (purchase Role.retailer "B9" ⟨"0xR"⟩ 11 12 store2).2 = store2 :=
  ⟨by decide,
    ((rejected_call_no_write store2 Role.retailer "B1" 11 12).1 body0).2 (Or.inl (by decide)),
    by decide,
    ((rejected_call_no_write store2 Role.certifier "B1" 11 12).2.1
      ⟨"0xC", "good", 9000, true⟩).2 (Or.inr (Or.inr (by decide))),
    by decide,
    ((rejected_call_no_write store2 Role.retailer "B9" 11 12).2.2 ⟨"0xR"⟩).2
      (Or.inr (Or.inl (by decide)))⟩

/-! ## Account deletion -/

/-- C15, as stated for all three references, fails when the wallet stands in a field
other than the one of its role: `0xF` is a farmer, batch `B1` names `0xF` as farmer and,
through the body of a certify request, as certifier; deleting the account `0xF` succeeds
and clears `farmer`, and `certifier` still equals `0xF`. -/
theorem delete_leaves_cross_role_reference :
    Option.map User.role (findUser "0xF" storeCrossRole.users) = some Role.farmer ∧
    (deleteAccount "0xF" storeCrossRole).1.status = 200 ∧
    Option.map Batch.farmer (findBatch "B1" (deleteAccount "0xF" storeCrossRole).2.batches) =
      some none ∧
    Option.map Batch.certifier
      (findBatch "B1" (deleteAccount "0xF" storeCrossRole).2.batches) = some (some "0xF") := by
  decide

/-- C15 (amended): after the account with wallet address `w` is deleted (the handler
answers 200), no stored batch has the reference of the deleted user's role equal to `w`
(`farmer` for a farmer, `certifier` for a certifier, `retailer` for a retailer), and the
batches are the same in number and order, each with the identifier and the history it
had before the deletion. -/
theorem delete_clears_role_reference (w : String) (st : Store)
    (hok : (deleteAccount w st).1.status = 200) :
    ∃ u, findUser w st.users = some u ∧
      (∀ b ∈ (deleteAccount w st).2.batches,
        (u.role = Role.farmer → b.farmer ≠ some w) ∧
        (u.role = Role.certifier → b.certifier ≠ some w) ∧
        (u.role = Role.retailer → b.retailer ≠ some w)) ∧
      (deleteAccount w st).2.batches.map Batch.history = st.batches.map Batch.history ∧
      (deleteAccount w st).2.batches.map Batch.batchId = st.batches.map Batch.batchId := by
  unfold deleteAccount at hok ⊢
  by_cases hw : w = ""
  · simp [hw] at hok
  · cases hu : findUser w st.users with
    | none => simp [hw, hu] at hok
    | some u =>
      refine ⟨u, rfl, ?_⟩
      cases hr : u.role <;>
        simp only [hw, if_false, hr, List.mem_map, List.map_map] <;>
        refine ⟨?_, ?_, ?_⟩
      all_goals first
        | (rintro b ⟨x, _, rfl⟩
           refine ⟨?_, ?_, ?_⟩ <;> intro h <;> first
             | exact absurd h (by decide)
             | (split <;> simp_all))
        | (apply List.map_congr_left
           intro x _
           simp only [Function.comp]
           split <;> rfl)

/-- C15 (amended), instantiated: deleting the farmer `0xF` from `store1` clears the
farmer of `B1` and keeps its history. -/
theorem delete_clears_role_reference_witness :
    (deleteAccount "0xF" store1).1.status = 200 ∧
    (deleteAccount "0xF" store1).2.batches.map Batch.history =
      store1.batches.map Batch.history :=
  ⟨by decide,
    match delete_clears_role_reference "0xF" store1 (by decide) with
    | ⟨_, _, _, h, _⟩ => h⟩

/-! ## A failing participant-list update -/

theorem createWith_false (role : Role) (body : CreateBody) (t₁ t₂ : Date) (st : Store) :
    createWith false role body t₁ t₂ st = create role body t₁ t₂ st := by
  unfold createWith create
  by_cases hr : role = Role.farmer
  · cases hfind : findBatch body.batchId st.batches <;> simp [hr, createdDoc]
  · simp [hr]

theorem certifyWith_false (role : Role) (id : String) (body : CertifyBody) (t₁ t₂ : Date)
    (st : Store) : certifyWith false role id body t₁ t₂ st = certify role id body t₁ t₂ st := by
  unfold certifyWith certify
  by_cases hr : role = Role.certifier
  · cases hfind : findBatch id st.batches with
    | none => simp [hr]
    | some b => by_cases hs : b.status = Status.CREATED <;> simp [hr, hs, certifiedDoc]
  · simp [hr]

theorem purchaseWith_false (role : Role) (id : String) (body : PurchaseBody) (t₁ t₂ : Date)
    (st : Store) :
    purchaseWith false role id body t₁ t₂ st = purchase role id body t₁ t₂ st := by
  unfold purchaseWith purchase
  by_cases hr : role = Role.retailer
  · cases hfind : findBatch id st.batches with
    | none => simp [hr]
    | some b => by_cases hs : b.status = Status.CERTIFIED <;> simp [hr, hs, purchasedDoc]
  · simp [hr]

/-- When the list update throws, a call that would have succeeded is answered 500 "Server
error", and the store holds the batch write all the same, with the users untouched. -/
theorem createWith_true_of_ok (role : Role) (body : CreateBody) (t₁ t₂ : Date) (st : Store)
    (hok : (create role body t₁ t₂ st).1.status = 201) :
    createWith true role body t₁ t₂ st =
      (⟨500, "Server error", none⟩,
        { batches := (create role body t₁ t₂ st).2.batches, users := st.users }) := by
  unfold createWith
  unfold create at hok ⊢
  by_cases hr : role = Role.farmer
  · cases hfind : findBatch body.batchId st.batches with
    | some b => simp [hr, hfind] at hok
    | none =>
      cases hv : validate (createdDoc body t₁ t₂) with
      | true =>
        have hv' := hv
        simp only [createdDoc] at hv'
        simp [hr, hv, hv', createdDoc]
      | false =>
        simp only [createdDoc] at hv
        simp [hr, hfind, hv] at hok
  · simp [hr] at hok

/-- C18, evaluated where the code departs from it.  With the participant-list update
throwing, the creation of `B1` in `store0`, the certification of `B1` in `store1` and the
purchase of `B1` in `store2` each answer 500 "Server error" instead of success; the batch
write is in the store all the same (`B1` is stored, then CERTIFIED, then PURCHASED) and the
users are untouched.  Without the failure the same three calls answer 201, 200 and 200. -/
theorem list_update_failure_is_surfaced :
    (createWith true Role.farmer body0 5 6 store0).1 = ⟨500, "Server error", none⟩ ∧
    Option.map Batch.status
      (findBatch "B1" (createWith true Role.farmer body0 5 6 store0).2.batches) =
        some Status.CREATED ∧
    (createWith true Role.farmer body0 5 6 store0).2.users = store0.users ∧
    (createWith false Role.farmer body0 5 6 store0).1.status = 201 ∧
    (certifyWith true Role.certifier "B1" ⟨"0xC", "good", 9000, true⟩ 7 8 store1).1 =
      ⟨500, "Server error", none⟩ ∧
    Option.map Batch.status
      (findBatch "B1"
        (certifyWith true Role.certifier "B1" ⟨"0xC", "good", 9000, true⟩ 7 8 store1).2.batches) =
        some Status.CERTIFIED ∧
    (certifyWith false Role.certifier "B1" ⟨"0xC", "good", 9000, true⟩ 7 8 store1).1.status =
      200 ∧
    (purchaseWith true Role.retailer "B1" ⟨"0xR"⟩ 9 10 store2).1 =
      ⟨500, "Server error", none⟩ ∧
    Option.map Batch.status
      (findBatch "B1" (purchaseWith true Role.retailer "B1" ⟨"0xR"⟩ 9 10 store2).2.batches) =
        some Status.PURCHASED ∧
    (purchaseWith false Role.retailer "B1" ⟨"0xR"⟩ 9 10 store2).1.status = 200 := by
  decide

/-! ## The token identifier -/

theorem dropWhile_rdropWhile_dropWhile {α : Type} (p : α → Bool) (l : List α) :
    ((l.dropWhile p).rdropWhile p).dropWhile p = (l.dropWhile p).rdropWhile p := by
  have hpre : (l.dropWhile p).rdropWhile p <+: l.dropWhile p := List.rdropWhile_prefix p _
  cases hm : (l.dropWhile p).rdropWhile p with
  | nil => rfl
  | cons x m =>
    rw [hm] at hpre
    obtain ⟨t, ht⟩ := hpre
    have hne : l.dropWhile p ≠ [] := by
      intro h
      rw [h] at ht
      simp at ht
    have hhead := List.head_dropWhile_not p l hne
    have hx : (l.dropWhile p).head hne = x := by
      simp [← ht]
    rw [hx] at hhead
    simp [List.dropWhile_cons, hhead]

theorem jsTrim_idempotent (s : String) : jsTrim (jsTrim s) = jsTrim s := by
  unfold jsTrim
  simp only [dropWhile_rdropWhile_dropWhile, List.rdropWhile_idempotent]

/-- C19: the four places that derive a token id (the on-chain existence probe and the
certify submission of `CertifyBatch.js`, the history read and the purchase submission of
`BatchDetail.js`) all compute the hash of the trimmed batch identifier, so they agree on
every string; trimming is idempotent, so each gives a string and its trimmed form the same
token id, and `" ABC-1 "` the token id of `"ABC-1"`.  The `ownerOf` probe and the
`certifyBatch` transaction of `handleSubmitCertification` are made with that token id. -/
theorem token_id_normalised (lib : Lib) (s : String) :
    (probeTokenId lib s = lib.keccak256 (jsTrim s) ∧
      certifyTokenId lib s = lib.keccak256 (jsTrim s) ∧
      historyTokenId lib s = lib.keccak256 (jsTrim s) ∧
      purchaseTokenId lib s = lib.keccak256 (jsTrim s)) ∧
    (probeTokenId lib (jsTrim s) = probeTokenId lib s ∧
      certifyTokenId lib (jsTrim s) = certifyTokenId lib s ∧
      historyTokenId lib (jsTrim s) = historyTokenId lib s ∧
      purchaseTokenId lib (jsTrim s) = purchaseTokenId lib s) ∧
    (jsTrim " ABC-1 " = "ABC-1" ∧
      probeTokenId lib " ABC-1 " = probeTokenId lib "ABC-1" ∧
      certifyTokenId lib " ABC-1 " = certifyTokenId lib "ABC-1" ∧
      historyTokenId lib " ABC-1 " = historyTokenId lib "ABC-1" ∧
      purchaseTokenId lib " ABC-1 " = purchaseTokenId lib "ABC-1") ∧
    (∀ (ledger : Ledger) (page : CertifyPage) (t₁ t₂ : Date) (st : Store) (e : Effect),
      e ∈ (handleSubmitCertification lib ledger page t₁ t₂ st).effects →
      e.isLedgerSubmission = true →
      e = Effect.sendCertifyBatch (lib.keccak256 (jsTrim page.batchId)) page.passed
        page.cropHealth (dateToTimestamp page.expiry)) := by
  have hex : jsTrim " ABC-1 " = "ABC-1" := by decide
  have hclean : jsTrim "ABC-1" = "ABC-1" := by decide
  refine ⟨⟨rfl, rfl, rfl, rfl⟩, ?_, ?_, ?_⟩
  · simp only [probeTokenId, certifyTokenId, historyTokenId, purchaseTokenId,
      jsTrim_idempotent, and_self]
  · simp only [probeTokenId, certifyTokenId, historyTokenId, purchaseTokenId, hex, hclean,
      and_self]
  · intro ledger page t₁ t₂ st e he hsub
    unfold handleSubmitCertification at he
    split at he
    · simp at he
    · split at he
      · simp at he
      · split at he
        · simp at he
        · split at he
          · simp at he
          · simp at he
          · have hsend : e ∈ (submitCertification lib ledger page t₁ t₂ st).effects := by
              split at he <;> exact he
            unfold submitCertification at hsend
            split at hsend
            · simpa [certifyTokenId] using hsend
            · simpa [certifyTokenId] using hsend
            · split at hsend
              · simp only [List.mem_cons, List.mem_singleton, List.not_mem_nil, or_false]
                  at hsend
                rcases hsend with h | h
                · simpa [certifyTokenId] using h
                · rw [h] at hsub
                  simp [Effect.isLedgerSubmission] at hsub
              · simp only [List.mem_cons, List.mem_singleton, List.not_mem_nil, or_false]
                  at hsend
                rcases hsend with h | h
                · simpa [certifyTokenId] using h
                · rw [h] at hsub
                  simp [Effect.isLedgerSubmission] at hsub

/-- C19, instantiated: on `certifyPage0` with every token present the one transaction
submitted carries the token id of the trimmed `B1`. -/
theorem token_id_normalised_witness :
    Effect.sendCertifyBatch (lib0.keccak256 (jsTrim "B1")) true "good" 9 ∈
      (handleSubmitCertification lib0 ledgerPresent certifyPage0 7 8 store1).effects ∧
    Effect.sendCertifyBatch (lib0.keccak256 (jsTrim "B1")) true "good" 9 =
      Effect.sendCertifyBatch (lib0.keccak256 (jsTrim certifyPage0.batchId))
        certifyPage0.passed certifyPage0.cropHealth (dateToTimestamp certifyPage0.expiry) :=
  ⟨by decide,
    (token_id_normalised lib0 "B1").2.2.2 ledgerPresent certifyPage0 7 8 store1 _
      (by decide) (by decide)⟩

/-! ## The certify flow and the existence probe -/

/-- C20: in `handleSubmitCertification`, whenever the existence probe `ownerOf` of the
batch's token id reverts (the batch is absent on-chain), the attempt ends with an error
shown and no success: no `certifyBatch` transaction is submitted, no certify request is
sent to the backend, nothing at all is issued, and the store is as it was, so a batch whose
off-chain status is CREATED keeps it.  On a connected page the probe of the page's effect
reports `false` for the same batch. -/
theorem certify_blocked_when_absent (lib : Lib) (ledger : Ledger) (page : CertifyPage)
    (t₁ t₂ : Date) (st : Store) (m : String)
    (habsent : ledger.ownerOf (lib.keccak256 (jsTrim page.batchId)) = CallResult.reverted m) :
    (handleSubmitCertification lib ledger page t₁ t₂ st).error ≠ none ∧
    (handleSubmitCertification lib ledger page t₁ t₂ st).success = false ∧
    (handleSubmitCertification lib ledger page t₁ t₂ st).effects = [] ∧
    (handleSubmitCertification lib ledger page t₁ t₂ st).store = st ∧
    (∀ b, findBatch page.batchId st.batches = some b → b.status = Status.CREATED →
      Option.map Batch.status
        (findBatch page.batchId
          (handleSubmitCertification lib ledger page t₁ t₂ st).store.batches) =
        some Status.CREATED) ∧
    (page.web3Ready = true → page.hasBatchToken = true → page.batchId ≠ "" →
      checkOnchainBatch lib ledger page.web3Ready page.hasBatchToken page.batchId =
        some false) := by
  have hrun : (handleSubmitCertification lib ledger page t₁ t₂ st).error ≠ none ∧
      (handleSubmitCertification lib ledger page t₁ t₂ st).success = false ∧
      (handleSubmitCertification lib ledger page t₁ t₂ st).effects = [] ∧
      (handleSubmitCertification lib ledger page t₁ t₂ st).store = st := by
    unfold handleSubmitCertification
    split
    · simp
    · split
      · simp
      · split
        · simp
        · simp [certifyTokenId, habsent]
  refine ⟨hrun.1, hrun.2.1, hrun.2.2.1, hrun.2.2.2, ?_, ?_⟩
  · intro b hb hs
    rw [hrun.2.2.2, hb]
    simp [hs]
  · intro h₁ h₂ h₃
    simp [checkOnchainBatch, h₁, h₂, h₃, probeTokenId, habsent]

/-- C20, instantiated: on the ledger where every token is absent, the certifier's attempt
on the CREATED batch `B1` of `store1` issues nothing and leaves `store1`. -/
theorem certify_blocked_when_absent_witness :
    ledgerAbsent.ownerOf (lib0.keccak256 (jsTrim certifyPage0.batchId)) =
      CallResult.reverted "ERC721: invalid token ID" ∧
    Option.map Batch.status (findBatch "B1" store1.batches) = some Status.CREATED ∧
    (handleSubmitCertification lib0 ledgerAbsent certifyPage0 7 8 store1).effects = [] ∧
    (handleSubmitCertification lib0 ledgerAbsent certifyPage0 7 8 store1).store = store1 :=
  ⟨by decide, by decide,
    (certify_blocked_when_absent lib0 ledgerAbsent certifyPage0 7 8 store1
      "ERC721: invalid token ID" (by decide)).2.2.1,
    (certify_blocked_when_absent lib0 ledgerAbsent certifyPage0 7 8 store1
      "ERC721: invalid token ID" (by decide)).2.2.2.1⟩

/-! ## Validation of a creation -/

/-- C11, as stated for a price that is not strictly positive, fails: the backend creates
and stores `B1` with price 0 and with price -5 (201), and the form with price `"0"` passes
the local validation of `handleSubmit`, which submits the `createBatch` transaction to the
ledger and posts the batch to the backend. -/
theorem create_accepts_non_positive_price :
    (create Role.farmer bodyPriceZero 5 6 store0).1.status = 201 ∧
    Option.map Batch.price
      (findBatch "B1" (create Role.farmer bodyPriceZero 5 6 store0).2.batches) = some 0 ∧
    (create Role.farmer bodyPriceNegative 5 6 store0).1.status = 201 ∧
    Option.map Batch.price
      (findBatch "B1" (create Role.farmer bodyPriceNegative 5 6 store0).2.batches) =
        some (-5) ∧
    (handleSubmit lib0 ledgerPresent createPagePriceZero 5 6 store0).success = true ∧
    (handleSubmit lib0 ledgerPresent createPagePriceZero 5 6 store0).effects.map
      Effect.isLedgerSubmission = [true, false] := by
  decide

theorem create_no_write_of_not_ok (role : Role) (body : CreateBody) (t₁ t₂ : Date)
    (st : Store) (h : (create role body t₁ t₂ st).1.status ≠ 201) :
    (create role body t₁ t₂ st).2 = st := by
  by_cases hr : role = Role.farmer
  · subst hr
    cases hfind : findBatch body.batchId st.batches with
    | some b => rw [create_existing hfind]
    | none =>
      by_cases hv : body.batchId ≠ "" ∧ body.cropName ≠ "" ∧ body.cropVariety ≠ "" ∧
          body.location ≠ "" ∧ body.farmer ≠ ""
      · obtain ⟨hid, hname, hvar, hloc, hF⟩ := hv
        rw [create_ok hfind hid hname hvar hloc hF] at h
        simp at h
      · rw [create_invalid hfind hv]
  · rw [create_not_farmer hr]

theorem create_not_ok_of_empty (role : Role) (body : CreateBody) (t₁ t₂ : Date) (st : Store)
    (hempty : body.batchId = "" ∨ body.cropName = "" ∨ body.cropVariety = "" ∨
      body.location = "" ∨ body.farmer = "") :
    (create role body t₁ t₂ st).1.status ≠ 201 := by
  have hbad : ¬ (body.batchId ≠ "" ∧ body.cropName ≠ "" ∧ body.cropVariety ≠ "" ∧
      body.location ≠ "" ∧ body.farmer ≠ "") := by
    rintro ⟨h₁, h₂, h₃, h₄, h₅⟩
    rcases hempty with h | h | h | h | h
    · exact h₁ h
    · exact h₂ h
    · exact h₃ h
    · exact h₄ h
    · exact h₅ h
  by_cases hr : role = Role.farmer
  · subst hr
    cases hfind : findBatch body.batchId st.batches with
    | some b =>
      rw [create_existing hfind]
      simp [DuplicateBatch]
    | none =>
      rw [create_invalid hfind hbad]
      simp
  · rw [create_not_farmer hr]
    simp [Unauthorized]

/-- C11 (amended): create fails by validation, without any store write or ledger
submission, whenever a required field is empty.  On the form, `handleSubmit` of a
connected page shows "Please fill in all fields", issues nothing and leaves the store when
the batch identifier, crop name, crop variety, location, harvest date or price is empty.
On a CSV row, `createSingleBatch` throws "CSV row missing required fields", issues nothing
and leaves the store when the trimmed batch identifier, crop name, crop variety or
location is empty.  In the backend, a create whose batch identifier, crop name, crop
variety, location or farmer is the empty string does not succeed and returns the store as
it was; when the caller is a farmer and the identifier is not stored, it is `save` that
refuses, answered 500 "Server error". -/
theorem create_rejects_empty_fields (lib : Lib) (ledger : Ledger) (t₁ t₂ : Date)
    (st : Store) :
    (∀ page : CreatePage, page.web3Ready = true → page.account ≠ "" →
      (page.batchId = "" ∨ page.cropName = "" ∨ page.cropVariety = "" ∨
        page.location = "" ∨ page.harvestDate = none ∨ page.price = "") →
      handleSubmit lib ledger page t₁ t₂ st =
        ⟨some "Please fill in all fields", false, [], st⟩) ∧
    (∀ (tokenRole : Role) (account : String) (now : Date) (row : CsvRow),
      (jsTrim row.batchId = "" ∨ jsTrim row.cropName = "" ∨ jsTrim row.cropVariety = "" ∨
        jsTrim row.location = "") →
      createSingleBatch lib ledger tokenRole account now row t₁ t₂ st =
        ⟨some "CSV row missing required fields", false, [], st⟩) ∧
    (∀ (role : Role) (body : CreateBody),
      (body.batchId = "" ∨ body.cropName = "" ∨ body.cropVariety = "" ∨
        body.location = "" ∨ body.farmer = "") →
      (create role body t₁ t₂ st).1.status ≠ 201 ∧
      (create role body t₁ t₂ st).2 = st ∧
      (role = Role.farmer → findBatch body.batchId st.batches = none →
        (create role body t₁ t₂ st).1 = ⟨500, "Server error", none⟩)) := by
  refine ⟨?_, ?_, ?_⟩
  · intro page hready hacc hempty
    unfold handleSubmit
    have hcond : (page.batchId = "" || page.cropName = "" || page.cropVariety = "" ||
        page.location = "" || page.harvestDate.isNone || page.price = "") = true := by
      rcases hempty with h | h | h | h | h | h <;> simp [h]
    simp [hready, hacc, hcond]
  · intro tokenRole account now row hempty
    unfold createSingleBatch
    have hcond : (jsTrim row.batchId = "" || jsTrim row.cropName = "" ||
        jsTrim row.cropVariety = "" || jsTrim row.location = "" ||
        jsTrim (if row.price = "" then "0" else row.price) = "") = true := by
      rcases hempty with h | h | h | h <;> simp [h]
    simp [hcond]
  · intro role body hempty
    have hnot := create_not_ok_of_empty role body t₁ t₂ st hempty
    refine ⟨hnot, create_no_write_of_not_ok role body t₁ t₂ st hnot, ?_⟩
    intro hr hfind
    subst hr
    have hbad : ¬ (body.batchId ≠ "" ∧ body.cropName ≠ "" ∧ body.cropVariety ≠ "" ∧
        body.location ≠ "" ∧ body.farmer ≠ "") := by
      rintro ⟨h₁, h₂, h₃, h₄, h₅⟩
      rcases hempty with h | h | h | h | h
      · exact h₁ h
      · exact h₂ h
      · exact h₃ h
      · exact h₄ h
      · exact h₅ h
    rw [create_invalid hfind hbad]

/-- C11 (amended), instantiated: the form with an empty crop name is refused before
anything is issued, and the backend refuses the request with the empty batch identifier
and leaves `store0`. -/
theorem create_rejects_empty_fields_witness :
    createPageNoName.cropName = "" ∧
    handleSubmit lib0 ledgerPresent createPageNoName 5 6 store0 =
      ⟨some "Please fill in all fields", false, [], store0⟩ ∧
    bodyEmptyId.batchId = "" ∧
    (create Role.farmer bodyEmptyId 5 6 store0).2 = store0 :=
  ⟨by decide,
    (create_rejects_empty_fields lib0 ledgerPresent 5 6 store0).1 createPageNoName
      (by decide) (by decide) (Or.inr (Or.inl (by decide))),
    by decide,
    ((create_rejects_empty_fields lib0 ledgerPresent 5 6 store0).2.2 Role.farmer bodyEmptyId
      (Or.inl (by decide))).2.1⟩

/-! ## Sequences of requests: what a step does to the batches -/

theorem forall₂_updateFirst {α : Type} (R : α → α → Prop) (p : α → Bool) (f : α → α)
    (hrefl : ∀ x, R x x) (l : List α) (a : α) (h : l.find? p = some a) (ha : R a (f a)) :
    List.Forall₂ R l (updateFirst p f l) := by
  induction l with
  | nil => simp at h
  | cons x xs ih =>
    by_cases hx : p x = true
    · simp [List.find?, hx] at h
      subst h
      simp only [updateFirst, hx, if_true]
      exact List.Forall₂.cons ha (List.forall₂_same.mpr (fun b _ => hrefl b))
    · simp [List.find?, hx] at h
      simp only [updateFirst, hx]
      exact List.Forall₂.cons (hrefl x) (ih h)

theorem certify_no_write_of_not_ok (role : Role) (id : String) (body : CertifyBody)
    (t₁ t₂ : Date) (st : Store) (h : (certify role id body t₁ t₂ st).1.status ≠ 200) :
    (certify role id body t₁ t₂ st).2 = st := by
  by_cases hr : role = Role.certifier
  · subst hr
    cases hfind : findBatch id st.batches with
    | none => rw [certify_missing hfind]
    | some b =>
      by_cases hs : b.status = Status.CREATED
      · cases hv : validate b with
        | true =>
          rw [certify_ok hfind hs hv] at h
          simp at h
        | false => rw [certify_invalid hfind hs hv]
      · rw [certify_wrong_state hfind hs]
  · rw [certify_not_certifier hr]

theorem purchase_no_write_of_not_ok (role : Role) (id : String) (body : PurchaseBody)
    (t₁ t₂ : Date) (st : Store) (h : (purchase role id body t₁ t₂ st).1.status ≠ 200) :
    (purchase role id body t₁ t₂ st).2 = st := by
  by_cases hr : role = Role.retailer
  · subst hr
    cases hfind : findBatch id st.batches with
    | none => rw [purchase_missing hfind]
    | some b =>
      by_cases hs : b.status = Status.CERTIFIED
      · cases hv : validate b with
        | true =>
          rw [purchase_ok hfind hs hv] at h
          simp at h
        | false => rw [purchase_invalid hfind hs hv]
      · rw [purchase_wrong_state hfind hs]
  · rw [purchase_not_retailer hr]

/-- A create either writes nothing, or succeeds on a fresh identifier and appends the new
document. -/
theorem create_cases (role : Role) (body : CreateBody) (t₁ t₂ : Date) (st : Store) :
    ((create role body t₁ t₂ st).1.status ≠ 201 ∧ (create role body t₁ t₂ st).2 = st) ∨
    ((create role body t₁ t₂ st).1.status = 201 ∧ role = Role.farmer ∧
      findBatch body.batchId st.batches = none ∧
      validate (createdDoc body t₁ t₂) = true ∧
      (create role body t₁ t₂ st).2 =
        { batches := st.batches ++ [createdDoc body t₁ t₂]
          users := updateFirst (fun u => decide (u.walletAddress = body.farmer))
            (fun u => { u with registeredCrops := addToSet u.registeredCrops body.batchId })
            st.users }) := by
  by_cases hok : (create role body t₁ t₂ st).1.status = 201
  · right
    by_cases hr : role = Role.farmer
    · subst hr
      cases hfind : findBatch body.batchId st.batches with
      | some b =>
        rw [create_existing hfind] at hok
        simp [DuplicateBatch] at hok
      | none =>
        by_cases hv : body.batchId ≠ "" ∧ body.cropName ≠ "" ∧ body.cropVariety ≠ "" ∧
            body.location ≠ "" ∧ body.farmer ≠ ""
        · obtain ⟨hid, hname, hvar, hloc, hF⟩ := hv
          exact ⟨hok, rfl, rfl, validate_createdDoc hid hname hvar hloc hF t₁ t₂,
            by rw [create_ok hfind hid hname hvar hloc hF]⟩
        · rw [create_invalid hfind hv] at hok
          simp at hok
    · rw [create_not_farmer hr] at hok
      simp [Unauthorized] at hok
  · left
    exact ⟨hok, create_no_write_of_not_ok role body t₁ t₂ st hok⟩

/-- A certify either writes nothing, or succeeds on the CREATED batch it found and saves
the certified document over it. -/
theorem certify_cases (role : Role) (id : String) (body : CertifyBody) (t₁ t₂ : Date)
    (st : Store) :
    ((certify role id body t₁ t₂ st).1.status ≠ 200 ∧ (certify role id body t₁ t₂ st).2 = st) ∨
    ((certify role id body t₁ t₂ st).1.status = 200 ∧ role = Role.certifier ∧
      ∃ b, findBatch id st.batches = some b ∧ b.status = Status.CREATED ∧
        validate b = true ∧
        (certify role id body t₁ t₂ st).2 =
          { batches := updateFirst (fun x => decide (x.batchId = id))
              (fun _ => certifiedDoc b body t₁ t₂) st.batches
            users :=
              if body.labResults then
                updateFirst (fun u => decide (u.walletAddress = body.certifier))
                  (fun u => { u with certifiedCrops := addToSet u.certifiedCrops b.batchId })
                  st.users
              else
                updateFirst (fun u => decide (u.walletAddress = body.certifier))
                  (fun u => { u with rejectedCrops := addToSet u.rejectedCrops b.batchId })
                  st.users }) := by
  by_cases hok : (certify role id body t₁ t₂ st).1.status = 200
  · right
    obtain ⟨hr, b, hfind, hs, hv⟩ := certify_success_inv hok
    subst hr
    exact ⟨hok, rfl, b, hfind, hs, hv, by rw [certify_ok hfind hs hv]⟩
  · left
    exact ⟨hok, certify_no_write_of_not_ok role id body t₁ t₂ st hok⟩

/-- A purchase either writes nothing, or succeeds on the CERTIFIED batch it found and
saves the purchased document over it. -/
theorem purchase_cases (role : Role) (id : String) (body : PurchaseBody) (t₁ t₂ : Date)
    (st : Store) :
    ((purchase role id body t₁ t₂ st).1.status ≠ 200 ∧
      (purchase role id body t₁ t₂ st).2 = st) ∨
    ((purchase role id body t₁ t₂ st).1.status = 200 ∧ role = Role.retailer ∧
      ∃ b, findBatch id st.batches = some b ∧ b.status = Status.CERTIFIED ∧
        validate b = true ∧
        (purchase role id body t₁ t₂ st).2 =
          { batches := updateFirst (fun x => decide (x.batchId = id))
              (fun _ => purchasedDoc b body t₁ t₂) st.batches
            users := updateFirst (fun u => decide (u.walletAddress = body.retailer))
              (fun u => { u with purchasedCrops := addToSet u.purchasedCrops b.batchId })
              st.users }) := by
  by_cases hok : (purchase role id body t₁ t₂ st).1.status = 200
  · right
    obtain ⟨hr, b, hfind, hs, hv⟩ := purchase_success_inv hok
    subst hr
    exact ⟨hok, rfl, b, hfind, hs, hv, by rw [purchase_ok hfind hs hv]⟩
  · left
    exact ⟨hok, purchase_no_write_of_not_ok role id body t₁ t₂ st hok⟩

theorem register_batches (w : String) (r : Role) (st : Store) :
    (register w r st).2.batches = st.batches := by
  unfold register
  cases findUser w st.users with
  | some u => rfl
  | none => by_cases h : checkRequired w = true <;> simp [h]

theorem addCrop_batches (w : String) (r : Role) (c : String) (role : Option String)
    (certified : Option Bool) (st : Store) :
    (addCrop w r c role certified st).2.batches = st.batches := by
  unfold addCrop
  split
  · rfl
  · dsimp only
    split
    · rfl
    · split
      · split <;> rfl
      · split <;> rfl

theorem deleteAccount_forall₂ (w : String) (st : Store) :
    List.Forall₂ Scrub st.batches (deleteAccount w st).2.batches := by
  have hrefl : List.Forall₂ Scrub st.batches st.batches :=
    List.forall₂_same.mpr (fun b _ => Scrub.same b)
  unfold deleteAccount
  by_cases hw : w = ""
  · simpa [hw] using hrefl
  · cases hu : findUser w st.users with
    | none => simpa [hw] using hrefl
    | some u =>
      simp only [hw, if_false]
      cases u.role <;>
        simp only [List.forall₂_map_right_iff] <;>
        refine List.forall₂_same.mpr (fun b _ => ?_) <;>
        split
      · exact Scrub.farmer b
      · exact Scrub.same b
      · exact Scrub.certifier b
      · exact Scrub.same b
      · exact Scrub.retailer b
      · exact Scrub.same b

/-- What a step does to the batch collection: the stored batches keep their places, each
left as it is or advanced (or, by an account deletion, scrubbed), and a successful create
appends one new document under a fresh identifier. -/
theorem step_batches (op : Op) (st : Store) :
    ∃ olds news, (step op st).batches = olds ++ news ∧
      List.Forall₂ (fun b b' => Advance b b' ∨ (op.isDelete = true ∧ Scrub b b'))
        st.batches olds ∧
      (news = [] ∨ ∃ body t₁ t₂, news = [createdDoc body t₁ t₂] ∧
        findBatch body.batchId st.batches = none ∧
        validate (createdDoc body t₁ t₂) = true) := by
  have hsame : ∀ l : List Batch,
      List.Forall₂ (fun b b' => Advance b b' ∨ (op.isDelete = true ∧ Scrub b b')) l l :=
    fun l => List.forall₂_same.mpr (fun b _ => Or.inl (Advance.same b))
  cases op with
  | register w r =>
    exact ⟨st.batches, [], by simp [step, handle, register_batches], hsame _, Or.inl rfl⟩
  | addCrop w r c role certified =>
    exact ⟨st.batches, [], by simp [step, handle, addCrop_batches], hsame _, Or.inl rfl⟩
  | create role body t₁ t₂ =>
    rcases create_cases role body t₁ t₂ st with ⟨_, h⟩ | ⟨_, _, hfind, hv, h⟩
    · exact ⟨st.batches, [], by simp [step, handle, h], hsame _, Or.inl rfl⟩
    · exact ⟨st.batches, [createdDoc body t₁ t₂], by simp [step, handle, h], hsame _,
        Or.inr ⟨body, t₁, t₂, rfl, hfind, hv⟩⟩
  | certify role id body t₁ t₂ =>
    rcases certify_cases role id body t₁ t₂ st with ⟨_, h⟩ | ⟨_, _, b, hfind, hs, hv, h⟩
    · exact ⟨st.batches, [], by simp [step, handle, h], hsame _, Or.inl rfl⟩
    · refine ⟨updateFirst (fun x => decide (x.batchId = id))
          (fun _ => certifiedDoc b body t₁ t₂) st.batches, [],
        by simp [step, handle, h], ?_, Or.inl rfl⟩
      exact forall₂_updateFirst
        (fun b b' => Advance b b' ∨ ((Op.certify role id body t₁ t₂).isDelete = true ∧ Scrub b b'))
        (fun x => decide (x.batchId = id)) (fun _ => certifiedDoc b body t₁ t₂)
        (fun x => Or.inl (Advance.same x)) st.batches b hfind
        (Or.inl (Advance.certified b body t₁ t₂ hs hv))
  | purchase role id body t₁ t₂ =>
    rcases purchase_cases role id body t₁ t₂ st with ⟨_, h⟩ | ⟨_, _, b, hfind, hs, hv, h⟩
    · exact ⟨st.batches, [], by simp [step, handle, h], hsame _, Or.inl rfl⟩
    · refine ⟨updateFirst (fun x => decide (x.batchId = id))
          (fun _ => purchasedDoc b body t₁ t₂) st.batches, [],
        by simp [step, handle, h], ?_, Or.inl rfl⟩
      exact forall₂_updateFirst
        (fun b b' => Advance b b' ∨ ((Op.purchase role id body t₁ t₂).isDelete = true ∧ Scrub b b'))
        (fun x => decide (x.batchId = id)) (fun _ => purchasedDoc b body t₁ t₂)
        (fun x => Or.inl (Advance.same x)) st.batches b hfind
        (Or.inl (Advance.purchased b body t₁ t₂ hs hv))
  | deleteAccount w =>
    refine ⟨(deleteAccount w st).2.batches, [], by simp [step, handle], ?_, Or.inl rfl⟩
    exact (deleteAccount_forall₂ w st).imp (fun b b' h => Or.inr ⟨rfl, h⟩)

/-! ## Invariants of the stored batches -/

theorem forall₂_mem_right {α : Type} {R : α → α → Prop} {l l' : List α}
    (h : List.Forall₂ R l l') {b' : α} (hb : b' ∈ l') : ∃ b ∈ l, R b b' := by
  induction h with
  | nil => simp at hb
  | cons hab _ ih =>
    rcases List.mem_cons.mp hb with rfl | hmem
    · exact ⟨_, List.mem_cons_self _ _, hab⟩
    · obtain ⟨b, hbl, hR⟩ := ih hmem
      exact ⟨b, List.mem_cons_of_mem _ hbl, hR⟩

/-- A property of batches that holds of every new document and is kept by every effect a
request has on a stored batch holds of every batch after any sequence of requests; with
`del = false` the sequence is to hold no account deletion and scrubbing need not keep the
property. -/
theorem run_preserves (P : Batch → Prop) (del : Bool)
    (hnew : ∀ body t₁ t₂, validate (createdDoc body t₁ t₂) = true → P (createdDoc body t₁ t₂))
    (hadv : ∀ b b', Advance b b' → P b → P b')
    (hscr : del = true → ∀ b b', Scrub b b' → P b → P b') :
    ∀ (ops : List Op) (st : Store), (∀ op ∈ ops, op.isDelete = true → del = true) →
      (∀ b ∈ st.batches, P b) → ∀ b ∈ (run ops st).batches, P b := by
  intro ops
  induction ops with
  | nil => intro st _ h; exact h
  | cons op ops ih =>
    intro st hdel hst
    simp only [run]
    apply ih (step op st) (fun o ho => hdel o (List.mem_cons_of_mem _ ho))
    intro b' hb'
    obtain ⟨olds, news, heq, hfor, hnews⟩ := step_batches op st
    rw [heq] at hb'
    rcases List.mem_append.mp hb' with hold | hnw
    · obtain ⟨b, hb, hR⟩ := forall₂_mem_right hfor hold
      rcases hR with hA | ⟨hd, hS⟩
      · exact hadv b b' hA (hst b hb)
      · exact hscr (hdel op (List.mem_cons_self _ _) hd) b b' hS (hst b hb)
    · rcases hnews with rfl | ⟨body, t₁, t₂, rfl, _, hv⟩
      · simp at hnw
      · rw [List.mem_singleton.mp hnw]
        exact hnew body t₁ t₂ hv

theorem lastAction_certifiedDoc (b : Batch) (body : CertifyBody) (t₁ t₂ : Date) :
    lastAction (certifiedDoc b body t₁ t₂) = some (certifiedDoc b body t₁ t₂).status := by
  simp [lastAction, certifiedDoc]

theorem lastAction_purchasedDoc (b : Batch) (body : PurchaseBody) (t₁ t₂ : Date) :
    lastAction (purchasedDoc b body t₁ t₂) = some (purchasedDoc b body t₁ t₂).status := by
  simp [lastAction, purchasedDoc]

theorem firstAction_append (b : Batch) (e : HistoryEntry)
    (h : firstAction b = some Status.CREATED) :
    ((b.history ++ [e]).head?.map HistoryEntry.action) = some Status.CREATED := by
  unfold firstAction at h
  cases hh : b.history with
  | nil => simp [hh] at h
  | cons x xs => simpa [hh] using h

/-- C12, as stated, fails once an account is deleted: after farmer `0xF` and certifier
`0xC` register, `B1` is created and certified, and `0xC` deletes the account, the stored
`B1` has status CREATED while the action of its last history entry is CERTIFIED. -/
theorem status_reset_by_deletion :
    Option.map Batch.status (findBatch "B1" (run opsCertifierDeleted emptyStore).batches) =
      some Status.CREATED ∧
    Option.bind (findBatch "B1" (run opsCertifierDeleted emptyStore).batches) lastAction =
      some Status.CERTIFIED ∧
    Option.bind (findBatch "B1" (run opsCertifierDeleted emptyStore).batches) firstAction =
      some Status.CREATED := by
  decide

/-- C12 (amended): in every store state reached from the empty store by any sequence of
requests (registration, create, certify, purchase, account deletion, add-crop), every
stored batch has a first history entry with action CREATED, and its status is the action
of its last history entry unless an account deletion has reset it, in which case the
status is CREATED with the certifier cleared or CERTIFIED with the retailer cleared; in a
state reached without any account deletion the status always is the action of the last
history entry. -/
theorem status_follows_history (ops : List Op) :
    ∀ b ∈ (run ops emptyStore).batches,
      firstAction b = some Status.CREATED ∧
      (lastAction b = some b.status ∨
        (b.status = Status.CREATED ∧ b.certifier = none) ∨
        (b.status = Status.CERTIFIED ∧ b.retailer = none)) ∧
      ((∀ op ∈ ops, op.isDelete = false) → lastAction b = some b.status) := by
  intro b hb
  have h₁ := run_preserves
    (fun b => firstAction b = some Status.CREATED ∧
      (lastAction b = some b.status ∨
        (b.status = Status.CREATED ∧ b.certifier = none) ∨
        (b.status = Status.CERTIFIED ∧ b.retailer = none))) true
    (fun body t₁ t₂ _ => ⟨rfl, Or.inl rfl⟩)
    (by
      intro b b' hA hP
      cases hA with
      | same => exact hP
      | certified body t₁ t₂ hs hv =>
        exact ⟨firstAction_append b _ hP.1, Or.inl (lastAction_certifiedDoc b body t₁ t₂)⟩
      | purchased body t₁ t₂ hs hv =>
        exact ⟨firstAction_append b _ hP.1, Or.inl (lastAction_purchasedDoc b body t₁ t₂)⟩)
    (by
      intro _ b b' hS hP
      cases hS with
      | same => exact hP
      | farmer => exact hP
      | certifier => exact ⟨hP.1, Or.inr (Or.inl ⟨rfl, rfl⟩)⟩
      | retailer => exact ⟨hP.1, Or.inr (Or.inr ⟨rfl, rfl⟩)⟩)
    ops emptyStore (fun _ _ _ => rfl) (by simp [emptyStore]) b hb
  refine ⟨h₁.1, h₁.2, fun hnodel => ?_⟩
  exact run_preserves (fun b => lastAction b = some b.status) false
    (fun body t₁ t₂ _ => rfl)
    (by
      intro b b' hA hP
      cases hA with
      | same => exact hP
      | certified body t₁ t₂ hs hv => exact lastAction_certifiedDoc b body t₁ t₂
      | purchased body t₁ t₂ hs hv => exact lastAction_purchasedDoc b body t₁ t₂)
    (by intro h; cases h)
    ops emptyStore
    (by
      intro op hop hd
      rw [hnodel op hop] at hd
      cases hd)
    (by simp [emptyStore]) b hb

/-- C12 (amended), instantiated: in the state reached by the creation of `B1` alone, the
stored `B1` has status CREATED, the action of its last history entry. -/
theorem status_follows_history_witness :
    createdDoc body0 5 6 ∈ (run [Op.create Role.farmer body0 5 6] emptyStore).batches ∧
    (∀ op ∈ [Op.create Role.farmer body0 5 6], op.isDelete = false) ∧
    lastAction (createdDoc body0 5 6) = some (createdDoc body0 5 6).status :=
  ⟨by decide, by decide,
    (status_follows_history [Op.create Role.farmer body0 5 6] (createdDoc body0 5 6)
      (by decide)).2.2 (by decide)⟩

/-- C13, as stated, fails in the plain lifecycle and after a deletion: once `B1` is
purchased its status is PURCHASED while `certifier` and `certifiedAt` are present; and
once the certifier's account is deleted after the purchase, the status is CREATED while
`retailer` and `purchasedAt` are still present. -/
theorem presence_does_not_follow_status :
    Option.map Batch.status (findBatch "B1" (run opsPurchased emptyStore).batches) =
      some Status.PURCHASED ∧
    Option.map Batch.certifier (findBatch "B1" (run opsPurchased emptyStore).batches) =
      some (some "0xC") ∧
    Option.map Batch.certifiedAt (findBatch "B1" (run opsPurchased emptyStore).batches) =
      some (some 7) ∧
    Option.map Batch.status
      (findBatch "B1" (run opsPurchasedCertifierDeleted emptyStore).batches) =
      some Status.CREATED ∧
    Option.map Batch.retailer
      (findBatch "B1" (run opsPurchasedCertifierDeleted emptyStore).batches) =
      some (some "0xR") ∧
    Option.map Batch.purchasedAt
      (findBatch "B1" (run opsPurchasedCertifierDeleted emptyStore).batches) =
      some (some 9) := by
  decide

/-- C13 (amended): in every store state reached from the empty store by any sequence of
requests, for every batch, `certifier` is present if and only if `certifiedAt` is, and
`retailer` is present if and only if `purchasedAt` is.  In a state reached without any
account deletion, `certifier` and `certifiedAt` are present if and only if the status is
CERTIFIED, REJECTED or PURCHASED, and `retailer` and `purchasedAt` are present if and
only if the status is PURCHASED. -/
theorem presence_follows_status (ops : List Op) :
    ∀ b ∈ (run ops emptyStore).batches,
      ((b.certifier.isSome = true ↔ b.certifiedAt.isSome = true) ∧
        (b.retailer.isSome = true ↔ b.purchasedAt.isSome = true)) ∧
      ((∀ op ∈ ops, op.isDelete = false) →
        ((b.certifier.isSome = true ∧ b.certifiedAt.isSome = true) ↔
          (b.status = Status.CERTIFIED ∨ b.status = Status.REJECTED ∨
            b.status = Status.PURCHASED)) ∧
        ((b.retailer.isSome = true ∧ b.purchasedAt.isSome = true) ↔
          b.status = Status.PURCHASED)) := by
  intro b hb
  refine ⟨?_, fun hnodel => ?_⟩
  · exact run_preserves
      (fun b => (b.certifier.isSome = true ↔ b.certifiedAt.isSome = true) ∧
        (b.retailer.isSome = true ↔ b.purchasedAt.isSome = true)) true
      (fun body t₁ t₂ _ => by simp [createdDoc])
      (by
        intro b b' hA hP
        cases hA with
        | same => exact hP
        | certified body t₁ t₂ hs hv => exact ⟨by simp [certifiedDoc], hP.2⟩
        | purchased body t₁ t₂ hs hv => exact ⟨hP.1, by simp [purchasedDoc]⟩)
      (by
        intro _ b b' hS hP
        cases hS with
        | same => exact hP
        | farmer => exact hP
        | certifier => exact ⟨by simp, hP.2⟩
        | retailer => exact ⟨hP.1, by simp⟩)
      ops emptyStore (fun _ _ _ => rfl) (by simp [emptyStore]) b hb
  · exact run_preserves
      (fun b => ((b.certifier.isSome = true ∧ b.certifiedAt.isSome = true) ↔
          (b.status = Status.CERTIFIED ∨ b.status = Status.REJECTED ∨
            b.status = Status.PURCHASED)) ∧
        ((b.retailer.isSome = true ∧ b.purchasedAt.isSome = true) ↔
          b.status = Status.PURCHASED)) false
      (fun body t₁ t₂ _ => by simp [createdDoc])
      (by
        intro b b' hA hP
        cases hA with
        | same => exact hP
        | certified body t₁ t₂ hs hv =>
          have hr := hP.2
          rw [hs] at hr
          constructor
          · cases hl : body.labResults <;> simp [certifiedDoc, hl]
          · have hr' : ¬ (b.retailer.isSome = true ∧ b.purchasedAt.isSome = true) := by
              intro h
              exact absurd (hr.mp h) (by decide)
            cases hl : body.labResults <;> simpa [certifiedDoc, hl] using hr'
        | purchased body t₁ t₂ hs hv =>
          have hc := hP.1
          rw [hs] at hc
          have hc' : b.certifier.isSome = true ∧ b.certifiedAt.isSome = true :=
            hc.mpr (Or.inl rfl)
          constructor
          · simpa [purchasedDoc] using hc'
          · simp [purchasedDoc])
      (by intro h; cases h)
      ops emptyStore
      (by
        intro op hop hd
        rw [hnodel op hop] at hd
        cases hd)
      (by simp [emptyStore]) b hb

/-- C13 (amended), instantiated: the `B1` stored by its creation alone has no certifier
and no retailer, and status CREATED. -/
theorem presence_follows_status_witness :
    createdDoc body0 5 6 ∈ (run [Op.create Role.farmer body0 5 6] emptyStore).batches ∧
    (∀ op ∈ [Op.create Role.farmer body0 5 6], op.isDelete = false) ∧
    (((createdDoc body0 5 6).retailer.isSome = true ∧
        (createdDoc body0 5 6).purchasedAt.isSome = true) ↔
      (createdDoc body0 5 6).status = Status.PURCHASED) :=
  ⟨by decide, by decide,
    ((presence_follows_status [Op.create Role.farmer body0 5 6] (createdDoc body0 5 6)
      (by decide)).2 (by decide)).2⟩

/-! ## Certification fires once -/

theorem advance_batchId {b b' : Batch} (h : Advance b b') : b'.batchId = b.batchId := by
  cases h <;> rfl

theorem scrub_batchId {b b' : Batch} (h : Scrub b b') : b'.batchId = b.batchId := by
  cases h <;> rfl

theorem advance_history {b b' : Batch} (h : Advance b b') :
    b'.history = b.history ∨ ∃ e, b'.history = b.history ++ [e] := by
  cases h with
  | same => exact Or.inl rfl
  | certified body t₁ t₂ _ _ => exact Or.inr ⟨_, rfl⟩
  | purchased body t₁ t₂ _ _ => exact Or.inr ⟨_, rfl⟩

theorem scrub_history {b b' : Batch} (h : Scrub b b') : b'.history = b.history := by
  cases h <;> rfl

/-- A stored batch is found again, under the same identifier, after the collection has
been rewritten place by place by a relation that keeps identifiers, whatever is appended. -/
theorem findBatch_forall₂ {R : Batch → Batch → Prop}
    (hid : ∀ b b', R b b' → b'.batchId = b.batchId) {l l' : List Batch}
    (h : List.Forall₂ R l l') (news : List Batch) {id : String} {b : Batch}
    (hf : findBatch id l = some b) :
    ∃ b', findBatch id (l' ++ news) = some b' ∧ R b b' := by
  induction h with
  | nil => simp [findBatch] at hf
  | @cons x y xs ys hxy _ ih =>
    unfold findBatch at hf ih ⊢
    by_cases hx : x.batchId = id
    · have hy : y.batchId = id := by rw [hid x y hxy, hx]
      simp only [List.find?, hx, decide_True] at hf
      cases hf
      exact ⟨y, by simp [List.find?, hy], hxy⟩
    · have hy : ¬ y.batchId = id := by rw [hid x y hxy]; exact hx
      simp only [List.find?, hx, decide_False] at hf
      obtain ⟨b', hb', hR⟩ := ih hf
      exact ⟨b', by simpa [List.find?, hy] using hb', hR⟩

theorem findBatch_step {op : Op} (hop : op.isDelete = false) {st : Store} {id : String}
    {b : Batch} (hf : findBatch id st.batches = some b) :
    ∃ b', findBatch id (step op st).batches = some b' ∧ Advance b b' := by
  obtain ⟨olds, news, heq, hfor, _⟩ := step_batches op st
  have hfor' : List.Forall₂ Advance st.batches olds :=
    hfor.imp (fun b b' h => by
      rcases h with h | ⟨hd, _⟩
      · exact h
      · rw [hop] at hd
        cases hd)
  rw [heq]
  exact findBatch_forall₂ (fun _ _ h => advance_batchId h) hfor' news hf

theorem certifications_append (b : Batch) (e : HistoryEntry) :
    List.countP
        (fun e => decide (e.action = Status.CERTIFIED) || decide (e.action = Status.REJECTED))
        (b.history ++ [e]) =
      certifications b +
        (if e.action = Status.CERTIFIED ∨ e.action = Status.REJECTED then 1 else 0) := by
  unfold certifications
  rw [List.countP_append]
  by_cases h : e.action = Status.CERTIFIED ∨ e.action = Status.REJECTED
  · rcases h with h | h <;> simp [h]
  · simp only [not_or] at h
    simp [h.1, h.2]

/-- Without account deletion, a batch that is CREATED has no certifier and no
certification in its history, and no batch has more than one. -/
theorem certifications_le_one (ops : List Op) (hnodel : ∀ op ∈ ops, op.isDelete = false)
    (st : Store)
    (hst : ∀ b ∈ st.batches, (b.status = Status.CREATED →
      certifications b = 0 ∧ b.certifier = none) ∧ certifications b ≤ 1) :
    ∀ b ∈ (run ops st).batches, (b.status = Status.CREATED →
      certifications b = 0 ∧ b.certifier = none) ∧ certifications b ≤ 1 := by
  refine run_preserves
    (fun b => (b.status = Status.CREATED → certifications b = 0 ∧ b.certifier = none) ∧
      certifications b ≤ 1) false
    (fun body t₁ t₂ _ => by simp [createdDoc, certifications]) ?_ (by intro h; cases h)
    ops st
    (by
      intro op hop hd
      rw [hnodel op hop] at hd
      cases hd)
    hst
  intro b b' hA hP
  cases hA with
  | same => exact hP
  | certified body t₁ t₂ hs hv =>
    have h0 := (hP.1 hs).1
    constructor
    · intro hc
      cases hl : body.labResults <;> simp [certifiedDoc, hl] at hc
    · show List.countP _ (b.history ++ [_]) ≤ 1
      rw [certifications_append, h0]
      split <;> simp
  | purchased body t₁ t₂ hs hv =>
    constructor
    · intro hc
      simp [purchasedDoc] at hc
    · show List.countP _ (b.history ++ [_]) ≤ 1
      rw [certifications_append]
      simpa using hP.2

/-- C16, as stated over every sequence of requests, fails once the certifier's account is
deleted: `B1` is certified naming `0xC`, the account `0xC` is deleted, which resets the
status to CREATED, and `B1` is certified again naming `0xC2`; both certify calls succeed,
the certifier has been set twice and the history holds two CERTIFIED entries. -/
theorem certified_twice_after_deletion :
    (certify Role.certifier "B1" ⟨"0xC2", "fair", 9500, true⟩ 11 12
      (run opsCertifierDeleted emptyStore)).1.status = 200 ∧
    Option.map Batch.certifier (findBatch "B1" (run opsCertified emptyStore).batches) =
      some (some "0xC") ∧
    Option.map Batch.certifier (findBatch "B1" (run opsCertifiedTwice emptyStore).batches) =
      some (some "0xC2") ∧
    Option.map certifications (findBatch "B1" (run opsCertifiedTwice emptyStore).batches) =
      some 2 := by
  decide

/-- C16 (amended): over every sequence of requests that holds no account deletion
(registration, create, certify, purchase, add-crop), the certify transition fires at most
once per batch: the history of every stored batch holds at most one entry whose action is
CERTIFIED or REJECTED, and a certifier that is set on a batch is still the batch's
certifier after any further such requests. -/
theorem certify_fires_once (ops : List Op) (hnodel : ∀ op ∈ ops, op.isDelete = false) :
    (∀ b ∈ (run ops emptyStore).batches, certifications b ≤ 1) ∧
    (∀ more : List Op, (∀ op ∈ more, op.isDelete = false) →
      ∀ (id : String) (b : Batch) (c : String),
        findBatch id (run ops emptyStore).batches = some b → b.certifier = some c →
        ∃ b', findBatch id (run more (run ops emptyStore)).batches = some b' ∧
          b'.certifier = some c) := by
  have hreach := certifications_le_one ops hnodel emptyStore (by simp [emptyStore])
  refine ⟨fun b hb => (hreach b hb).2, ?_⟩
  intro more
  generalize run ops emptyStore = st at hreach
  induction more generalizing st with
  | nil =>
    intro _ id b c hf hc
    exact ⟨b, hf, hc⟩
  | cons op more ih =>
    intro hmore id b c hf hc
    have hop : op.isDelete = false := hmore op (List.mem_cons_self _ _)
    obtain ⟨b₁, hf₁, hA⟩ := findBatch_step hop hf
    have hc₁ : b₁.certifier = some c := by
      cases hA with
      | same => exact hc
      | certified body t₁ t₂ hs hv =>
        have := ((hreach b (findBatch_some_mem hf)).1 hs).2
        rw [hc] at this
        cases this
      | purchased body t₁ t₂ hs hv => exact hc
    have hreach₁ := certifications_le_one [op]
      (by
        intro o ho
        rw [List.mem_singleton.mp ho]
        exact hop)
      st hreach
    exact ih (step op st) hreach₁ (fun o ho => hmore o (List.mem_cons_of_mem _ ho)) id b₁ c
      hf₁ hc₁

/-- C16 (amended), instantiated: the certifier `0xC` set on `B1` by `opsCertified` is still
its certifier after the purchase and a further certify attempt. -/
theorem certify_fires_once_witness :
    (∀ op ∈ opsCertified, op.isDelete = false) ∧
    ∃ b', findBatch "B1"
        (run [Op.purchase Role.retailer "B1" ⟨"0xR"⟩ 9 10,
            Op.certify Role.certifier "B1" ⟨"0xC2", "fair", 9500, true⟩ 11 12]
          (run opsCertified emptyStore)).batches = some b' ∧
      b'.certifier = some "0xC" :=
  ⟨by decide,
    (certify_fires_once opsCertified (by decide)).2
      [Op.purchase Role.retailer "B1" ⟨"0xR"⟩ 9 10,
        Op.certify Role.certifier "B1" ⟨"0xC2", "fair", 9500, true⟩ 11 12]
      (by decide) "B1"
      (certifiedDoc (createdDoc body0 5 6) ⟨"0xC", "good", 9000, true⟩ 7 8) "0xC"
      (by decide) (by decide)⟩

/-! ## The history is append-only -/

theorem findBatch_append_other {id : String} (bs : List Batch) {nb : Batch}
    (hne : nb.batchId ≠ id) : findBatch id (bs ++ [nb]) = findBatch id bs := by
  unfold findBatch
  rw [List.find?_append]
  cases h : List.find? (fun b => decide (b.batchId = id)) bs with
  | some b => rfl
  | none => simp [List.find?, hne]

/-- Under a place-by-place rewriting that keeps identifiers and the value of `g`, the
value of `g` found under an identifier is what it was. -/
theorem findBatch_map_forall₂ {γ : Type} (g : Batch → γ) {R : Batch → Batch → Prop}
    (hR : ∀ b b', R b b' → b'.batchId = b.batchId ∧ g b' = g b) {l l' : List Batch}
    (h : List.Forall₂ R l l') (id : String) :
    (findBatch id l').map g = (findBatch id l).map g := by
  induction h with
  | nil => rfl
  | @cons x y xs ys hxy _ ih =>
    unfold findBatch at ih ⊢
    by_cases hx : x.batchId = id
    · have hy : y.batchId = id := by rw [(hR x y hxy).1, hx]
      simp [List.find?, hx, hy, (hR x y hxy).2]
    · have hy : ¬ y.batchId = id := by rw [(hR x y hxy).1]; exact hx
      simpa [List.find?, hx, hy] using ih

theorem historyLength_of_batches_eq {st st' : Store} (h : st'.batches = st.batches)
    (id : String) : historyLength id st' = historyLength id st := by
  unfold historyLength
  rw [h]

/-- One request lengthens the history stored under an identifier by one when it is a
completed transition of that batch, and leaves its length otherwise. -/
theorem historyLength_step (id : String) (op : Op) (st : Store) :
    historyLength id (step op st) =
      historyLength id st + (if completes id st op then 1 else 0) := by
  cases op with
  | register w r =>
    simp [completes, historyLength_of_batches_eq (register_batches w r st), step, handle]
  | addCrop w r c role certified =>
    simp [completes,
      historyLength_of_batches_eq (addCrop_batches w r c role certified st), step, handle]
  | deleteAccount w =>
    have := findBatch_map_forall₂ (fun b => b.history.length)
      (fun b b' h => ⟨scrub_batchId h, congrArg List.length (scrub_history h)⟩)
      (deleteAccount_forall₂ w st) id
    simp [completes, historyLength, step, handle, this]
  | create role body t₁ t₂ =>
    rcases create_cases role body t₁ t₂ st with ⟨hno, h⟩ | ⟨hok, _, hfind, _, h⟩
    · simp [completes, hno, step, handle, h]
    · by_cases hid : body.batchId = id
      · subst hid
        have hnew : findBatch body.batchId (st.batches ++ [createdDoc body t₁ t₂]) =
            some (createdDoc body t₁ t₂) := findBatch_append_new hfind rfl
        have hc : completes body.batchId st (Op.create role body t₁ t₂) = true := by
          simp [completes, hok]
        simp only [step, handle, h, historyLength, hfind, hnew, hc]
        simp [createdDoc]
      · have hoth : findBatch id (st.batches ++ [createdDoc body t₁ t₂]) =
            findBatch id st.batches := findBatch_append_other st.batches hid
        simp [completes, hid, step, handle, h, historyLength, hoth]
  | certify role bid body t₁ t₂ =>
    rcases certify_cases role bid body t₁ t₂ st with ⟨hno, h⟩ | ⟨hok, _, b, hfind, _, _, h⟩
    · simp [completes, hno, step, handle, h]
    · by_cases hid : bid = id
      · subst hid
        have hb : b.batchId = bid := findBatch_some_id hfind
        have hnew : findBatch bid (updateFirst (fun x => decide (x.batchId = bid))
            (fun _ => certifiedDoc b body t₁ t₂) st.batches) =
            some (certifiedDoc b body t₁ t₂) := findBatch_save hfind hb
        have hc : completes bid st (Op.certify role bid body t₁ t₂) = true := by
          simp [completes, hok]
        simp only [step, handle, h, historyLength, hfind, hnew, hc]
        simp [certifiedDoc]
      · have hb : b.batchId = bid := findBatch_some_id hfind
        have hoth : findBatch id (updateFirst (fun x => decide (x.batchId = bid))
            (fun _ => certifiedDoc b body t₁ t₂) st.batches) = findBatch id st.batches :=
          find?_updateFirst_other _ _ _ _
            (fun a ha => by
              have : a.batchId = bid := by simpa using ha
              simp [this, hid])
            (fun a _ => by
              have : (certifiedDoc b body t₁ t₂).batchId = bid := hb
              simp [this, hid])
        simp [completes, hid, step, handle, h, historyLength, hoth]
  | purchase role bid body t₁ t₂ =>
    rcases purchase_cases role bid body t₁ t₂ st with ⟨hno, h⟩ | ⟨hok, _, b, hfind, _, _, h⟩
    · simp [completes, hno, step, handle, h]
    · by_cases hid : bid = id
      · subst hid
        have hb : b.batchId = bid := findBatch_some_id hfind
        have hnew : findBatch bid (updateFirst (fun x => decide (x.batchId = bid))
            (fun _ => purchasedDoc b body t₁ t₂) st.batches) =
            some (purchasedDoc b body t₁ t₂) := findBatch_save hfind hb
        have hc : completes bid st (Op.purchase role bid body t₁ t₂) = true := by
          simp [completes, hok]
        simp only [step, handle, h, historyLength, hfind, hnew, hc]
        simp [purchasedDoc]
      · have hb : b.batchId = bid := findBatch_some_id hfind
        have hoth : findBatch id (updateFirst (fun x => decide (x.batchId = bid))
            (fun _ => purchasedDoc b body t₁ t₂) st.batches) = findBatch id st.batches :=
          find?_updateFirst_other _ _ _ _
            (fun a ha => by
              have : a.batchId = bid := by simpa using ha
              simp [this, hid])
            (fun a _ => by
              have : (purchasedDoc b body t₁ t₂).batchId = bid := hb
              simp [this, hid])
        simp [completes, hid, step, handle, h, historyLength, hoth]

theorem historyLength_run (id : String) (ops : List Op) (st : Store) :
    historyLength id (run ops st) = historyLength id st + completed id ops st := by
  induction ops generalizing st with
  | nil => simp [run, completed]
  | cons op ops ih =>
    simp only [run, completed]
    rw [ih, historyLength_step]
    omega

theorem forall₂_map_eq {γ : Type} (g : Batch → γ) {R : Batch → Batch → Prop}
    (hR : ∀ b b', R b b' → g b' = g b) {l l' : List Batch} (h : List.Forall₂ R l l') :
    l'.map g = l.map g := by
  induction h with
  | nil => rfl
  | cons hxy _ ih => simp [hR _ _ hxy, ih]

theorem mem_map_batchId_of_findBatch_none {id : String} {bs : List Batch}
    (h : findBatch id bs = none) : id ∉ bs.map Batch.batchId := by
  intro hmem
  obtain ⟨b, hb, hid⟩ := List.mem_map.mp hmem
  obtain ⟨b₀, h₀⟩ := findBatch_isSome_of_mem hb hid
  rw [h] at h₀
  cases h₀

/-- No two stored batches share an identifier, in any state reached from a state where
none do. -/
theorem ids_nodup_run (ops : List Op) (st : Store)
    (hst : (st.batches.map Batch.batchId).Nodup) :
    ((run ops st).batches.map Batch.batchId).Nodup := by
  induction ops generalizing st with
  | nil => exact hst
  | cons op ops ih =>
    simp only [run]
    apply ih
    obtain ⟨olds, news, heq, hfor, hnews⟩ := step_batches op st
    have hids : olds.map Batch.batchId = st.batches.map Batch.batchId :=
      forall₂_map_eq Batch.batchId
        (fun b b' h => by
          rcases h with h | ⟨_, h⟩
          · exact advance_batchId h
          · exact scrub_batchId h)
        hfor
    rw [heq, List.map_append, hids]
    rcases hnews with rfl | ⟨body, t₁, t₂, rfl, hfind, _⟩
    · simpa using hst
    · have hnot := mem_map_batchId_of_findBatch_none hfind
      rw [List.nodup_append]
      refine ⟨hst, by simp, ?_⟩
      intro a ha hb
      simp only [List.map_cons, List.map_nil, List.mem_singleton] at hb
      subst hb
      exact hnot ha

theorem findBatch_of_mem_nodup {bs : List Batch} (hnd : (bs.map Batch.batchId).Nodup)
    {b : Batch} (hb : b ∈ bs) : findBatch b.batchId bs = some b := by
  induction bs with
  | nil => simp at hb
  | cons x xs ih =>
    simp only [List.map_cons, List.nodup_cons] at hnd
    unfold findBatch at ih ⊢
    rcases List.mem_cons.mp hb with rfl | hmem
    · simp [List.find?]
    · have hne : x.batchId ≠ b.batchId := by
        intro h
        exact hnd.1 (h ▸ List.mem_map_of_mem Batch.batchId hmem)
      simpa [List.find?, hne] using ih hnd.2 hmem

/-- C14: a batch's history is append-only.  Every request (registration, create, certify,
purchase, account deletion, add-crop) leaves the stored batches in their places, each with
its identifier and with its history either unchanged or extended by exactly one entry at
the end, and appends at most new batches after them.  In every state reached from the
empty store, the length of the history of every stored batch is the number of completed
transitions of that batch: the create, certify and purchase requests on its identifier
that were answered with success. -/
theorem history_append_only :
    (∀ (op : Op) (st : Store), ∃ olds news, (step op st).batches = olds ++ news ∧
      List.Forall₂
        (fun b b' => b'.batchId = b.batchId ∧
          (b'.history = b.history ∨ ∃ e, b'.history = b.history ++ [e]))
        st.batches olds) ∧
    (∀ (ops : List Op), ∀ b ∈ (run ops emptyStore).batches,
      b.history.length = completed b.batchId ops emptyStore) := by
  constructor
  · intro op st
    obtain ⟨olds, news, heq, hfor, _⟩ := step_batches op st
    refine ⟨olds, news, heq, hfor.imp ?_⟩
    intro b b' h
    rcases h with h | ⟨_, h⟩
    · exact ⟨advance_batchId h, advance_history h⟩
    · exact ⟨scrub_batchId h, Or.inl (scrub_history h)⟩
  · intro ops b hb
    have hnd := ids_nodup_run ops emptyStore (by simp [emptyStore])
    have hfind := findBatch_of_mem_nodup hnd hb
    have hlen := historyLength_run b.batchId ops emptyStore
    have h₀ : historyLength b.batchId emptyStore = 0 := rfl
    have h₁ : historyLength b.batchId (run ops emptyStore) = b.history.length := by
      simp [historyLength, hfind]
    rw [h₁, h₀] at hlen
    simpa using hlen

/-- C14, instantiated: after `opsPurchased` the stored `B1` has three history entries, one
for each of its three completed transitions. -/
theorem history_append_only_witness :
    purchasedDoc (certifiedDoc (createdDoc body0 5 6) ⟨"0xC", "good", 9000, true⟩ 7 8)
        ⟨"0xR"⟩ 9 10 ∈ (run opsPurchased emptyStore).batches ∧
    completed "B1" opsPurchased emptyStore = 3 ∧
    (purchasedDoc (certifiedDoc (createdDoc body0 5 6) ⟨"0xC", "good", 9000, true⟩ 7 8)
        ⟨"0xR"⟩ 9 10).history.length = completed "B1" opsPurchased emptyStore :=
  ⟨by decide, by decide,
    history_append_only.2 opsPurchased
      (purchasedDoc (certifiedDoc (createdDoc body0 5 6) ⟨"0xC", "good", 9000, true⟩ 7 8)
        ⟨"0xR"⟩ 9 10) (by decide)⟩

/-! ## The certified and the rejected list exclude each other -/

theorem mem_updateFirst {α : Type} {p : α → Bool} {f : α → α} {l : List α} {a' : α}
    (h : a' ∈ updateFirst p f l) : a' ∈ l ∨ ∃ a ∈ l, p a = true ∧ a' = f a := by
  induction l with
  | nil => simp [updateFirst] at h
  | cons x xs ih =>
    cases hx : p x with
    | true =>
      have h₁ : a' = f x ∨ a' ∈ xs := by simpa [updateFirst, hx] using h
      rcases h₁ with h₁ | h₁
      · exact Or.inr ⟨x, List.mem_cons_self _ _, hx, h₁⟩
      · exact Or.inl (List.mem_cons_of_mem _ h₁)
    | false =>
      have h₁ : a' = x ∨ a' ∈ updateFirst p f xs := by simpa [updateFirst, hx] using h
      rcases h₁ with h₁ | h₁
      · exact Or.inl (h₁ ▸ List.mem_cons_self _ _)
      · rcases ih h₁ with h' | ⟨a, ha, hpa, hfa⟩
        · exact Or.inl (List.mem_cons_of_mem _ h')
        · exact Or.inr ⟨a, List.mem_cons_of_mem _ ha, hpa, hfa⟩

theorem map_updateFirst {α γ : Type} (g : α → γ) (p : α → Bool) (f : α → α)
    (hg : ∀ a, g (f a) = g a) (l : List α) : (updateFirst p f l).map g = l.map g := by
  induction l with
  | nil => rfl
  | cons x xs ih =>
    by_cases hx : p x = true
    · simp [updateFirst, hx, hg]
    · simp [updateFirst, hx, ih]

theorem mem_addToSet_iff (xs : List String) (x y : String) :
    y ∈ addToSet xs x ↔ y ∈ xs ∨ y = x := by
  unfold addToSet
  split
  · constructor
    · exact Or.inl
    · rintro (h | h)
      · exact h
      · subst h
        assumption
  · simp

theorem not_mem_wallets_of_findUser_none {w : String} {us : List User}
    (h : findUser w us = none) : w ∉ us.map User.walletAddress := by
  intro hmem
  obtain ⟨u, hu, hw⟩ := List.mem_map.mp hmem
  have := (List.find?_eq_none.mp h) u hu
  simp [hw] at this

theorem mem_eraseP_wallet {w : String} {us : List User}
    (hnd : (us.map User.walletAddress).Nodup) {u : User}
    (hu : u ∈ us.eraseP (fun x => decide (x.walletAddress = w)))
    (hex : ∃ x ∈ us, x.walletAddress = w) : u ∈ us ∧ u.walletAddress ≠ w := by
  induction us with
  | nil => simp at hu
  | cons x xs ih =>
    simp only [List.map_cons, List.nodup_cons] at hnd
    by_cases hx : x.walletAddress = w
    · simp only [List.eraseP_cons, hx, decide_True, cond_true] at hu
      refine ⟨List.mem_cons_of_mem _ hu, ?_⟩
      intro huw
      apply hnd.1
      rw [hx, ← huw]
      exact List.mem_map_of_mem _ hu
    · simp only [List.eraseP_cons, hx, decide_False, cond_false, List.mem_cons] at hu
      rcases hu with rfl | hu
      · exact ⟨List.mem_cons_self _ _, hx⟩
      · obtain ⟨y, hy, hyw⟩ := hex
        have hy' : y ∈ xs := by
          rcases List.mem_cons.mp hy with rfl | h
          · exact absurd hyw hx
          · exact h
        obtain ⟨h₁, h₂⟩ := ih hnd.2 hu ⟨y, hy', hyw⟩
        exact ⟨List.mem_cons_of_mem _ h₁, h₂⟩

/-- A CREATED batch has no certifier: kept by every effect of every request. -/
theorem created_has_no_certifier_step (op : Op) (st : Store)
    (hC : ∀ b ∈ st.batches, b.status = Status.CREATED → b.certifier = none) :
    ∀ b ∈ (step op st).batches, b.status = Status.CREATED → b.certifier = none := by
  have := run_preserves (fun b => b.status = Status.CREATED → b.certifier = none) true
    (fun body t₁ t₂ _ _ => rfl)
    (by
      intro b b' hA hP
      cases hA with
      | same => exact hP
      | certified body t₁ t₂ hs hv =>
        intro hc
        cases hl : body.labResults <;> simp [certifiedDoc, hl] at hc
      | purchased body t₁ t₂ hs hv =>
        intro hc
        simp [purchasedDoc] at hc)
    (by
      intro _ b b' hS hP
      cases hS with
      | same => exact hP
      | farmer => exact hP
      | certifier => exact fun _ => rfl
      | retailer =>
        intro hc
        simp at hc)
    [op] st (fun _ _ _ => rfl) hC
  simpa [run] using this

/-- A certification recorded on a batch is still recorded after a request that is not an
account deletion. -/
theorem certification_kept {op : Op} (hop : op.isDelete = false) {st : Store}
    (hC : ∀ b ∈ st.batches, b.status = Status.CREATED → b.certifier = none)
    {id w : String} {r : Bool}
    (h : ∃ b, findBatch id st.batches = some b ∧ b.certifier = some w ∧
      b.labResults = some r) :
    ∃ b', findBatch id (step op st).batches = some b' ∧ b'.certifier = some w ∧
      b'.labResults = some r := by
  obtain ⟨b, hf, hc, hl⟩ := h
  obtain ⟨b', hf', hA⟩ := findBatch_step hop hf
  refine ⟨b', hf', ?_⟩
  cases hA with
  | same => exact ⟨hc, hl⟩
  | certified body t₁ t₂ hs hv =>
    have := hC b (findBatch_some_mem hf) hs
    rw [hc] at this
    cases this
  | purchased body t₁ t₂ hs hv => exact ⟨hc, hl⟩

theorem listed_step (op : Op) (hop : op.isDelete = false) {st : Store}
    (hC : ∀ b ∈ st.batches, b.status = Status.CREATED → b.certifier = none)
    {u u' : User} (hw : u'.walletAddress = u.walletAddress)
    (hc : u'.certifiedCrops = u.certifiedCrops) (hr : u'.rejectedCrops = u.rejectedCrops)
    (h : Listed st.batches u) : Listed (step op st).batches u' := by
  unfold Listed at h ⊢
  rw [hw, hc, hr]
  exact ⟨fun id hid => certification_kept hop hC (h.1 id hid),
    fun id hid => certification_kept hop hC (h.2 id hid)⟩

theorem listsSound_register (w : String) (r : Role) (st : Store) (hJ : ListsSound st) :
    ListsSound (step (Op.register w r) st) := by
  obtain ⟨hU, hC, hL⟩ := hJ
  simp only [step, handle]
  unfold register
  cases hu : findUser w st.users with
  | some u => exact ⟨hU, hC, hL⟩
  | none =>
    by_cases hreq : checkRequired w = true
    · simp only [hreq, if_true]
      refine ⟨?_, hC, ?_⟩
      · simp only [List.map_append, List.map_cons, List.map_nil]
        rw [List.nodup_append]
        refine ⟨hU, by simp, ?_⟩
        intro a ha hb
        simp only [List.mem_singleton] at hb
        subst hb
        exact not_mem_wallets_of_findUser_none hu ha
      · intro u' hu'
        rcases List.mem_append.mp hu' with h | h
        · exact hL u' h
        · rw [List.mem_singleton.mp h]
          exact ⟨by simp, by simp⟩
    · simp only [hreq]
      exact ⟨hU, hC, hL⟩

theorem listsSound_create (role : Role) (body : CreateBody) (t₁ t₂ : Date) (st : Store)
    (hJ : ListsSound st) : ListsSound (step (Op.create role body t₁ t₂) st) := by
  obtain ⟨hU, hC, hL⟩ := hJ
  have hC' := created_has_no_certifier_step (Op.create role body t₁ t₂) st hC
  refine ⟨?_, hC', ?_⟩
  · rcases create_cases role body t₁ t₂ st with ⟨_, h⟩ | ⟨_, _, _, _, h⟩
    · simpa [step, handle, h] using hU
    · simp only [step, handle, h]
      rw [map_updateFirst User.walletAddress]
      · exact hU
      · intro a; rfl
  · intro u' hu'
    rcases create_cases role body t₁ t₂ st with ⟨_, h⟩ | ⟨_, _, _, _, h⟩
    · have hu : u' ∈ st.users := by simpa [step, handle, h] using hu'
      exact listed_step (Op.create role body t₁ t₂) rfl hC rfl rfl rfl (hL u' hu)
    · have hu : u' ∈ updateFirst (fun u => decide (u.walletAddress = body.farmer))
          (fun u => { u with registeredCrops := addToSet u.registeredCrops body.batchId })
          st.users := by simpa [step, handle, h] using hu'
      rcases mem_updateFirst hu with hold | ⟨u, hmem, _, rfl⟩
      · exact listed_step (Op.create role body t₁ t₂) rfl hC rfl rfl rfl (hL u' hold)
      · exact listed_step (Op.create role body t₁ t₂) rfl hC rfl rfl rfl (hL u hmem)

theorem listsSound_purchase (role : Role) (id : String) (body : PurchaseBody)
    (t₁ t₂ : Date) (st : Store) (hJ : ListsSound st) :
    ListsSound (step (Op.purchase role id body t₁ t₂) st) := by
  obtain ⟨hU, hC, hL⟩ := hJ
  have hC' := created_has_no_certifier_step (Op.purchase role id body t₁ t₂) st hC
  refine ⟨?_, hC', ?_⟩
  · rcases purchase_cases role id body t₁ t₂ st with ⟨_, h⟩ | ⟨_, _, b, _, _, _, h⟩
    · simpa [step, handle, h] using hU
    · simp only [step, handle, h]
      rw [map_updateFirst User.walletAddress]
      · exact hU
      · intro a; rfl
  · intro u' hu'
    rcases purchase_cases role id body t₁ t₂ st with ⟨_, h⟩ | ⟨_, _, b, _, _, _, h⟩
    · have hu : u' ∈ st.users := by simpa [step, handle, h] using hu'
      exact listed_step (Op.purchase role id body t₁ t₂) rfl hC rfl rfl rfl (hL u' hu)
    · have hu : u' ∈ updateFirst (fun u => decide (u.walletAddress = body.retailer))
          (fun u => { u with purchasedCrops := addToSet u.purchasedCrops b.batchId })
          st.users := by simpa [step, handle, h] using hu'
      rcases mem_updateFirst hu with hold | ⟨u, hmem, _, rfl⟩
      · exact listed_step (Op.purchase role id body t₁ t₂) rfl hC rfl rfl rfl (hL u' hold)
      · exact listed_step (Op.purchase role id body t₁ t₂) rfl hC rfl rfl rfl (hL u hmem)

theorem listsSound_certify (role : Role) (id : String) (body : CertifyBody)
    (t₁ t₂ : Date) (st : Store) (hJ : ListsSound st) :
    ListsSound (step (Op.certify role id body t₁ t₂) st) := by
  obtain ⟨hU, hC, hL⟩ := hJ
  have hC' := created_has_no_certifier_step (Op.certify role id body t₁ t₂) st hC
  have hkeep : ∀ u ∈ st.users,
      Listed (step (Op.certify role id body t₁ t₂) st).batches u :=
    fun u hu => listed_step (Op.certify role id body t₁ t₂) rfl hC rfl rfl rfl (hL u hu)
  refine ⟨?_, hC', ?_⟩
  · rcases certify_cases role id body t₁ t₂ st with ⟨_, h⟩ | ⟨_, _, b, _, _, _, h⟩
    · simpa [step, handle, h] using hU
    · simp only [step, handle, h]
      cases body.labResults
      · simp only [Bool.false_eq_true, if_false]
        rw [map_updateFirst User.walletAddress]
        · exact hU
        · intro a; rfl
      · simp only [if_true]
        rw [map_updateFirst User.walletAddress]
        · exact hU
        · intro a; rfl
  · intro u' hu'
    rcases certify_cases role id body t₁ t₂ st with ⟨_, h⟩ | ⟨_, _, b, hfind, hs, hv, h⟩
    · have hu : u' ∈ st.users := by simpa [step, handle, h] using hu'
      exact hkeep u' hu
    · have hb : b.batchId = id := findBatch_some_id hfind
      have hnew : findBatch id (step (Op.certify role id body t₁ t₂) st).batches =
          some (certifiedDoc b body t₁ t₂) := by
        simp only [step, handle, h]
        exact findBatch_save hfind hb
      cases hl : body.labResults with
      | true =>
        have hu : u' ∈ updateFirst (fun u => decide (u.walletAddress = body.certifier))
            (fun u => { u with certifiedCrops := addToSet u.certifiedCrops b.batchId })
            st.users := by simpa [step, handle, h, hl] using hu'
        rcases mem_updateFirst hu with hold | ⟨u, hmem, hp, rfl⟩
        · exact hkeep u' hold
        · have hw : u.walletAddress = body.certifier := by simpa using hp
          have hk := hkeep u hmem
          refine ⟨?_, hk.2⟩
          intro x hx
          rcases (mem_addToSet_iff _ _ _).mp hx with hx | hx
          · exact hk.1 x hx
          · subst hx
            rw [hb]
            exact ⟨_, hnew, by simp [certifiedDoc, hw], by simp [certifiedDoc, hl]⟩
      | false =>
        have hu : u' ∈ updateFirst (fun u => decide (u.walletAddress = body.certifier))
            (fun u => { u with rejectedCrops := addToSet u.rejectedCrops b.batchId })
            st.users := by simpa [step, handle, h, hl] using hu'
        rcases mem_updateFirst hu with hold | ⟨u, hmem, hp, rfl⟩
        · exact hkeep u' hold
        · have hw : u.walletAddress = body.certifier := by simpa using hp
          have hk := hkeep u hmem
          refine ⟨hk.1, ?_⟩
          intro x hx
          rcases (mem_addToSet_iff _ _ _).mp hx with hx | hx
          · exact hk.2 x hx
          · subst hx
            rw [hb]
            exact ⟨_, hnew, by simp [certifiedDoc, hw], by simp [certifiedDoc, hl]⟩

/-- An account deletion keeps the identifier of every batch, and the certifier and lab
results of every batch whose certifier is not the deleted wallet. -/
theorem deleteAccount_forall₂_keep (w : String) (st : Store) :
    List.Forall₂
      (fun b b' => b'.batchId = b.batchId ∧
        (b.certifier ≠ some w → b'.certifier = b.certifier ∧ b'.labResults = b.labResults))
      st.batches (deleteAccount w st).2.batches := by
  unfold deleteAccount
  by_cases hw : w = ""
  · simp [hw]
  · cases hu : findUser w st.users with
    | none => simp [hw]
    | some u =>
      simp only [hw, if_false]
      cases u.role <;>
        simp only [List.forall₂_map_right_iff] <;>
        refine List.forall₂_same.mpr (fun b _ => ?_) <;>
        split
      · exact ⟨rfl, fun _ => ⟨rfl, rfl⟩⟩
      · exact ⟨rfl, fun _ => ⟨rfl, rfl⟩⟩
      · rename_i hc
        exact ⟨rfl, fun hne => absurd hc hne⟩
      · exact ⟨rfl, fun _ => ⟨rfl, rfl⟩⟩
      · exact ⟨rfl, fun _ => ⟨rfl, rfl⟩⟩
      · exact ⟨rfl, fun _ => ⟨rfl, rfl⟩⟩

/-- An account deletion either writes nothing, or finds a user with the wallet address and
erases the first such user. -/
theorem deleteAccount_users (w : String) (st : Store) :
    (deleteAccount w st).2 = st ∨
    ((∃ x ∈ st.users, x.walletAddress = w) ∧
      (deleteAccount w st).2.users =
        st.users.eraseP (fun u => decide (u.walletAddress = w))) := by
  unfold deleteAccount
  by_cases hw : w = ""
  · left
    simp [hw]
  · cases hu : findUser w st.users with
    | none =>
      left
      simp [hw]
    | some u =>
      right
      refine ⟨⟨u, List.mem_of_find?_eq_some hu, ?_⟩, by simp [hw]⟩
      simpa using List.find?_some hu

theorem listsSound_delete (w : String) (st : Store) (hJ : ListsSound st) :
    ListsSound (step (Op.deleteAccount w) st) := by
  obtain ⟨hU, hC, hL⟩ := hJ
  have hC' := created_has_no_certifier_step (Op.deleteAccount w) st hC
  rcases deleteAccount_users w st with hsame | ⟨hex, husers⟩
  · have : step (Op.deleteAccount w) st = st := by simpa [step, handle] using hsame
    rw [this]
    exact ⟨hU, hC, hL⟩
  · refine ⟨?_, hC', ?_⟩
    · have : (step (Op.deleteAccount w) st).users =
          st.users.eraseP (fun u => decide (u.walletAddress = w)) := by
        simpa [step, handle] using husers
      rw [this]
      exact hU.sublist ((List.eraseP_sublist _).map _)
    · intro u' hu'
      have hu'' : u' ∈ st.users.eraseP (fun u => decide (u.walletAddress = w)) := by
        have : (step (Op.deleteAccount w) st).users =
            st.users.eraseP (fun u => decide (u.walletAddress = w)) := by
          simpa [step, handle] using husers
        rwa [this] at hu'
      obtain ⟨hmem, hne⟩ := mem_eraseP_wallet hU hu'' hex
      have hk := hL u' hmem
      have hfor := deleteAccount_forall₂_keep w st
      have hkeep : ∀ (id : String) (r : Bool),
          (∃ b, findBatch id st.batches = some b ∧ b.certifier = some u'.walletAddress ∧
            b.labResults = some r) →
          ∃ b', findBatch id (step (Op.deleteAccount w) st).batches = some b' ∧
            b'.certifier = some u'.walletAddress ∧ b'.labResults = some r := by
        rintro id r ⟨b, hf, hc, hl⟩
        obtain ⟨b', hf', _, hR⟩ := findBatch_forall₂ (fun _ _ h => h.1) hfor [] hf
        have hcne : b.certifier ≠ some w := by
          rw [hc]
          intro h
          exact hne (Option.some.inj h)
        refine ⟨b', by simpa [step, handle] using hf', ?_, ?_⟩
        · rw [(hR hcne).1, hc]
        · rw [(hR hcne).2, hl]
      exact ⟨fun id hid => hkeep id true (hk.1 id hid),
        fun id hid => hkeep id false (hk.2 id hid)⟩

/-- The lists stay sound along every sequence of requests that holds no `PUT /add-crop`. -/
theorem listsSound_run (ops : List Op) (hno : ∀ op ∈ ops, op.isAddCrop = false)
    (st : Store) (hJ : ListsSound st) : ListsSound (run ops st) := by
  induction ops generalizing st with
  | nil => exact hJ
  | cons op ops ih =>
    simp only [run]
    apply ih (fun o ho => hno o (List.mem_cons_of_mem _ ho))
    have hop := hno op (List.mem_cons_self _ _)
    cases op with
    | register w r => exact listsSound_register w r st hJ
    | create role body t₁ t₂ => exact listsSound_create role body t₁ t₂ st hJ
    | certify role id body t₁ t₂ => exact listsSound_certify role id body t₁ t₂ st hJ
    | purchase role id body t₁ t₂ => exact listsSound_purchase role id body t₁ t₂ st hJ
    | deleteAccount w => exact listsSound_delete w st hJ
    | addCrop w r c role certified => simp [Op.isAddCrop] at hop

/-- C17, as stated for every reachable state, fails through `PUT /add-crop`: certifier
`0xC` registers and adds `B1` to the profile once with `certified = true` and once with
`certified = false`; both requests succeed and `B1` is then on the certified and on the
rejected list of `0xC`. -/
theorem add_crop_fills_both_lists :
    (addCrop "0xC" Role.certifier "B1" none (some true)
      (run [Op.register "0xC" Role.certifier] emptyStore)).1.status = 200 ∧
    Option.map User.certifiedCrops (findUser "0xC" (run opsAddCropBoth emptyStore).users) =
      some ["B1"] ∧
    Option.map User.rejectedCrops (findUser "0xC" (run opsAddCropBoth emptyStore).users) =
      some ["B1"] := by
  decide

/-- C17 (amended): a successful certify adds the batch identifier to the certified list of
the user found by the body's certifier address if the lab results passed, and to that
user's rejected list otherwise, leaving the other list as it is; and in every store state
reached from the empty store by a sequence of requests that holds no `PUT /add-crop`
(registration, create, certify, purchase, account deletion), no batch identifier is on
both the certified and the rejected list of a user. -/
theorem certified_rejected_exclusive :
    (∀ (role : Role) (id : String) (body : CertifyBody) (t₁ t₂ : Date) (st : Store),
      (certify role id body t₁ t₂ st).1.status = 200 →
      ∀ u, findUser body.certifier st.users = some u →
        ∃ u', findUser body.certifier (certify role id body t₁ t₂ st).2.users = some u' ∧
          (body.labResults = true →
            u'.certifiedCrops = addToSet u.certifiedCrops id ∧ id ∈ u'.certifiedCrops ∧
            u'.rejectedCrops = u.rejectedCrops) ∧
          (body.labResults = false →
            u'.rejectedCrops = addToSet u.rejectedCrops id ∧ id ∈ u'.rejectedCrops ∧
            u'.certifiedCrops = u.certifiedCrops)) ∧
    (∀ ops : List Op, (∀ op ∈ ops, op.isAddCrop = false) →
      ∀ u ∈ (run ops emptyStore).users, ∀ id : String,
        ¬ (id ∈ u.certifiedCrops ∧ id ∈ u.rejectedCrops)) := by
  constructor
  · intro role id body t₁ t₂ st hok u hu
    obtain ⟨hr, b, hfind, hs, hv⟩ := certify_success_inv hok
    subst hr
    have hb : b.batchId = id := findBatch_some_id hfind
    rw [certify_ok hfind hs hv, hb]
    cases hl : body.labResults with
    | true =>
      refine ⟨_, findUser_after_update _ (fun _ => rfl) hu, ?_, ?_⟩
      · intro _
        exact ⟨rfl, mem_addToSet _ _, rfl⟩
      · intro h
        cases h
    | false =>
      refine ⟨_, findUser_after_update _ (fun _ => rfl) hu, ?_, ?_⟩
      · intro h
        cases h
      · intro _
        exact ⟨rfl, mem_addToSet _ _, rfl⟩
  · intro ops hno u hu id ⟨hc, hr⟩
    have hJ := listsSound_run ops hno emptyStore
      ⟨by simp [emptyStore], by simp [emptyStore], by simp [emptyStore]⟩
    obtain ⟨b₁, hf₁, _, hl₁⟩ := (hJ.2.2 u hu).1 id hc
    obtain ⟨b₂, hf₂, _, hl₂⟩ := (hJ.2.2 u hu).2 id hr
    rw [hf₁] at hf₂
    cases hf₂
    rw [hl₁] at hl₂
    cases hl₂

/-- C17 (amended), instantiated: certifying `B1` in `store1` as passed puts `B1` on the
certified list of `0xC` and leaves its rejected list empty. -/
theorem certified_rejected_exclusive_witness :
    (certify Role.certifier "B1" ⟨"0xC", "good", 9000, true⟩ 7 8 store1).1.status = 200 ∧
    findUser "0xC" store1.users = some ⟨"0xC", Role.certifier, [], [], [], []⟩ ∧
    ∃ u', findUser "0xC"
        (certify Role.certifier "B1" ⟨"0xC", "good", 9000, true⟩ 7 8 store1).2.users =
          some u' ∧
      u'.certifiedCrops = addToSet [] "B1" ∧ "B1" ∈ u'.certifiedCrops ∧
      u'.rejectedCrops = [] :=
  ⟨by decide, by decide,
    match certified_rejected_exclusive.1 Role.certifier "B1" ⟨"0xC", "good", 9000, true⟩ 7 8
      store1 (by decide) ⟨"0xC", Role.certifier, [], [], [], []⟩ (by decide) with
    | ⟨u', h₁, h₂, _⟩ => ⟨u', h₁, h₂ rfl⟩⟩

/-! ## The status check of the certify flow -/

/-- C27, evaluated where the code departs from it.  On a ledger where the token of `B1`
exists and `getBatchDetails` reports status value 1, the status check of
`handleSubmitCertification` does throw "Batch is not in CREATED state on-chain and cannot
be certified.", but the `catch` around it ignores what was thrown: the page shows no error,
the `certifyBatch` transaction is sent, the certification is sent to the backend, and the
stored `B1` becomes CERTIFIED.  The result is the one obtained when the ledger reports
status value 0. -/
theorem status_check_is_ignored :
    ledgerAlreadyCertified.ownerOf (certifyTokenId lib0 certifyPage0.batchId) =
      CallResult.ok "0xF" ∧
    ledgerAlreadyCertified.getBatchDetails (certifyTokenId lib0 certifyPage0.batchId) =
      CallResult.ok 1 ∧
    onchainStatusCheck ledgerAlreadyCertified (certifyTokenId lib0 certifyPage0.batchId) =
      Except.error "Batch is not in CREATED state on-chain and cannot be certified." ∧
    (handleSubmitCertification lib0 ledgerAlreadyCertified certifyPage0 7 8 store1).error =
      none ∧
    (handleSubmitCertification lib0 ledgerAlreadyCertified certifyPage0 7 8 store1).success =
      true ∧
    (handleSubmitCertification lib0 ledgerAlreadyCertified certifyPage0 7 8 store1).effects =
      [Effect.sendCertifyBatch (lib0.keccak256 (jsTrim "B1")) true "good" 9,
        Effect.putCertify "B1" ⟨"0xC", "good", 9000, true⟩] ∧
    Option.map Batch.status
      (findBatch "B1"
        (handleSubmitCertification lib0 ledgerAlreadyCertified certifyPage0 7 8
          store1).store.batches) = some Status.CERTIFIED ∧
    handleSubmitCertification lib0 ledgerAlreadyCertified certifyPage0 7 8 store1 =
      handleSubmitCertification lib0 ledgerPresent certifyPage0 7 8 store1 :=
  ⟨by decide, by decide, rfl, by decide, by decide, by decide, by decide, by decide⟩

/-! ## The existence probe and a failing transport -/

/-- C23, evaluated where the code departs from it.  When the `ownerOf` query reverts, the
probe `checkOnchainBatch` reports `false`, as claimed.  When the transport fails, with the
ledger not reached at all, the probe reports `false` just the same: not an error, and not
the unknown state `null` it has for a page that is not connected. -/
theorem probe_reports_absent_on_transport_failure :
    ledgerAbsent.ownerOf (probeTokenId lib0 "B1") =
      CallResult.reverted "ERC721: invalid token ID" ∧
    checkOnchainBatch lib0 ledgerAbsent true true "B1" = some false ∧
    ledgerUnreachable.ownerOf (probeTokenId lib0 "B1") =
      CallResult.transport "Failed to fetch" ∧
    checkOnchainBatch lib0 ledgerUnreachable true true "B1" = some false ∧
    checkOnchainBatch lib0 ledgerUnreachable false true "B1" = none := by
  decide

/-! ## The ledger first, the backend after it -/

/-- How `submitCertification` ends: the transaction failed, and it is all that was issued;
or it was mined, and the certification was sent to the backend after it. -/
theorem submitCertification_cases (lib : Lib) (ledger : Ledger) (page : CertifyPage)
    (t₁ t₂ : Date) (st : Store) :
    ((∀ tx, ledger.certifyBatch (certifyTokenId lib page.batchId) page.passed page.cropHealth
          (dateToTimestamp page.expiry) ≠ CallResult.ok tx) ∧
      (submitCertification lib ledger page t₁ t₂ st).effects =
        [Effect.sendCertifyBatch (certifyTokenId lib page.batchId) page.passed page.cropHealth
          (dateToTimestamp page.expiry)] ∧
      (submitCertification lib ledger page t₁ t₂ st).store = st) ∨
    ((∃ tx, ledger.certifyBatch (certifyTokenId lib page.batchId) page.passed page.cropHealth
          (dateToTimestamp page.expiry) = CallResult.ok tx) ∧
      (submitCertification lib ledger page t₁ t₂ st).effects =
        [Effect.sendCertifyBatch (certifyTokenId lib page.batchId) page.passed page.cropHealth
          (dateToTimestamp page.expiry),
         Effect.putCertify page.batchId
          ⟨page.account, page.cropHealth, page.expiry.getD 0, page.passed⟩] ∧
      (submitCertification lib ledger page t₁ t₂ st).store =
        (certify page.tokenRole page.batchId
          ⟨page.account, page.cropHealth, page.expiry.getD 0, page.passed⟩ t₁ t₂ st).2) := by
  unfold submitCertification
  split
  · rename_i m h
    left
    exact ⟨fun tx => by simp [h], rfl, rfl⟩
  · rename_i m h
    left
    exact ⟨fun tx => by simp [h], rfl, rfl⟩
  · rename_i tx h
    right
    split
    · exact ⟨⟨tx, h⟩, rfl, rfl⟩
    · exact ⟨⟨tx, h⟩, rfl, rfl⟩

/-- How `handleSubmitCertification` ends: before anything is issued, or as
`submitCertification` does. -/
theorem handleSubmitCertification_cases (lib : Lib) (ledger : Ledger) (page : CertifyPage)
    (t₁ t₂ : Date) (st : Store) :
    ((handleSubmitCertification lib ledger page t₁ t₂ st).effects = [] ∧
      (handleSubmitCertification lib ledger page t₁ t₂ st).store = st) ∨
    ((∃ owner, ledger.ownerOf (certifyTokenId lib page.batchId) = CallResult.ok owner) ∧
      handleSubmitCertification lib ledger page t₁ t₂ st =
        submitCertification lib ledger page t₁ t₂ st) := by
  unfold handleSubmitCertification
  split
  · exact Or.inl ⟨rfl, rfl⟩
  · split
    · exact Or.inl ⟨rfl, rfl⟩
    · split
      · exact Or.inl ⟨rfl, rfl⟩
      · split
        · exact Or.inl ⟨rfl, rfl⟩
        · exact Or.inl ⟨rfl, rfl⟩
        · rename_i owner h
          right
          refine ⟨⟨owner, h⟩, ?_⟩
          split <;> rfl

/-- How `handlePurchaseBatch` ends: before anything is issued; or with the transaction
failed, and it is all that was issued; or with the transaction mined, and the purchase sent
to the backend after it. -/
theorem handlePurchaseBatch_cases (lib : Lib) (ledger : Ledger) (page : PurchasePage)
    (t₁ t₂ : Date) (st : Store) :
    ((handlePurchaseBatch lib ledger page t₁ t₂ st).effects = [] ∧
      (handlePurchaseBatch lib ledger page t₁ t₂ st).store = st) ∨
    (∃ value, (∀ tx, ledger.purchaseBatch (purchaseTokenId lib page.batchId) value ≠
          CallResult.ok tx) ∧
      (handlePurchaseBatch lib ledger page t₁ t₂ st).effects =
        [Effect.sendPurchaseBatch (purchaseTokenId lib page.batchId) value] ∧
      (handlePurchaseBatch lib ledger page t₁ t₂ st).store = st) ∨
    (∃ value, (∃ tx, ledger.purchaseBatch (purchaseTokenId lib page.batchId) value =
          CallResult.ok tx) ∧
      (handlePurchaseBatch lib ledger page t₁ t₂ st).effects =
        [Effect.sendPurchaseBatch (purchaseTokenId lib page.batchId) value,
         Effect.putPurchase page.batchId ⟨page.account⟩] ∧
      (handlePurchaseBatch lib ledger page t₁ t₂ st).store =
        (purchase page.tokenRole page.batchId ⟨page.account⟩ t₁ t₂ st).2) := by
  unfold handlePurchaseBatch
  split
  · exact Or.inl ⟨rfl, rfl⟩
  · split
    · exact Or.inl ⟨rfl, rfl⟩
    · split
      · exact Or.inl ⟨rfl, rfl⟩
      · rename_i value _
        split
        · rename_i m h
          exact Or.inr (Or.inl ⟨value, fun tx => by simp [h], rfl, rfl⟩)
        · rename_i m h
          exact Or.inr (Or.inl ⟨value, fun tx => by simp [h], rfl, rfl⟩)
        · rename_i tx h
          refine Or.inr (Or.inr ⟨value, ⟨tx, h⟩, ?_⟩)
          split
          · exact ⟨rfl, rfl⟩
          · exact ⟨rfl, rfl⟩

/-- C22: in `handleSubmitCertification` and in `handlePurchaseBatch` the ledger transaction
comes first and the request to the backend only after it was mined.  If the transaction
fails (a revert or a failure of the transport), no request is sent to the backend and the
store is as it was.  Whenever a request is sent to the backend, the transaction for the
token id of the same batch identifier was mined, and what was issued is exactly that
transaction followed by that request.  The store changes only through such a request. -/
theorem ledger_first_then_backend (lib : Lib) (ledger : Ledger) (t₁ t₂ : Date) (st : Store) :
    (∀ page : CertifyPage,
      ((∀ tx, ledger.certifyBatch (certifyTokenId lib page.batchId) page.passed
            page.cropHealth (dateToTimestamp page.expiry) ≠ CallResult.ok tx) →
        (∀ e ∈ (handleSubmitCertification lib ledger page t₁ t₂ st).effects,
          e.isBackendRequest = false) ∧
        (handleSubmitCertification lib ledger page t₁ t₂ st).store = st) ∧
      (∀ e ∈ (handleSubmitCertification lib ledger page t₁ t₂ st).effects,
        e.isBackendRequest = true →
        (∃ tx, ledger.certifyBatch (certifyTokenId lib page.batchId) page.passed
            page.cropHealth (dateToTimestamp page.expiry) = CallResult.ok tx) ∧
        (handleSubmitCertification lib ledger page t₁ t₂ st).effects =
          [Effect.sendCertifyBatch (lib.keccak256 (jsTrim page.batchId)) page.passed
              page.cropHealth (dateToTimestamp page.expiry),
            Effect.putCertify page.batchId
              ⟨page.account, page.cropHealth, page.expiry.getD 0, page.passed⟩]) ∧
      ((handleSubmitCertification lib ledger page t₁ t₂ st).store ≠ st →
        ∃ e ∈ (handleSubmitCertification lib ledger page t₁ t₂ st).effects,
          e.isBackendRequest = true)) ∧
    (∀ page : PurchasePage,
      ((∀ value tx, ledger.purchaseBatch (purchaseTokenId lib page.batchId) value ≠
            CallResult.ok tx) →
        (∀ e ∈ (handlePurchaseBatch lib ledger page t₁ t₂ st).effects,
          e.isBackendRequest = false) ∧
        (handlePurchaseBatch lib ledger page t₁ t₂ st).store = st) ∧
      (∀ e ∈ (handlePurchaseBatch lib ledger page t₁ t₂ st).effects,
        e.isBackendRequest = true →
        ∃ value, (∃ tx, ledger.purchaseBatch (purchaseTokenId lib page.batchId) value =
            CallResult.ok tx) ∧
          (handlePurchaseBatch lib ledger page t₁ t₂ st).effects =
            [Effect.sendPurchaseBatch (lib.keccak256 (jsTrim page.batchId)) value,
              Effect.putPurchase page.batchId ⟨page.account⟩]) ∧
      ((handlePurchaseBatch lib ledger page t₁ t₂ st).store ≠ st →
        ∃ e ∈ (handlePurchaseBatch lib ledger page t₁ t₂ st).effects,
          e.isBackendRequest = true)) := by
  constructor
  · intro page
    rcases handleSubmitCertification_cases lib ledger page t₁ t₂ st with
      ⟨he, hs⟩ | ⟨_, heq⟩
    · rw [he, hs]
      simp
    · rw [heq]
      rcases submitCertification_cases lib ledger page t₁ t₂ st with
        ⟨hno, he, hs⟩ | ⟨⟨tx, hok⟩, he, hs⟩
      · rw [he, hs]
        refine ⟨fun _ => ⟨by simp [Effect.isBackendRequest], rfl⟩, ?_, by simp⟩
        intro e hmem hreq
        rw [List.mem_singleton.mp hmem] at hreq
        simp [Effect.isBackendRequest] at hreq
      · rw [he]
        refine ⟨fun hno => absurd hok (hno tx), ?_, ?_⟩
        · intro e _ _
          exact ⟨⟨tx, hok⟩, rfl⟩
        · intro _
          exact ⟨_, List.mem_cons_of_mem _ (List.mem_singleton.mpr rfl), rfl⟩
  · intro page
    rcases handlePurchaseBatch_cases lib ledger page t₁ t₂ st with
      ⟨he, hs⟩ | ⟨value, hno, he, hs⟩ | ⟨value, ⟨tx, hok⟩, he, hs⟩
    · rw [he, hs]
      simp
    · rw [he, hs]
      refine ⟨fun _ => ⟨by simp [Effect.isBackendRequest], rfl⟩, ?_, by simp⟩
      intro e hmem hreq
      rw [List.mem_singleton.mp hmem] at hreq
      simp [Effect.isBackendRequest] at hreq
    · rw [he]
      refine ⟨fun hno => absurd hok (hno value tx), ?_, ?_⟩
      · intro e _ _
        exact ⟨value, ⟨tx, hok⟩, rfl⟩
      · intro _
        exact ⟨_, List.mem_cons_of_mem _ (List.mem_singleton.mpr rfl), rfl⟩

/-- C22, instantiated: on the ledger where every transaction on a token reverts, the
retailer's purchase of `B1` sends nothing to the backend and leaves `store2`. -/
theorem ledger_first_then_backend_witness :
    (∀ value tx, ledgerNoToken.purchaseBatch (purchaseTokenId lib0 purchasePage0.batchId)
        value ≠ CallResult.ok tx) ∧
    (∀ e ∈ (handlePurchaseBatch lib0 ledgerNoToken purchasePage0 9 10 store2).effects,
      e.isBackendRequest = false) ∧
    (handlePurchaseBatch lib0 ledgerNoToken purchasePage0 9 10 store2).store = store2 :=
  ⟨(fun _ _ h => nomatch h),
    ((ledger_first_then_backend lib0 ledgerNoToken 9 10 store2).2 purchasePage0).1
      (fun _ _ h => nomatch h)⟩

/-! ## A batch that is absent on the ledger -/

/-- C21, as stated for the operations of the backend, fails: the handlers of
`batchRoutes.js` never consult the ledger.  On the ledger `ledgerNoToken`, where the token
of `B1` does not exist, the certify request for the CREATED `B1` of `store1` is answered 200
and stores CERTIFIED, and the purchase request for the CERTIFIED `B1` of `store2` is
answered 200 and stores PURCHASED. -/
theorem backend_transitions_absent_batch :
    ledgerNoToken.ownerOf (lib0.keccak256 (jsTrim "B1")) =
      CallResult.reverted "ERC721: invalid token ID" ∧
    Option.map Batch.status (findBatch "B1" store1.batches) = some Status.CREATED ∧
    (certify Role.certifier "B1" ⟨"0xC", "good", 9000, true⟩ 7 8 store1).1.status = 200 ∧
    Option.map Batch.status
      (findBatch "B1"
        (certify Role.certifier "B1" ⟨"0xC", "good", 9000, true⟩ 7 8 store1).2.batches) =
        some Status.CERTIFIED ∧
    Option.map Batch.status (findBatch "B1" store2.batches) = some Status.CERTIFIED ∧
    (purchase Role.retailer "B1" ⟨"0xR"⟩ 9 10 store2).1.status = 200 ∧
    Option.map Batch.status
      (findBatch "B1" (purchase Role.retailer "B1" ⟨"0xR"⟩ 9 10 store2).2.batches) =
        some Status.PURCHASED := by
  decide

/-- C21 (amended): a batch that is not present on-chain is not certified or purchased
through the pages.  For every batch identifier whose token is absent on the ledger (the
`ownerOf` query reverts and the ledger rejects a `purchaseBatch` transaction on it),
`handleSubmitCertification` and `handlePurchaseBatch` on that identifier send no request
to the backend and leave the store as it was, so the stored batch, whatever its off-chain
status says, is what it was. -/
theorem absent_batch_blocked_in_pages (lib : Lib) (ledger : Ledger) (t₁ t₂ : Date)
    (st : Store) (id : String)
    (habsent : ∃ m, ledger.ownerOf (lib.keccak256 (jsTrim id)) = CallResult.reverted m)
    (hreject : ∀ value, ∃ m,
      ledger.purchaseBatch (lib.keccak256 (jsTrim id)) value = CallResult.reverted m) :
    (∀ page : CertifyPage, page.batchId = id →
      (∀ e ∈ (handleSubmitCertification lib ledger page t₁ t₂ st).effects,
        e.isBackendRequest = false) ∧
      (handleSubmitCertification lib ledger page t₁ t₂ st).store = st ∧
      findBatch id (handleSubmitCertification lib ledger page t₁ t₂ st).store.batches =
        findBatch id st.batches) ∧
    (∀ page : PurchasePage, page.batchId = id →
      (∀ e ∈ (handlePurchaseBatch lib ledger page t₁ t₂ st).effects,
        e.isBackendRequest = false) ∧
      (handlePurchaseBatch lib ledger page t₁ t₂ st).store = st ∧
      findBatch id (handlePurchaseBatch lib ledger page t₁ t₂ st).store.batches =
        findBatch id st.batches) := by
  constructor
  · intro page hid
    subst hid
    obtain ⟨m, hm⟩ := habsent
    rcases handleSubmitCertification_cases lib ledger page t₁ t₂ st with
      ⟨he, hs⟩ | ⟨⟨owner, hown⟩, _⟩
    · rw [he, hs]
      simp
    · have hm' : ledger.ownerOf (certifyTokenId lib page.batchId) = CallResult.reverted m := hm
      rw [hm'] at hown
      cases hown
  · intro page hid
    subst hid
    rcases handlePurchaseBatch_cases lib ledger page t₁ t₂ st with
      ⟨he, hs⟩ | ⟨value, _, he, hs⟩ | ⟨value, ⟨tx, hok⟩, _⟩
    · rw [he, hs]
      simp
    · rw [he, hs]
      simp [Effect.isBackendRequest]
    · obtain ⟨m, hm⟩ := hreject value
      have hm' : ledger.purchaseBatch (purchaseTokenId lib page.batchId) value =
          CallResult.reverted m := hm
      rw [hm'] at hok
      cases hok

/-- C21 (amended), instantiated: on `ledgerNoToken` the certifier's attempt on the CREATED
`B1` of `store1` leaves `store1`, and the retailer's attempt on the CERTIFIED `B1` of
`store2` leaves `store2`. -/
theorem absent_batch_blocked_in_pages_witness :
    (∃ m, ledgerNoToken.ownerOf (lib0.keccak256 (jsTrim "B1")) = CallResult.reverted m) ∧
    (∀ value, ∃ m, ledgerNoToken.purchaseBatch (lib0.keccak256 (jsTrim "B1")) value =
      CallResult.reverted m) ∧
    (handleSubmitCertification lib0 ledgerNoToken certifyPage0 7 8 store1).store = store1 ∧
    (handlePurchaseBatch lib0 ledgerNoToken purchasePage0 9 10 store2).store = store2 :=
  ⟨⟨_, rfl⟩, fun _ => ⟨_, rfl⟩,
    ((absent_batch_blocked_in_pages lib0 ledgerNoToken 7 8 store1 "B1" ⟨_, rfl⟩
      (fun _ => ⟨_, rfl⟩)).1 certifyPage0 rfl).2.1,
    ((absent_batch_blocked_in_pages lib0 ledgerNoToken 9 10 store2 "B1" ⟨_, rfl⟩
      (fun _ => ⟨_, rfl⟩)).2 purchasePage0 rfl).2.1⟩

/-! ## The fields set at creation are immutable -/

theorem advance_sameDescription {b b' : Batch} (h : Advance b b') : SameDescription b b' := by
  cases h <;> exact ⟨rfl, rfl, rfl, rfl, rfl, rfl⟩

theorem scrub_sameDescription {b b' : Batch} (h : Scrub b b') : SameDescription b b' := by
  cases h <;> exact ⟨rfl, rfl, rfl, rfl, rfl, rfl⟩

theorem sameDescription_trans {a b c : Batch} (h₁ : SameDescription a b)
    (h₂ : SameDescription b c) : SameDescription a c := by
  obtain ⟨a₁, a₂, a₃, a₄, a₅, a₆⟩ := h₁
  obtain ⟨b₁, b₂, b₃, b₄, b₅, b₆⟩ := h₂
  exact ⟨b₁.trans a₁, b₂.trans a₂, b₃.trans a₃, b₄.trans a₄, b₅.trans a₅, b₆.trans a₆⟩

/-- Every request leaves the stored batches in their places, each with the fields set at
its creation, and appends at most new batches after them. -/
theorem step_sameDescription (op : Op) (st : Store) :
    ∃ olds news, (step op st).batches = olds ++ news ∧
      List.Forall₂ SameDescription st.batches olds := by
  obtain ⟨olds, news, heq, hfor, _⟩ := step_batches op st
  refine ⟨olds, news, heq, hfor.imp ?_⟩
  intro b b' h
  rcases h with h | ⟨_, h⟩
  · exact advance_sameDescription h
  · exact scrub_sameDescription h

/-- C26: the fields `batchId`, `cropName`, `cropVariety`, `location`, `harvestDate` and
`price` of a stored batch are immutable after creation.  Every request to the backend
(certify, purchase, a create whether rejected or not, account deletion, registration,
add-crop) leaves every stored batch in its place with these six fields unchanged; and
along every sequence of requests a batch found under an identifier is still found under
it, with these six fields as they were. -/
theorem creation_fields_immutable :
    (∀ (op : Op) (st : Store), ∃ olds news, (step op st).batches = olds ++ news ∧
      List.Forall₂ SameDescription st.batches olds) ∧
    (∀ (ops : List Op) (st : Store) (id : String) (b : Batch),
      findBatch id st.batches = some b →
      ∃ b', findBatch id (run ops st).batches = some b' ∧ SameDescription b b') := by
  refine ⟨step_sameDescription, ?_⟩
  intro ops
  induction ops with
  | nil =>
    intro st id b hf
    exact ⟨b, hf, rfl, rfl, rfl, rfl, rfl, rfl⟩
  | cons op ops ih =>
    intro st id b hf
    obtain ⟨olds, news, heq, hfor⟩ := step_sameDescription op st
    obtain ⟨b₁, hf₁, h₁⟩ := findBatch_forall₂ (fun _ _ h => h.1) hfor news hf
    rw [← heq] at hf₁
    obtain ⟨b₂, hf₂, h₂⟩ := ih (step op st) id b₁ hf₁
    exact ⟨b₂, hf₂, sameDescription_trans h₁ h₂⟩

/-- C26, instantiated: after the `B1` of `store1` has been certified and purchased and the
three accounts have been deleted, `B1` is stored with the six fields it was created
with. -/
theorem creation_fields_immutable_witness :
    findBatch "B1" store1.batches = some (createdDoc body0 5 6) ∧
    ∃ b', findBatch "B1" (run opsAfterCreation store1).batches = some b' ∧
      SameDescription (createdDoc body0 5 6) b' :=
  ⟨by decide,
    creation_fields_immutable.2 opsAfterCreation store1 "B1" (createdDoc body0 5 6)
      (by decide)⟩

/-! ## The shape of a history -/

theorem isDelete_of_isLifecycle {op : Op} (h : op.isLifecycle = true) :
    op.isDelete = false := by
  cases op <;> simp [Op.isLifecycle, Op.isDelete] at h ⊢

/-- C28: in every store state reached from the empty store by create, certify and purchase
calls alone, successful or rejected, every stored batch has a non-empty history whose
first entry has the zero address as `from` and CREATED as action, has the action of its
last history entry as status, and has a history whose actions are [CREATED],
[CREATED, CERTIFIED], [CREATED, REJECTED] or [CREATED, CERTIFIED, PURCHASED]. -/
theorem lifecycle_history_shape (ops : List Op) (hops : ∀ op ∈ ops, op.isLifecycle = true) :
    ∀ b ∈ (run ops emptyStore).batches,
      b.history ≠ [] ∧
      b.history.head?.map HistoryEntry.from_ = some (some NULL_ADDRESS) ∧
      firstAction b = some Status.CREATED ∧
      lastAction b = some b.status ∧
      (actions b = [Status.CREATED] ∨ actions b = [Status.CREATED, Status.CERTIFIED] ∨
        actions b = [Status.CREATED, Status.REJECTED] ∨
        actions b = [Status.CREATED, Status.CERTIFIED, Status.PURCHASED]) := by
  intro b hb
  have hP := run_preserves
    (fun b => b.history.head?.map HistoryEntry.from_ = some (some NULL_ADDRESS) ∧
      ((actions b = [Status.CREATED] ∧ b.status = Status.CREATED) ∨
        (actions b = [Status.CREATED, Status.CERTIFIED] ∧ b.status = Status.CERTIFIED) ∨
        (actions b = [Status.CREATED, Status.REJECTED] ∧ b.status = Status.REJECTED) ∨
        (actions b = [Status.CREATED, Status.CERTIFIED, Status.PURCHASED] ∧
          b.status = Status.PURCHASED))) false
    (fun body t₁ t₂ _ => ⟨rfl, Or.inl ⟨rfl, rfl⟩⟩)
    (by
      intro b b' hA hP
      cases hA with
      | same => exact hP
      | certified body t₁ t₂ hs hv =>
        obtain ⟨hfrom, hshape⟩ := hP
        have hact : actions b = [Status.CREATED] := by
          rcases hshape with h | h | h | h
          · exact h.1
          · rw [h.2] at hs; cases hs
          · rw [h.2] at hs; cases hs
          · rw [h.2] at hs; cases hs
        have hne : b.history ≠ [] := by
          intro h
          simp [actions, h] at hact
        constructor
        · show (b.history ++ [_]).head?.map HistoryEntry.from_ = _
          rw [List.head?_append_of_ne_nil _ hne]
          exact hfrom
        · cases hl : body.labResults
          · right; right; left
            simp only [actions] at hact
            simp [actions, certifiedDoc, hl, hact]
          · right; left
            simp only [actions] at hact
            simp [actions, certifiedDoc, hl, hact]
      | purchased body t₁ t₂ hs hv =>
        obtain ⟨hfrom, hshape⟩ := hP
        have hact : actions b = [Status.CREATED, Status.CERTIFIED] := by
          rcases hshape with h | h | h | h
          · rw [h.2] at hs; cases hs
          · exact h.1
          · rw [h.2] at hs; cases hs
          · rw [h.2] at hs; cases hs
        have hne : b.history ≠ [] := by
          intro h
          simp [actions, h] at hact
        constructor
        · show (b.history ++ [_]).head?.map HistoryEntry.from_ = _
          rw [List.head?_append_of_ne_nil _ hne]
          exact hfrom
        · right; right; right
          simp only [actions] at hact
          simp [actions, purchasedDoc, hact])
    (by intro h; cases h)
    ops emptyStore
    (by
      intro op hop hd
      rw [isDelete_of_isLifecycle (hops op hop)] at hd
      cases hd)
    (by simp [emptyStore]) b hb
  obtain ⟨hfrom, hshape⟩ := hP
  have hlist : ∃ e rest, b.history = e :: rest := by
    cases hh : b.history with
    | nil => rcases hshape with h | h | h | h <;> simp [actions, hh] at h
    | cons e rest => exact ⟨e, rest, rfl⟩
  obtain ⟨e, rest, hh⟩ := hlist
  refine ⟨by simp [hh], hfrom, ?_, ?_, ?_⟩
  · rcases hshape with h | h | h | h <;>
      · have h₁ := h.1
        simp only [actions, hh, List.map_cons] at h₁
        simp [firstAction, hh, (List.cons.inj h₁).1]
  · have hlast : lastAction b = (actions b).getLast? := by
      simp [lastAction, actions, List.getLast?_map]
    rw [hlast]
    rcases hshape with h | h | h | h <;> rw [h.1, h.2] <;> rfl
  · rcases hshape with h | h | h | h
    · exact Or.inl h.1
    · exact Or.inr (Or.inl h.1)
    · exact Or.inr (Or.inr (Or.inl h.1))
    · exact Or.inr (Or.inr (Or.inr h.1))

/-- C28, instantiated: after the lifecycle of `B1`, with a rejected create and a rejected
certify in between, the stored `B1` has the actions CREATED, CERTIFIED, PURCHASED and the
status PURCHASED. -/
theorem lifecycle_history_shape_witness :
    (∀ op ∈ opsLifecycle, op.isLifecycle = true) ∧
    purchasedDoc (certifiedDoc (createdDoc body0 5 6) ⟨"0xC", "good", 9000, true⟩ 7 8)
        ⟨"0xR"⟩ 9 10 ∈ (run opsLifecycle emptyStore).batches ∧
    lastAction
        (purchasedDoc (certifiedDoc (createdDoc body0 5 6) ⟨"0xC", "good", 9000, true⟩ 7 8)
          ⟨"0xR"⟩ 9 10) = some Status.PURCHASED :=
  ⟨by decide, by decide,
    (lifecycle_history_shape opsLifecycle (by decide)
      (purchasedDoc (certifiedDoc (createdDoc body0 5 6) ⟨"0xC", "good", 9000, true⟩ 7 8)
        ⟨"0xR"⟩ 9 10) (by decide)).2.2.2.1⟩

/-! ## The participant is the one the body names -/

/-- C29: the participant a transition records is taken from the request body, not from the
authenticated caller.  Two create, certify or purchase requests with the same body and
the same caller role are answered alike and leave the same store, whatever the identifier
and the wallet address in the two tokens.  On success the batch's `farmer`, `certifier` or
`retailer` is the body's address, the `to` of the history entry written is the body's
address, and the participant list that is updated is the one of the user whose wallet
address is the body's address. -/
theorem participant_taken_from_body (u u' : TokenUser) (hrole : u.role = u'.role)
    (t₁ t₂ : Date) (st : Store) :
    ((∀ body, createRequest u body t₁ t₂ st = createRequest u' body t₁ t₂ st) ∧
      (∀ id body, certifyRequest u id body t₁ t₂ st = certifyRequest u' id body t₁ t₂ st) ∧
      (∀ id body, purchaseRequest u id body t₁ t₂ st =
        purchaseRequest u' id body t₁ t₂ st)) ∧
    (∀ body, (createRequest u body t₁ t₂ st).1.status = 201 →
      ∃ b', findBatch body.batchId (createRequest u body t₁ t₂ st).2.batches = some b' ∧
        b'.farmer = some body.farmer ∧
        b'.history.getLast?.map HistoryEntry.to_ = some body.farmer ∧
        (createRequest u body t₁ t₂ st).2.users =
          updateFirst (fun x => decide (x.walletAddress = body.farmer))
            (fun x => { x with registeredCrops := addToSet x.registeredCrops body.batchId })
            st.users) ∧
    (∀ id body, (certifyRequest u id body t₁ t₂ st).1.status = 200 →
      ∃ b', findBatch id (certifyRequest u id body t₁ t₂ st).2.batches = some b' ∧
        b'.certifier = some body.certifier ∧
        b'.history.getLast?.map HistoryEntry.to_ = some body.certifier ∧
        (certifyRequest u id body t₁ t₂ st).2.users =
          if body.labResults then
            updateFirst (fun x => decide (x.walletAddress = body.certifier))
              (fun x => { x with certifiedCrops := addToSet x.certifiedCrops id }) st.users
          else
            updateFirst (fun x => decide (x.walletAddress = body.certifier))
              (fun x => { x with rejectedCrops := addToSet x.rejectedCrops id }) st.users) ∧
    (∀ id body, (purchaseRequest u id body t₁ t₂ st).1.status = 200 →
      ∃ b', findBatch id (purchaseRequest u id body t₁ t₂ st).2.batches = some b' ∧
        b'.retailer = some body.retailer ∧
        b'.history.getLast?.map HistoryEntry.to_ = some body.retailer ∧
        (purchaseRequest u id body t₁ t₂ st).2.users =
          updateFirst (fun x => decide (x.walletAddress = body.retailer))
            (fun x => { x with purchasedCrops := addToSet x.purchasedCrops id })
            st.users) := by
  refine ⟨⟨?_, ?_, ?_⟩, ?_, ?_, ?_⟩
  · intro body
    simp only [createRequest, hrole]
  · intro id body
    simp only [certifyRequest, hrole]
  · intro id body
    simp only [purchaseRequest, hrole]
  · intro body hok
    simp only [createRequest] at hok ⊢
    rcases create_cases u.role body t₁ t₂ st with ⟨hno, _⟩ | ⟨_, _, hfind, _, h⟩
    · exact absurd hok hno
    · rw [h]
      exact ⟨createdDoc body t₁ t₂, findBatch_append_new hfind rfl, rfl, rfl, rfl⟩
  · intro id body hok
    simp only [certifyRequest] at hok ⊢
    rcases certify_cases u.role id body t₁ t₂ st with ⟨hno, _⟩ | ⟨_, _, b, hfind, _, _, h⟩
    · exact absurd hok hno
    · have hb : b.batchId = id := findBatch_some_id hfind
      rw [h, hb]
      refine ⟨certifiedDoc b body t₁ t₂, findBatch_save hfind hb, rfl, ?_, rfl⟩
      simp [certifiedDoc]
  · intro id body hok
    simp only [purchaseRequest] at hok ⊢
    rcases purchase_cases u.role id body t₁ t₂ st with ⟨hno, _⟩ | ⟨_, _, b, hfind, _, _, h⟩
    · exact absurd hok hno
    · have hb : b.batchId = id := findBatch_some_id hfind
      rw [h, hb]
      refine ⟨purchasedDoc b body t₁ t₂, findBatch_save hfind hb, rfl, ?_, rfl⟩
      simp [purchasedDoc]

/-- C29, instantiated: the certifier `0xC` and another certifier `0xOther` send the same
certify request for `B1`, whose body names `0xC`; the answers and the stores are the same,
and the stored batch names `0xC`. -/
theorem participant_taken_from_body_witness :
    (⟨"u1", Role.certifier, "0xC"⟩ : TokenUser).role =
      (⟨"u2", Role.certifier, "0xOther"⟩ : TokenUser).role ∧
    certifyRequest ⟨"u1", Role.certifier, "0xC"⟩ "B1" ⟨"0xC", "good", 9000, true⟩ 7 8 store1 =
      certifyRequest ⟨"u2", Role.certifier, "0xOther"⟩ "B1" ⟨"0xC", "good", 9000, true⟩ 7 8
        store1 ∧
    (certifyRequest ⟨"u2", Role.certifier, "0xOther"⟩ "B1" ⟨"0xC", "good", 9000, true⟩ 7 8
      store1).1.status = 200 ∧
    ∃ b', findBatch "B1"
        (certifyRequest ⟨"u2", Role.certifier, "0xOther"⟩ "B1" ⟨"0xC", "good", 9000, true⟩ 7 8
          store1).2.batches = some b' ∧
      b'.certifier = some "0xC" :=
  ⟨rfl,
    (participant_taken_from_body ⟨"u1", Role.certifier, "0xC"⟩
      ⟨"u2", Role.certifier, "0xOther"⟩ rfl 7 8 store1).1.2.1 "B1"
      ⟨"0xC", "good", 9000, true⟩,
    by decide,
    match (participant_taken_from_body ⟨"u2", Role.certifier, "0xOther"⟩
      ⟨"u1", Role.certifier, "0xC"⟩ rfl 7 8 store1).2.2.1 "B1"
      ⟨"0xC", "good", 9000, true⟩ (by decide) with
    | ⟨b', h₁, h₂, _⟩ => ⟨b', h₁, h₂⟩⟩

/-! ## Timestamps: seconds, milliseconds and the way back -/

/-- The decimal numeral of a number from `10 ^ e` on has more than `e` digits. -/
theorem toDigitsCore_length_ge (f n e : Nat) (hf : n < f) (he : 10 ^ e ≤ n) :
    e + 1 ≤ (Nat.toDigitsCore 10 f n []).length := by
  induction f generalizing n e with
  | zero => omega
  | succ f ih =>
    simp only [Nat.toDigitsCore]
    by_cases h0 : n / 10 = 0
    · simp only [h0, if_true, List.length_singleton]
      have hn : n < 10 := by omega
      cases e with
      | zero => omega
      | succ e =>
        have : 10 ^ (e + 1) ≥ 10 := by
          calc 10 ^ (e + 1) = 10 ^ e * 10 := by ring
            _ ≥ 1 * 10 := Nat.mul_le_mul_right 10 (Nat.one_le_pow _ _ (by decide))
        omega
    · simp only [h0, if_false]
      rw [Nat.toDigitsCore_lens_eq]
      cases e with
      | zero => omega
      | succ e =>
        have h₁ : 10 ^ e ≤ n / 10 := by
          rw [Nat.le_div_iff_mul_le (by decide)]
          calc 10 ^ e * 10 = 10 ^ (e + 1) := by ring
            _ ≤ n := he
        have h₂ : n / 10 < f := by omega
        have := ih (n / 10) e h₂ h₁
        omega

theorem repr_length_lt_iff (n e : Nat) (he : 0 < e) :
    (Nat.repr n).length ≤ e ↔ n < 10 ^ e := by
  constructor
  · intro h
    by_contra hn
    have hge : 10 ^ e ≤ n := by omega
    have := toDigitsCore_length_ge (n + 1) n e (by omega) hge
    simp only [Nat.repr, Nat.toDigits, String.length, List.asString] at h
    omega
  · exact Nat.repr_length n e he

theorem toString_length_nat (n : Nat) :
    (toString (n : Int)).length < 13 ↔ n < 10 ^ 12 := by
  have : toString (n : Int) = Nat.repr n := rfl
  rw [this, ← repr_length_lt_iff n 12 (by decide)]
  omega

theorem toString_length_neg (m : Nat) :
    (toString (Int.negSucc m)).length < 13 ↔ m + 1 < 10 ^ 11 := by
  have : toString (Int.negSucc m) = "-" ++ Nat.repr (m + 1) := rfl
  rw [this, String.length_append, ← repr_length_lt_iff (m + 1) 11 (by decide)]
  have : "-".length = 1 := rfl
  omega

/-- On a positive integer `timestampToDate` takes seconds below `10 ^ 12` and milliseconds
from there on. -/
theorem timestampToDate_pos (n : Int) (hpos : 0 < n) :
    timestampToDate n = newDate (if n < 10 ^ 12 then n * 1000 else n) := by
  obtain ⟨k, rfl⟩ := Int.eq_ofNat_of_zero_le (le_of_lt hpos)
  have hne : (k : Int) ≠ 0 := by omega
  have hlen := toString_length_nat k
  unfold timestampToDate
  simp only [hne, if_false]
  by_cases hk : k < 10 ^ 12
  · have h₁ : (k : Int) < 10 ^ 12 := by exact_mod_cast hk
    simp only [hlen.mpr hk, h₁, if_true]
  · have h₁ : ¬ (k : Int) < 10 ^ 12 := by exact_mod_cast hk
    have h₂ : ¬ (toString (k : Int)).length < 13 := fun h => hk (hlen.mp h)
    simp only [h₂, h₁, if_false]

/-- On a negative integer the sign is one of the characters counted: seconds above
`-(10 ^ 11)`, milliseconds from there down. -/
theorem timestampToDate_neg (n : Int) (hneg : n < 0) :
    timestampToDate n = newDate (if -(10 ^ 11) < n then n * 1000 else n) := by
  obtain ⟨m, rfl⟩ := Int.eq_negSucc_of_lt_zero hneg
  have hne : Int.negSucc m ≠ 0 := by omega
  have hlen := toString_length_neg m
  unfold timestampToDate
  simp only [hne, if_false]
  have hval : Int.negSucc m = -((m : Int) + 1) := Int.negSucc_eq m
  by_cases hk : m + 1 < 10 ^ 11
  · have h₁ : -(10 ^ 11) < Int.negSucc m := by rw [hval]; omega
    rw [if_pos (hlen.mpr hk), if_pos h₁]
  · have h₁ : ¬ -(10 ^ 11) < Int.negSucc m := by rw [hval]; omega
    have h₂ : ¬ (toString (Int.negSucc m)).length < 13 := fun h => hk (hlen.mp h)
    rw [if_neg h₂, if_neg h₁]

/-- C30, as stated for every integer, fails at 0 and at negative integers: `timestampToDate`
returns `null` for 0, and it treats -100000000000, which has 12 decimal digits, as
milliseconds, because the sign is one of the 13 characters of its numeral; the positive
100000000000 is treated as seconds. -/
theorem timestamp_zero_and_sign :
    timestampToDate 0 = DateValue.null ∧
    (toString (100000000000 : Nat)).length = 12 ∧
    timestampToDate (-100000000000) = DateValue.date (-100000000000) ∧
    timestampToDate 100000000000 = DateValue.date 100000000000000 := by
  decide

/-- C30 (amended): `dateToTimestamp` followed by `timestampToDate` returns the date
truncated to whole seconds: for every date `d` whose second count `s`, the floor of its
milliseconds over 1000, satisfies `1 ≤ s < 10 ^ 12`, `dateToTimestamp d` is `s` and
`timestampToDate s` is the date at exactly `s * 1000` milliseconds.  `timestampToDate`
returns `null` for 0; it treats a positive integer with fewer than 13 decimal digits, one
below `10 ^ 12`, as seconds and any other positive integer as milliseconds; for a negative
integer the sign counts as a character, so it is taken as seconds above `-(10 ^ 11)` and as
milliseconds from there down. -/
theorem timestamp_round_trip :
    (∀ (d : Date) (s : Int), s = Int.fdiv d 1000 → 1 ≤ s → s < 10 ^ 12 →
      dateToTimestamp (some d) = s ∧ timestampToDate s = DateValue.date (s * 1000)) ∧
    timestampToDate 0 = DateValue.null ∧
    (∀ n : Int, 0 < n → n < 10 ^ 12 → timestampToDate n = DateValue.date (n * 1000)) ∧
    (∀ n : Int, 10 ^ 12 ≤ n → timestampToDate n = newDate n) ∧
    (∀ n : Int, 10 ^ 12 ≤ n → n ≤ 8640000000000000 → timestampToDate n = DateValue.date n) ∧
    (∀ n : Int, n < 0 → -(10 ^ 11) < n → timestampToDate n = DateValue.date (n * 1000)) ∧
    (∀ n : Int, n ≤ -(10 ^ 11) → timestampToDate n = newDate n) := by
  have hsec : ∀ n : Int, 0 < n → n < 10 ^ 12 →
      timestampToDate n = DateValue.date (n * 1000) := by
    intro n hpos hlt
    have : (n * 1000).natAbs ≤ 8640000000000000 := by omega
    rw [timestampToDate_pos n hpos, if_pos hlt, newDate, if_pos this]
  refine ⟨?_, by decide, hsec, ?_, ?_, ?_, ?_⟩
  · intro d s hs h1 hlt
    exact ⟨hs.symm, hsec s (by omega) hlt⟩
  · intro n hn
    have : ¬ n < 10 ^ 12 := by omega
    rw [timestampToDate_pos n (by omega), if_neg this]
  · intro n hn hmax
    have h₁ : ¬ n < 10 ^ 12 := by omega
    have h₂ : n.natAbs ≤ 8640000000000000 := by omega
    rw [timestampToDate_pos n (by omega), if_neg h₁, newDate, if_pos h₂]
  · intro n hneg hgt
    have : (n * 1000).natAbs ≤ 8640000000000000 := by omega
    rw [timestampToDate_neg n hneg, if_pos hgt, newDate, if_pos this]
  · intro n hn
    have : ¬ -(10 ^ 11) < n := by omega
    rw [timestampToDate_neg n (by omega), if_neg this]

/-- C30 (amended), instantiated: the instant 1700000000123 has the second count
1700000000, which comes back as the instant 1700000000000. -/
theorem timestamp_round_trip_witness :
    (1700000000 : Int) = Int.fdiv 1700000000123 1000 ∧
    dateToTimestamp (some 1700000000123) = 1700000000 ∧
    timestampToDate 1700000000 = DateValue.date (1700000000 * 1000) :=
  ⟨by decide, timestamp_round_trip.1 1700000000123 1700000000 (by decide) (by decide)
    (by decide)⟩

/-! ## Searching the batches -/

/-- C25, as stated for every query text, fails on a text that is a number and the
identifier of a stored batch: the search for `123` answers the batch `123` alone, none of
whose crop name, crop variety and location contains `123`, and leaves out the stored batch
whose location is `Plot 123`. -/
theorem search_by_number_is_a_lookup :
    search engineLiteral "123" storeSearch = ⟨200, [batch123], none⟩ ∧
    includesIgnoreCase batch123.cropName "123" = false ∧
    includesIgnoreCase batch123.cropVariety "123" = false ∧
    includesIgnoreCase batch123.location "123" = false ∧
    batchPlot ∈ storeSearch.batches ∧
    includesIgnoreCase batchPlot.location "123" = true := by
  decide

/-- C25 (amended): when the query is a number and a batch with that identifier is stored,
the answer of `search` is that batch alone.  Otherwise the query is a regular expression:
when it does not compile the answer is 500 "Server error"; when it does, the answer holds
exactly the stored batches whose crop name, crop variety or location it matches, letter
case aside, each as often as it is stored, newest first by `createdAt`; and for a query
that the engine reads as literal text these are exactly the stored batches whose crop name,
crop variety or location contains the text, letter case aside. -/
theorem search_result (engine : SearchEngine) (query : String) (st : Store) :
    (∀ b, engine.isNaN query = false → findBatch query st.batches = some b →
      search engine query st = ⟨200, [b], none⟩) ∧
    ((engine.isNaN query = true ∨ findBatch query st.batches = none) →
      (engine.regex query = none →
        search engine query st = ⟨500, [], some "Server error"⟩) ∧
      (∀ test, engine.regex query = some test →
        (search engine query st).status = 200 ∧
        (∀ b, b ∈ (search engine query st).batches ↔
          b ∈ st.batches ∧
            (test b.cropName = true ∨ test b.cropVariety = true ∨ test b.location = true)) ∧
        (search engine query st).batches.Perm
          (st.batches.filter
            (fun b => test b.cropName || test b.cropVariety || test b.location)) ∧
        (search engine query st).batches.Pairwise (fun a b => b.createdAt ≤ a.createdAt) ∧
        ((∀ s, test s = includesIgnoreCase s query) →
          ∀ b, b ∈ (search engine query st).batches ↔
            b ∈ st.batches ∧
              (includesIgnoreCase b.cropName query = true ∨
                includesIgnoreCase b.cropVariety query = true ∨
                includesIgnoreCase b.location query = true)))) := by
  constructor
  · intro b hnum hfind
    simp [search, hnum, hfind]
  · intro hscan
    have hmiss : (if engine.isNaN query then none else findBatch query st.batches) = none := by
      rcases hscan with h | h
      · simp [h]
      · simp [h]
    constructor
    · intro hbad
      simp only [search, hmiss, hbad]
    · intro test hre
      have hmem : ∀ b, b ∈ (search engine query st).batches ↔
          b ∈ st.batches ∧
            (test b.cropName = true ∨ test b.cropVariety = true ∨ test b.location = true) := by
        intro b
        simp only [search, hmiss, hre, List.mem_insertionSort, List.mem_filter,
          Bool.or_eq_true, or_assoc]
      refine ⟨by simp only [search, hmiss, hre], hmem, ?_, ?_, ?_⟩
      · simp only [search, hmiss, hre]
        exact List.perm_insertionSort _ _
      · simp only [search, hmiss, hre]
        exact List.sorted_insertionSort NewerFirst _
      · intro hlit b
        rw [hmem b, hlit, hlit, hlit]

/-- C25 (amended), instantiated: the search for `RICE` answers the two stored batches whose
crop name contains it, the newer one first. -/
theorem search_result_witness :
    (engineLiteral.isNaN "RICE" = true ∨ findBatch "RICE" storeSearch.batches = none) ∧
    engineLiteral.regex "RICE" = some (fun s => includesIgnoreCase s "RICE") ∧
    search engineLiteral "RICE" storeSearch = ⟨200, [batchRice, batchPlot], none⟩ ∧
    (search engineLiteral "RICE" storeSearch).batches.Pairwise
      (fun a b => b.createdAt ≤ a.createdAt) :=
  ⟨by decide, rfl, by decide,
    (((search_result engineLiteral "RICE" storeSearch).2 (by decide)).2
      (fun s => includesIgnoreCase s "RICE") rfl).2.2.2.1⟩

/-! ## Creations that overlap in time -/

/-- A request served alone goes through its steps to the answer and the store of
`create`. -/
theorem createAlone_eq_create (c : CreateCall) (st : Store) :
    createAlone c st =
      (CreatePhase.answered (create c.role c.body c.t₁ c.t₂ st).1,
        (create c.role c.body c.t₁ c.t₂ st).2) := by
  unfold createAlone create
  by_cases hr : c.role = Role.farmer
  · cases hfind : findBatch c.body.batchId st.batches with
    | some b => simp [createStep, hr, hfind]
    | none =>
      cases hv : validate (createdDoc c.body c.t₁ c.t₂) with
      | true =>
        have hv' := hv
        simp only [createdDoc] at hv'
        simp [createStep, hr, hfind, hv, hv', createdDoc]
      | false =>
        have hv' := hv
        simp only [createdDoc] at hv'
        simp [createStep, hr, hfind, hv, hv']
  · simp [createStep, hr]

theorem stored_eq_zero_of_findBatch_none {id : String} {st : Store}
    (h : findBatch id st.batches = none) : stored id st = 0 := by
  unfold stored
  rw [List.countP_eq_zero]
  exact List.find?_eq_none.mp h

theorem stored_pos_of_findBatch_some {id : String} {st : Store} {b : Batch}
    (h : findBatch id st.batches = some b) : 1 ≤ stored id st := by
  unfold stored
  rw [Nat.succ_le_iff, List.countP_pos_iff]
  exact ⟨b, findBatch_some_mem h, by simpa using findBatch_some_id h⟩

/-- A step either leaves the batches and whether the request has saved, or it is the save:
the identifier was not stored and now is stored once. -/
theorem createStep_won (c : CreateCall) (ph : CreatePhase) (st : Store) :
    ((createStep c ph st).1.won = ph.won ∧ (createStep c ph st).2.batches = st.batches) ∨
    (ph.won = false ∧ (createStep c ph st).1.won = true ∧ stored c.body.batchId st = 0 ∧
      stored c.body.batchId (createStep c ph st).2 = 1) := by
  cases ph with
  | start =>
    left
    simp only [createStep]
    by_cases hr : c.role ≠ Role.farmer
    · rw [if_pos hr]
      exact ⟨rfl, rfl⟩
    · rw [if_neg hr]
      cases hfind : findBatch c.body.batchId st.batches <;> exact ⟨rfl, rfl⟩
  | checked =>
    simp only [createStep]
    by_cases hv : validate (createdDoc c.body c.t₁ c.t₂) = true
    · rw [if_pos hv]
      cases hfind : findBatch c.body.batchId st.batches with
      | some b => exact Or.inl ⟨rfl, rfl⟩
      | none =>
        right
        have h0 := stored_eq_zero_of_findBatch_none hfind
        refine ⟨rfl, rfl, h0, ?_⟩
        unfold stored at h0
        show List.countP _ (st.batches ++ [createdDoc c.body c.t₁ c.t₂]) = 1
        rw [List.countP_append, h0]
        simp [createdDoc]
    · rw [if_neg hv]
      exact Or.inl ⟨rfl, rfl⟩
  | saved => exact Or.inl ⟨rfl, rfl⟩
  | answered r => exact Or.inl ⟨rfl, rfl⟩

/-- A step of a farmer's request whose body passes validation ends in an answer only if
the answer was there before, or is 201, or is one of the two refusals, given while the
identifier is stored. -/
theorem createStep_answer (c : CreateCall) (ph : CreatePhase) (st : Store)
    (hrole : c.role = Role.farmer) (hv : validate (createdDoc c.body c.t₁ c.t₂) = true)
    (r : Response) (h : (createStep c ph st).1 = CreatePhase.answered r) :
    ph = CreatePhase.answered r ∨ r.status = 201 ∨
      (1 ≤ stored c.body.batchId st ∧
        (r = DuplicateBatch ∨ r = ⟨500, "Server error", none⟩)) := by
  cases ph with
  | start =>
    simp only [createStep] at h
    rw [if_neg (by simp [hrole])] at h
    cases hfind : findBatch c.body.batchId st.batches with
    | some b =>
      rw [hfind] at h
      cases h
      exact Or.inr (Or.inr ⟨stored_pos_of_findBatch_some hfind, Or.inl rfl⟩)
    | none =>
      rw [hfind] at h
      cases h
  | checked =>
    simp only [createStep] at h
    rw [if_pos hv] at h
    cases hfind : findBatch c.body.batchId st.batches with
    | some b =>
      rw [hfind] at h
      cases h
      exact Or.inr (Or.inr ⟨stored_pos_of_findBatch_some hfind, Or.inr rfl⟩)
    | none =>
      rw [hfind] at h
      cases h
  | saved =>
    simp only [createStep] at h
    cases h
    exact Or.inr (Or.inl rfl)
  | answered r' =>
    left
    exact h

/-- What `stepAt` does: nothing, or one step of one request, the others standing. -/
theorem stepAt_spec (i : Nat) (flights : List (CreateCall × CreatePhase)) (st : Store) :
    stepAt i flights st = (flights, st) ∨
    ∃ pre c ph post, flights = pre ++ (c, ph) :: post ∧
      stepAt i flights st =
        (pre ++ (c, (createStep c ph st).1) :: post, (createStep c ph st).2) := by
  induction flights generalizing i with
  | nil =>
    left
    cases i <;> rfl
  | cons x rest ih =>
    cases i with
    | zero =>
      right
      exact ⟨[], x.1, x.2, rest, rfl, rfl⟩
    | succ i =>
      rcases ih i with h | ⟨pre, c, ph, post, hfl, h⟩
      · left
        simp [stepAt, h]
      · right
        refine ⟨x :: pre, c, ph, post, by simp [hfl], ?_⟩
        simp [stepAt, h]

theorem stepAt_map_fst (i : Nat) (flights : List (CreateCall × CreatePhase)) (st : Store) :
    (stepAt i flights st).1.map Prod.fst = flights.map Prod.fst := by
  rcases stepAt_spec i flights st with h | ⟨pre, c, ph, post, hfl, h⟩
  · rw [h]
  · rw [h, hfl]
    simp

/-- A step does not take a stored batch away. -/
theorem createStep_stored_mono (c : CreateCall) (ph : CreatePhase) (st : Store) :
    stored c.body.batchId st ≤ stored c.body.batchId (createStep c ph st).2 := by
  rcases createStep_won c ph st with ⟨_, hb⟩ | ⟨_, _, h0, h1⟩
  · unfold stored
    rw [hb]
  · omega

/-- Along every interleaving of requests for one identifier, the number of requests that
have saved their batch is the number of stored batches with the identifier, and it is at
most one. -/
theorem interleave_arbitrated (id : String) (calls : List CreateCall)
    (hid : ∀ c ∈ calls, c.body.batchId = id) (schedule : List Nat) :
    ∀ (flights : List (CreateCall × CreatePhase)) (st : Store),
      flights.map Prod.fst = calls →
      stored id st = flights.countP (fun x => x.2.won) →
      flights.countP (fun x => x.2.won) ≤ 1 →
      (interleave schedule flights st).1.map Prod.fst = calls ∧
      stored id (interleave schedule flights st).2 =
        (interleave schedule flights st).1.countP (fun x => x.2.won) ∧
      (interleave schedule flights st).1.countP (fun x => x.2.won) ≤ 1 := by
  induction schedule with
  | nil =>
    intro flights st h₁ h₂ h₃
    exact ⟨h₁, h₂, h₃⟩
  | cons i schedule ih =>
    intro flights st h₁ h₂ h₃
    simp only [interleave]
    have hcalls := (stepAt_map_fst i flights st).trans h₁
    rcases stepAt_spec i flights st with h | ⟨pre, c, ph, post, hfl, h⟩
    · rw [h]
      exact ih flights st h₁ h₂ h₃
    · have hc : c.body.batchId = id := by
        apply hid
        rw [← h₁, hfl]
        simp
      rw [h] at hcalls ⊢
      apply ih _ _ hcalls
      · rw [hfl] at h₂
        simp only [List.countP_append, List.countP_cons] at h₂ ⊢
        rcases createStep_won c ph st with ⟨hw, hb⟩ | ⟨hw, hw', h0, h1⟩
        · rw [hw]
          unfold stored at h₂ ⊢
          rw [hb]
          exact h₂
        · rw [hc] at h0 h1
          rw [hw] at h₂
          rw [hw', h1]
          simp only [Bool.false_eq_true, if_false] at h₂
          simp only [if_true]
          omega
      · rw [hfl] at h₂ h₃
        simp only [List.countP_append, List.countP_cons] at h₂ h₃ ⊢
        rcases createStep_won c ph st with ⟨hw, _⟩ | ⟨hw, hw', h0, _⟩
        · rw [hw]
          exact h₃
        · rw [hc] at h0
          rw [hw] at h₂
          rw [hw']
          simp only [Bool.false_eq_true, if_false] at h₂
          simp only [if_true]
          omega

/-- Along every interleaving of farmers' requests for one identifier with bodies that pass
validation, an answer is 201 or one of the two refusals, given while the identifier is
stored. -/
theorem interleave_answers (id : String) (calls : List CreateCall)
    (hid : ∀ c ∈ calls, c.body.batchId = id)
    (hvalid : ∀ c ∈ calls, c.role = Role.farmer ∧
      validate (createdDoc c.body c.t₁ c.t₂) = true) (schedule : List Nat) :
    ∀ (flights : List (CreateCall × CreatePhase)) (st : Store),
      flights.map Prod.fst = calls →
      (∀ x ∈ flights, ∀ r, x.2 = CreatePhase.answered r →
        r.status = 201 ∨
          (1 ≤ stored id st ∧ (r = DuplicateBatch ∨ r = ⟨500, "Server error", none⟩))) →
      ∀ x ∈ (interleave schedule flights st).1, ∀ r, x.2 = CreatePhase.answered r →
        r.status = 201 ∨
          (1 ≤ stored id (interleave schedule flights st).2 ∧
            (r = DuplicateBatch ∨ r = ⟨500, "Server error", none⟩)) := by
  induction schedule with
  | nil =>
    intro flights st _ h
    exact h
  | cons i schedule ih =>
    intro flights st h₁ h₂
    simp only [interleave]
    have hcalls := (stepAt_map_fst i flights st).trans h₁
    rcases stepAt_spec i flights st with h | ⟨pre, c, ph, post, hfl, h⟩
    · rw [h]
      exact ih flights st h₁ h₂
    · have hmem : c ∈ calls := by
        rw [← h₁, hfl]
        simp
      have hc : c.body.batchId = id := hid c hmem
      have hmono : stored id st ≤ stored id (createStep c ph st).2 := by
        have := createStep_stored_mono c ph st
        rwa [hc] at this
      have hlift : ∀ r : Response,
          (r.status = 201 ∨
            (1 ≤ stored id st ∧ (r = DuplicateBatch ∨ r = ⟨500, "Server error", none⟩))) →
          (r.status = 201 ∨
            (1 ≤ stored id (createStep c ph st).2 ∧
              (r = DuplicateBatch ∨ r = ⟨500, "Server error", none⟩))) := by
        intro r hr
        rcases hr with hr | ⟨hs, hr⟩
        · exact Or.inl hr
        · exact Or.inr ⟨le_trans hs hmono, hr⟩
      rw [h] at hcalls ⊢
      apply ih _ _ hcalls
      intro x hx r hxr
      have hx' : x ∈ pre ∨ x = (c, (createStep c ph st).1) ∨ x ∈ post := by
        simpa using hx
      rcases hx' with hx' | hx' | hx'
      · exact hlift r (h₂ x (by rw [hfl]; simp [hx']) r hxr)
      · rw [hx'] at hxr
        rcases createStep_answer c ph st (hvalid c hmem).1 (hvalid c hmem).2 r hxr with
          hold | hok | hbad
        · exact hlift r (h₂ (c, ph) (by rw [hfl]; simp) r hold)
        · exact Or.inl hok
        · rw [hc] at hbad
          exact hlift r (Or.inr hbad)
      · exact hlift r (h₂ x (by rw [hfl]; simp [hx']) r hxr)

/-- A step takes a request one step on, unless it is answered. -/
theorem createStep_rank (c : CreateCall) (ph : CreatePhase) (st : Store) :
    3 ≤ (createStep c ph st).1.rank ∨ ph.rank + 1 ≤ (createStep c ph st).1.rank := by
  cases ph with
  | start =>
    simp only [createStep]
    split
    · exact Or.inl (le_refl 3)
    · split
      · exact Or.inl (le_refl 3)
      · exact Or.inr (le_refl 1)
  | checked =>
    simp only [createStep]
    split
    · split
      · exact Or.inl (le_refl 3)
      · exact Or.inr (le_refl 2)
    · exact Or.inl (le_refl 3)
  | saved => exact Or.inl (le_refl 3)
  | answered r => exact Or.inl (le_refl 3)

theorem answered_of_rank (ph : CreatePhase) (h : 3 ≤ ph.rank) :
    ∃ r, ph = CreatePhase.answered r := by
  cases ph with
  | start => simp [CreatePhase.rank] at h
  | checked => simp [CreatePhase.rank] at h
  | saved => simp [CreatePhase.rank] at h
  | answered r => exact ⟨r, rfl⟩

theorem stepAt_getElem? (j i : Nat) (flights : List (CreateCall × CreatePhase)) (st : Store) :
    (stepAt j flights st).1[i]? =
      if i = j then flights[i]?.map (fun x => (x.1, (createStep x.1 x.2 st).1))
      else flights[i]? := by
  induction flights generalizing i j with
  | nil => cases j <;> simp [stepAt]
  | cons x rest ih =>
    cases j with
    | zero =>
      cases i with
      | zero => simp [stepAt]
      | succ i => simp [stepAt]
    | succ j =>
      cases i with
      | zero => simp [stepAt]
      | succ i => simp [stepAt, ih]

/-- A request that is named `k` times in the schedule has taken `k` steps, or is
answered. -/
theorem interleave_progress (schedule : List Nat) :
    ∀ (flights : List (CreateCall × CreatePhase)) (st : Store) (i : Nat)
      (x : CreateCall × CreatePhase), flights[i]? = some x →
      ∃ y, (interleave schedule flights st).1[i]? = some y ∧
        (3 ≤ y.2.rank ∨ x.2.rank + schedule.count i ≤ y.2.rank) := by
  induction schedule with
  | nil =>
    intro flights st i x hx
    exact ⟨x, hx, Or.inr (by simp)⟩
  | cons j schedule ih =>
    intro flights st i x hx
    simp only [interleave]
    by_cases hij : i = j
    · subst hij
      have hstep : (stepAt i flights st).1[i]? = some (x.1, (createStep x.1 x.2 st).1) := by
        rw [stepAt_getElem?, if_pos rfl, hx]
        rfl
      obtain ⟨y, hy, hrank⟩ := ih _ (stepAt i flights st).2 i _ hstep
      refine ⟨y, hy, ?_⟩
      have hone := createStep_rank x.1 x.2 st
      have hrank' : 3 ≤ y.2.rank ∨
          (createStep x.1 x.2 st).1.rank + schedule.count i ≤ y.2.rank := hrank
      rw [List.count_cons_self]
      omega
    · have hstep : (stepAt j flights st).1[i]? = some x := by
        rw [stepAt_getElem?, if_neg hij, hx]
      obtain ⟨y, hy, hrank⟩ := ih _ (stepAt j flights st).2 i _ hstep
      refine ⟨y, hy, ?_⟩
      rw [List.count_cons_of_ne hij]
      exact hrank

theorem launch_map_fst (calls : List CreateCall) : (launch calls).map Prod.fst = calls := by
  unfold launch
  rw [List.map_map]
  exact List.map_id _

theorem launch_none_won (calls : List CreateCall) :
    (launch calls).countP (fun x => x.2.won) = 0 := by
  rw [List.countP_eq_zero]
  intro x hx
  unfold launch at hx
  obtain ⟨c, _, rfl⟩ := List.mem_map.mp hx
  simp [CreatePhase.won]

/-- C24, as stated, fails: the handler is an existence check followed by a separate save.
Two requests by farmers to create `B1` both run their check before either saves; the first
to save is answered 201, and the save of the second is refused by the unique key and
answered 500 "Server error", which is not the answer `DuplicateBatch`.  Served one after
the other, the second is answered `DuplicateBatch`. -/
theorem refused_save_is_a_server_error :
    (interleave [0, 1, 0, 0, 1] (launch callsB1) store0).1.map Prod.snd =
      [CreatePhase.answered
          ⟨201, "Batch created successfully", some (createdDoc body0 5 6)⟩,
        CreatePhase.answered ⟨500, "Server error", none⟩] ∧
    (⟨500, "Server error", none⟩ : Response) ≠ DuplicateBatch ∧
    (interleave [0, 0, 0, 1] (launch callsB1) store0).1.map Prod.snd =
      [CreatePhase.answered
          ⟨201, "Batch created successfully", some (createdDoc body0 5 6)⟩,
        CreatePhase.answered DuplicateBatch] := by
  decide

/-- C24 (amended): for every interleaving of the steps of create calls with the same
`batchId`, from a store that does not hold the identifier, at most one call succeeds and
the identifier is stored at most once.  Once every call has been given its three steps,
every call is answered; if moreover the calls are made by farmers, with bodies that pass
validation, and there is at least one, then exactly one call has succeeded, the identifier
is stored exactly once, and every other call has failed, with `DuplicateBatch` from its
existence check or with 500 "Server error" from a save that the unique key refused. -/
theorem concurrent_create (calls : List CreateCall) (id : String) (st : Store)
    (schedule : List Nat) (hid : ∀ c ∈ calls, c.body.batchId = id)
    (hnew : findBatch id st.batches = none) :
    (interleave schedule (launch calls) st).1.countP (fun x => x.2.succeeded) ≤ 1 ∧
    stored id (interleave schedule (launch calls) st).2 ≤ 1 ∧
    ((∀ i, i < calls.length → 3 ≤ schedule.count i) →
      ∀ x ∈ (interleave schedule (launch calls) st).1, ∃ r, x.2 = CreatePhase.answered r) ∧
    ((∀ c ∈ calls, c.role = Role.farmer ∧ validate (createdDoc c.body c.t₁ c.t₂) = true) →
      calls ≠ [] → (∀ i, i < calls.length → 3 ≤ schedule.count i) →
      (interleave schedule (launch calls) st).1.countP (fun x => x.2.succeeded) = 1 ∧
      stored id (interleave schedule (launch calls) st).2 = 1 ∧
      ∀ x ∈ (interleave schedule (launch calls) st).1, ∀ r, x.2 = CreatePhase.answered r →
        r.status ≠ 201 → r = DuplicateBatch ∨ r = ⟨500, "Server error", none⟩) := by
  have h0 : stored id st = (launch calls).countP (fun x => x.2.won) := by
    rw [launch_none_won, stored_eq_zero_of_findBatch_none hnew]
  obtain ⟨hmap, hst, hle⟩ := interleave_arbitrated id calls hid schedule (launch calls) st
    (launch_map_fst calls) h0 (by rw [launch_none_won]; exact Nat.zero_le 1)
  have hanswered : (∀ i, i < calls.length → 3 ≤ schedule.count i) →
      ∀ x ∈ (interleave schedule (launch calls) st).1,
        ∃ r, x.2 = CreatePhase.answered r := by
    intro hfair x hx
    obtain ⟨i, hi⟩ := List.mem_iff_getElem?.mp hx
    have hlen : (interleave schedule (launch calls) st).1.length = calls.length := by
      have := congrArg List.length hmap
      rwa [List.length_map] at this
    have hlt : i < calls.length := by
      rw [← hlen]
      by_contra hge
      rw [List.getElem?_eq_none (by omega)] at hi
      cases hi
    have hstart : (launch calls)[i]? = some (calls[i], CreatePhase.start) := by
      simp [launch, List.getElem?_map, List.getElem?_eq_getElem hlt]
    obtain ⟨y, hy, hrank⟩ := interleave_progress schedule (launch calls) st i _ hstart
    rw [hi] at hy
    cases hy
    have hcount := hfair i hlt
    apply answered_of_rank
    rcases hrank with h | h
    · exact h
    · have h' : CreatePhase.start.rank + schedule.count i ≤ x.2.rank := h
      omega
  refine ⟨?_, ?_, hanswered, ?_⟩
  · refine le_trans (List.countP_mono_left ?_) hle
    intro x _ hx
    cases hph : x.2 <;> simp [hph, CreatePhase.succeeded, CreatePhase.won] at hx ⊢
    exact hx
  · rw [hst]
    exact hle
  · intro hvalid hne hfair
    have hall := hanswered hfair
    have hans := interleave_answers id calls hid hvalid schedule (launch calls) st
      (launch_map_fst calls)
      (by
        intro x hx r hxr
        unfold launch at hx
        obtain ⟨c, _, rfl⟩ := List.mem_map.mp hx
        cases hxr)
    have hres : (interleave schedule (launch calls) st).1 ≠ [] := by
      intro h
      rw [h] at hmap
      exact hne hmap.symm
    obtain ⟨x, hx⟩ := List.exists_mem_of_ne_nil _ hres
    obtain ⟨r, hr⟩ := hall x hx
    have hone : (interleave schedule (launch calls) st).1.countP (fun x => x.2.won) = 1 := by
      rcases hans x hx r hr with h201 | ⟨hs, _⟩
      · have hpos : 0 < (interleave schedule (launch calls) st).1.countP
            (fun x => x.2.won) := by
          rw [List.countP_pos_iff]
          exact ⟨x, hx, by simp [hr, CreatePhase.won, h201]⟩
        omega
      · omega
    have hsame : (interleave schedule (launch calls) st).1.countP (fun x => x.2.succeeded) =
        (interleave schedule (launch calls) st).1.countP (fun x => x.2.won) := by
      apply List.countP_congr
      intro y hy
      obtain ⟨r', hr'⟩ := hall y hy
      simp [hr', CreatePhase.succeeded, CreatePhase.won]
    refine ⟨hsame.trans hone, hst.trans hone, ?_⟩
    intro y hy r' hr' hbad
    rcases hans y hy r' hr' with h | ⟨_, h⟩
    · exact absurd h hbad
    · exact h

/-- C24 (amended), instantiated: of the two requests for `B1`, interleaved so that both
checks come before either save, exactly one has succeeded. -/
theorem concurrent_create_witness :
    (∀ c ∈ callsB1, c.body.batchId = "B1") ∧
    findBatch "B1" store0.batches = none ∧
    (∀ i, i < callsB1.length → 3 ≤ [0, 1, 0, 0, 1, 1].count i) ∧
    (interleave [0, 1, 0, 0, 1, 1] (launch callsB1) store0).1.countP
      (fun x => x.2.succeeded) = 1 :=
  ⟨by decide, by decide, by decide,
    ((concurrent_create callsB1 "B1" store0 [0, 1, 0, 0, 1, 1] (by decide) (by decide)).2.2.2
      (by decide) (by decide) (by decide)).1⟩

end AgroTrust
